import Mathlib

/-!
# Antibot detector extension: scan engine, score calculator and coordinator

A shallow embedding of `src/modules/score-calculator.js`, `src/modules/scan-engine.js`,
`src/modules/rule-loader.js`, `src/modules/cache-handler.js`, the coordinator of
`src/background.js`, the hook reporting of `src/content-main-world.js` and the markup
collection of `src/content.js`.

Conventions of the embedding.
* JavaScript numbers are embedded as `Int` (confidences are integers in the catalog);
  sums are exact, as they are in the code for integers of magnitude below 2^53.
* `Object.prototype` holds its built-in properties only.
* A property that may be missing on an object is an `Option`; `none` is `undefined`.
* JavaScript strings are embedded as `String` (well-formed strings, a sequence of
  Unicode scalar values).
* The host functions the engine calls (`toLowerCase`, `new RegExp`, `RegExp.test`) are
  embedded exactly on ASCII text and on regular expressions made of literal characters
  and word boundaries, and are left to a `Runtime` parameter everywhere else, so every
  theorem holds for every behaviour of the host there.
* `Object.entries` of the catalog is the catalog itself, a list of categories in
  enumeration order; `Array.prototype.sort` is a stable sort.
* The pattern cache of the engine is passed in and out of every function that reaches
  `matchText`.
* The coordinator handles one message at a time: `handleMessage` takes the state, the
  value of `Date.now()` and the cookie reader, and returns the response, the new state
  and the calls made to the host.
* Where a length or a character code matters (`slice`, `charCodeAt`), a string is the
  list of its UTF-16 code units.
* The cache handler passes its in-memory map and the host store in and out, with one
  reading of the clock for each call.
-/

/-! ## Truthiness -/

namespace Js

/-- Truthiness of an optional boolean property: `undefined` and `false` are falsy. -/
def truthy : Option Bool → Bool
  | some true => true
  | _ => false

/-- Truthiness of an optional string property: `undefined` and the empty string are falsy. -/
def strTruthy : Option String → Bool
  | some s => !s.data.isEmpty
  | none => false

/-- The value of `x || d` for an optional number: `undefined` and `0` are falsy. -/
def numOr (x : Option Int) (d : Int) : Int :=
  match x with
  | some v => if v = 0 then d else v
  | none => d

/-- Template-literal rendering of an optional boolean. -/
def flagString : Option Bool → String
  | some true => "true"
  | some false => "false"
  | none => "undefined"

end Js

/-! ## Score calculator (`src/modules/score-calculator.js`) -/

/-- A match record pushed by `checkDetector`. -/
structure MatchRecord where
  type : String
  rule : Option String
  confidence : Int
  description : Option String
deriving DecidableEq, Repr

namespace ScoreCalculator

/-- One iteration of the loop of `calculateConfidence`: the guard
`match.confidence && match.confidence > maxConfidence`. -/
def confidenceStep (maxConfidence : Int) (m : MatchRecord) : Int :=
  if m.confidence ≠ 0 ∧ m.confidence > maxConfidence then m.confidence else maxConfidence

/-- `ScoreCalculator.calculateConfidence(matches, detectorBaseConfidence = 50)`. The sum
`maxConfidence + matchBoost` is the one of the code for integers of magnitude up to
2^53 - 15, which a double adds exactly; beyond that the code rounds the sum. -/
def calculateConfidence (matchList : Option (List MatchRecord))
    (detectorBaseConfidence : Option Int) : Int :=
  match matchList with
  | none => 0
  | some ms =>
    if ms.length = 0 then 0
    else
      let maxConfidence := ms.foldl confidenceStep (detectorBaseConfidence.getD 50)
      let matchBoost := min ((ms.length : Int) * 2) 15
      min (maxConfidence + matchBoost) 100

end ScoreCalculator

/-! ## Host functions -/

/-- The part of the host (the JavaScript engine) that is not evaluated by the embedding. -/
structure Runtime where
  /-- Value of `String.prototype.toLowerCase` on a string holding a non-ASCII character. -/
  toLowerCase : String → String
  /-- Single code unit upper-casing of a non-ASCII character of the basic plane. -/
  toUpperChar : Char → Char
  /-- Whether `new RegExp(source)` succeeds, for a source outside the literal fragment. -/
  regexCompiles : String → Bool
  /-- Result of `test` for a source outside the literal fragment (`none`: it throws). -/
  regexTest : String → Bool → String → Option Bool

namespace Js

/-- A runtime that knows ASCII only; used to evaluate the engine on concrete inputs. -/
def asciiRuntime : Runtime where
  toLowerCase := fun s => s
  toUpperChar := fun c => c
  regexCompiles := fun _ => false
  regexTest := fun _ _ _ => none

/-- Whether every character of the list is ASCII. -/
def isAscii (s : List Char) : Bool := s.all fun c => decide (c.val.toNat < 128)

/-- `String.prototype.toLowerCase`. -/
def toLowerCase (H : Runtime) (s : String) : String :=
  if isAscii s.data then String.mk (s.data.map Char.toLower) else H.toLowerCase s

/-- Whether `p` occurs in `t` as a contiguous block. -/
def isInfixOf (p : List Char) : List Char → Bool
  | [] => p.isEmpty
  | c :: t => p.isPrefixOf (c :: t) || isInfixOf p t

/-- `String.prototype.includes`. -/
def includes (text pattern : String) : Bool := isInfixOf pattern.data text.data

/-- The syntax characters of a regular expression pattern, the class
`[.*+?^$\x7b\x7d()|[\]\\]` of `escapeRegex`. -/
def isSyntaxChar (c : Char) : Bool :=
  c ∈ ['.', '*', '+', '?', '^', '$', '\x7b', '\x7d', '(', ')', '|', '[', ']', '\\']

/-- Word characters of a regular expression without the unicode flag: `[A-Za-z0-9_]`. -/
def isWordChar (c : Char) : Bool := c.isAlphanum || c == '_'

/-- An element of a pattern of the literal fragment. -/
inductive Atom where
  | wordBoundary
  | char (c : Char)
deriving DecidableEq, Repr

/-- Parser of the literal fragment of the pattern grammar: `\b`, an escaped syntax
character, or a character that is not a syntax character. `none`: outside the fragment. -/
def parseLiteral : List Char → Option (List Atom)
  | [] => some []
  | c :: rest =>
    if c = '\\' then
      match rest with
      | [] => none
      | d :: rest2 =>
        if d = 'b' then (parseLiteral rest2).map (Atom.wordBoundary :: ·)
        else if isSyntaxChar d then (parseLiteral rest2).map (Atom.char d :: ·)
        else none
    else if isSyntaxChar c then none
    else (parseLiteral rest).map (Atom.char c :: ·)

/-- The abstract operation Canonicalize of a regular expression without the unicode flag. -/
def canonicalize (H : Runtime) (ignoreCase : Bool) (c : Char) : Char :=
  if !ignoreCase then c
  else if c.val.toNat < 128 then c.toUpper
  else if 65536 ≤ c.val.toNat then c
  else
    let cu := H.toUpperChar c
    if cu.val.toNat < 128 then c else cu

/-- Whether an optional character is a word character (`none`: an end of the input). -/
def isWordAt : Option Char → Bool
  | some c => isWordChar c
  | none => false

/-- Match the atoms at the current position; `prev` is the character before it. -/
def matchHere (H : Runtime) (ignoreCase : Bool) : List Atom → Option Char → List Char → Bool
  | [], _, _ => true
  | Atom.wordBoundary :: as, prev, rest =>
    (isWordAt prev != isWordAt rest.head?) && matchHere H ignoreCase as prev rest
  | Atom.char _ :: _, _, [] => false
  | Atom.char c :: as, _, t :: ts =>
    (canonicalize H ignoreCase c == canonicalize H ignoreCase t) && matchHere H ignoreCase as (some t) ts

/-- Search for a match starting at the current position or at any later one. -/
def searchAtoms (H : Runtime) (ignoreCase : Bool) (atoms : List Atom) :
    Option Char → List Char → Bool
  | prev, [] => matchHere H ignoreCase atoms prev []
  | prev, t :: ts =>
    matchHere H ignoreCase atoms prev (t :: ts) || searchAtoms H ignoreCase atoms (some t) ts

/-- A compiled regular expression: its source and its `i` flag. -/
structure RegExp where
  source : String
  ignoreCase : Bool
deriving DecidableEq, Repr

/-- The constructor `new RegExp(pattern, ignoreCase ? 'i' : '')`; `none`: SyntaxError. -/
def RegExp.compile (H : Runtime) (pattern : String) (ignoreCase : Bool) : Option RegExp :=
  match parseLiteral pattern.data with
  | some _ => some ⟨pattern, ignoreCase⟩
  | none => if H.regexCompiles pattern then some ⟨pattern, ignoreCase⟩ else none

/-- The method `RegExp.prototype.test`; `none`: it throws. -/
def RegExp.test (H : Runtime) (r : RegExp) (text : String) : Option Bool :=
  match parseLiteral r.source.data with
  | some atoms => some (searchAtoms H r.ignoreCase atoms none text.data)
  | none => H.regexTest r.source r.ignoreCase text

end Js

/-! ## Data model of the scan engine -/

/-- A cookie of the page, as delivered by the cookie reader. -/
structure Cookie where
  name : String
  value : String
deriving DecidableEq, Repr

/-- The `dom` field of the page data. -/
structure DomData where
  selectors : Option (List String) := none
deriving DecidableEq, Repr

/-- The page data (snapshot) handed to the engine. -/
structure PageData where
  url : Option String := none
  html : Option String := none
  scripts : Option (List String) := none
  cookies : Option (List Cookie) := none
  dom : Option DomData := none
  windowProps : Option (List String) := none
  jsHooks : Option (List String) := none
deriving DecidableEq, Repr

/-- A rule of `detection.cookie`. -/
structure CookieRule where
  name : Option String := none
  value : Option String := none
  nameRegex : Option Bool := none
  nameCaseSensitive : Option Bool := none
  nameWholeWord : Option Bool := none
  valueRegex : Option Bool := none
  valueCaseSensitive : Option Bool := none
  valueWholeWord : Option Bool := none
  confidence : Option Int := none
  description : Option String := none
deriving DecidableEq, Repr

/-- A rule of `detection.url` or `detection.content`. -/
structure TextRule where
  text : Option String := none
  textRegex : Option Bool := none
  textCaseSensitive : Option Bool := none
  textWholeWord : Option Bool := none
  confidence : Option Int := none
  description : Option String := none
deriving DecidableEq, Repr

/-- A rule of `detection.dom`. -/
structure DomRule where
  selector : Option String := none
  confidence : Option Int := none
  description : Option String := none
deriving DecidableEq, Repr

/-- A rule of `detection.window`. -/
structure WindowRule where
  path : Option String := none
  confidence : Option Int := none
  description : Option String := none
deriving DecidableEq, Repr

/-- A rule of `detection.js_hooks`. -/
structure JsHookRule where
  target : Option String := none
  enabled : Option Bool := none
  confidence : Option Int := none
  description : Option String := none
deriving DecidableEq, Repr

/-- The `detection` object of a detector. -/
structure Detection where
  cookie : Option (List CookieRule) := none
  url : Option (List TextRule) := none
  content : Option (List TextRule) := none
  dom : Option (List DomRule) := none
  window : Option (List WindowRule) := none
  js_hooks : Option (List JsHookRule) := none
deriving DecidableEq, Repr

/-- A detector of the catalog. -/
structure Detector where
  id : Option String := none
  name : Option String := none
  category : Option String := none
  enabled : Option Bool := none
  confidence : Option Int := none
  icon : Option String := none
  website : Option String := none
  description : Option String := none
  detection : Option Detection := none
deriving DecidableEq, Repr

/-- The catalog, as enumerated by `Object.entries`: categories in order, and in each
category the detectors in order, each under its key. -/
abbrev Catalog := List (String × List (String × Detector))

/-- An entry of the result list. -/
structure DetectionResult where
  id : Option String
  name : Option String
  category : String
  confidence : Int
  icon : Option String
  website : Option String
  description : Option String
  matchList : List MatchRecord
deriving DecidableEq, Repr

/-- The pattern cache `ScanEngine.patternCache`, a map from cache key to compiled
expression; the entry found for a key is the first one of the list. -/
abbrev PatternCache := List (String × Js.RegExp)

/-- The method `Array.prototype.sort` with the comparator
`(a, b) => b.confidence - a.confidence`: a stable sort, larger confidence first. -/
def sortByConfidence (results : List DetectionResult) : List DetectionResult :=
  results.insertionSort fun a b => b.confidence ≤ a.confidence

/-- The detectors of a catalog in the order of enumeration. -/
def Catalog.enumerate (detectors : Catalog) : List (String × Detector) :=
  detectors.flatMap fun entry => entry.2.map fun d => (entry.1, d.2)

/-! ## Scan engine (`src/modules/scan-engine.js`) -/

namespace ScanEngine

open Js

/-- The cache key of `matchText`, the template literal of pattern, underscore and flag. -/
def cacheKey (pattern : String) (caseSensitive : Option Bool) : String :=
  pattern ++ "_" ++ flagString caseSensitive

/-- `ScanEngine.escapeRegex`: every syntax character is prefixed with a backslash. -/
def escapeRegex (s : String) : String :=
  String.mk (s.data.flatMap fun c => if isSyntaxChar c then ['\\', c] else [c])

/-- `ScanEngine.matchText(pattern, text, isRegex, caseSensitive, wholeWord)`, with the
pattern cache passed in and out. A SyntaxError of the constructor or an exception of
`test` is caught by the `try` block and gives `false`. -/
def matchText (H : Runtime) (cache : PatternCache) (pattern : Option String) (text : String)
    (isRegex caseSensitive wholeWord : Option Bool) : Bool × PatternCache :=
  if !strTruthy pattern || text.data.isEmpty then (false, cache)
  else
    let pattern := pattern.getD ""
    if truthy isRegex then
      match cache.lookup (cacheKey pattern caseSensitive) with
      | some regex => ((regex.test H text).getD false, cache)
      | none =>
        match RegExp.compile H pattern (!truthy caseSensitive) with
        | none => (false, cache)
        | some regex =>
          ((regex.test H text).getD false, (cacheKey pattern caseSensitive, regex) :: cache)
    else
      let searchText := if truthy caseSensitive then text else toLowerCase H text
      let searchPattern := if truthy caseSensitive then pattern else toLowerCase H pattern
      if truthy wholeWord then
        match RegExp.compile H ("\\b" ++ escapeRegex searchPattern ++ "\\b")
            (!truthy caseSensitive) with
        | none => (false, cache)
        | some wordRegex => ((wordRegex.test H text).getD false, cache)
      else (includes searchText searchPattern, cache)

/-- `ScanEngine.checkCookieRule(rule, cookies)`. -/
def checkCookieRule (H : Runtime) (rule : CookieRule) :
    List Cookie → PatternCache → Bool × PatternCache
  | [], cache => (false, cache)
  | cookie :: rest, cache =>
    let nameMatch := matchText H cache rule.name cookie.name
      rule.nameRegex rule.nameCaseSensitive rule.nameWholeWord
    if nameMatch.1 then
      if strTruthy rule.value then
        matchText H nameMatch.2 rule.value cookie.value
          rule.valueRegex rule.valueCaseSensitive rule.valueWholeWord
      else (true, nameMatch.2)
    else checkCookieRule H rule rest nameMatch.2

/-- `ScanEngine.checkTextRule(rule, text)`. -/
def checkTextRule (H : Runtime) (rule : TextRule) (text : Option String)
    (cache : PatternCache) : Bool × PatternCache :=
  if !strTruthy text || !strTruthy rule.text then (false, cache)
  else matchText H cache rule.text (text.getD "")
    rule.textRegex rule.textCaseSensitive rule.textWholeWord

/-- `ScanEngine.checkDomRule(rule, domData)`. -/
def checkDomRule (rule : DomRule) (domData : Option DomData) : Bool :=
  match domData, rule.selector with
  | some d, some sel =>
    if sel.data.isEmpty then false
    else
      match d.selectors with
      | some l => l.contains sel
      | none => false
  | _, _ => false

/-- `ScanEngine.checkWindowRule(rule, windowProps)`. -/
def checkWindowRule (rule : WindowRule) (windowProps : Option (List String)) : Bool :=
  match windowProps, rule.path with
  | some l, some p => if p.data.isEmpty then false else l.contains p
  | _, _ => false

/-- The inner loop of the url check: the first script that satisfies the rule ends it. -/
def anyScript (H : Runtime) (rule : TextRule) :
    List String → PatternCache → Bool × PatternCache
  | [], cache => (false, cache)
  | script :: rest, cache =>
    let r := checkTextRule H rule (some script) cache
    if r.1 then (true, r.2) else anyScript H rule rest r.2

/-- A loop `for (const rule of rules) if (check(rule)) matches.push(record(rule))`. -/
def forEachRule {ρ : Type} (check : ρ → PatternCache → Bool × PatternCache)
    (record : ρ → MatchRecord) :
    List ρ → PatternCache → List MatchRecord → List MatchRecord × PatternCache
  | [], cache, acc => (acc, cache)
  | rule :: rest, cache, acc =>
    let r := check rule cache
    forEachRule check record rest r.2 (if r.1 then acc ++ [record rule] else acc)

/-- The matches collected so far and the pattern cache. -/
abbrev ScanState := List MatchRecord × PatternCache

/-- The block `// Check cookies` of `checkDetector`. -/
def checkCookies (H : Runtime) (detection : Detection) (pageData : PageData)
    (s : ScanState) : ScanState :=
  match detection.cookie, pageData.cookies with
  | some rules, some cookies =>
    forEachRule (fun rule c => checkCookieRule H rule cookies c)
      (fun rule => ⟨"cookie", rule.name, numOr rule.confidence 50, rule.description⟩)
      rules s.2 s.1
  | _, _ => s

/-- The block `// Check URLs (scripts, resources)` of `checkDetector`. -/
def checkUrls (H : Runtime) (detection : Detection) (pageData : PageData)
    (s : ScanState) : ScanState :=
  match detection.url, pageData.scripts with
  | some rules, some scripts =>
    forEachRule (fun rule c => anyScript H rule scripts c)
      (fun rule => ⟨"url", rule.text, numOr rule.confidence 50, rule.description⟩)
      rules s.2 s.1
  | _, _ => s

/-- The block `// Check page content` of `checkDetector`. -/
def checkContent (H : Runtime) (detection : Detection) (pageData : PageData)
    (s : ScanState) : ScanState :=
  match detection.content with
  | some rules =>
    if strTruthy pageData.html then
      forEachRule (fun rule c => checkTextRule H rule pageData.html c)
        (fun rule => ⟨"content", rule.text, numOr rule.confidence 50, rule.description⟩)
        rules s.2 s.1
    else s
  | none => s

/-- The block `// Check DOM elements` of `checkDetector`. -/
def checkDom (detection : Detection) (pageData : PageData) (s : ScanState) : ScanState :=
  match detection.dom, pageData.dom with
  | some rules, some dom =>
    forEachRule (fun rule c => (checkDomRule rule (some dom), c))
      (fun rule => ⟨"dom", rule.selector, numOr rule.confidence 50, rule.description⟩)
      rules s.2 s.1
  | _, _ => s

/-- The block `// Check window properties` of `checkDetector`. -/
def checkWindow (detection : Detection) (pageData : PageData) (s : ScanState) : ScanState :=
  match detection.window, pageData.windowProps with
  | some rules, some props =>
    forEachRule (fun rule c => (checkWindowRule rule (some props), c))
      (fun rule => ⟨"window", rule.path, numOr rule.confidence 50, rule.description⟩)
      rules s.2 s.1
  | _, _ => s

/-- The test of a js-hook rule: `rule.enabled !== false && jsHooks.includes(rule.target)`. -/
def checkJsHookRule (rule : JsHookRule) (hooks : List String) : Bool :=
  decide (rule.enabled ≠ some false) &&
    (match rule.target with
     | some t => hooks.contains t
     | none => false)

/-- The block `// Check JS hooks` of `checkDetector`. -/
def checkJsHooks (detection : Detection) (pageData : PageData) (s : ScanState) : ScanState :=
  match detection.js_hooks, pageData.jsHooks with
  | some rules, some hooks =>
    forEachRule (fun rule c => (checkJsHookRule rule hooks, c))
      (fun rule => ⟨"js_hook", rule.target, numOr rule.confidence 50, rule.description⟩)
      rules s.2 s.1
  | _, _ => s

/-- `ScanEngine.checkDetector(detector, pageData)`: the six blocks in order, starting
from an empty list of matches. -/
def checkDetector (H : Runtime) (detector : Detector) (pageData : PageData)
    (cache : PatternCache) : ScanState :=
  let detection := detector.detection.getD {}
  checkJsHooks detection pageData <|
  checkWindow detection pageData <|
  checkDom detection pageData <|
  checkContent H detection pageData <|
  checkUrls H detection pageData <|
  checkCookies H detection pageData ([], cache)

/-- The body of the inner loop of `detectOnPage` for one detector. -/
def detectorStep (H : Runtime) (pageData : PageData) (category : String) (detector : Detector)
    (cache : PatternCache) (results : List DetectionResult) :
    List DetectionResult × PatternCache :=
  if detector.enabled = some false then (results, cache)
  else
    let r := checkDetector H detector pageData cache
    if r.1.length > 0 then
      (results ++ [{
        id := detector.id
        name := detector.name
        category := if strTruthy detector.category then detector.category.getD "" else category
        confidence := ScoreCalculator.calculateConfidence (some r.1) detector.confidence
        icon := detector.icon
        website := detector.website
        description := detector.description
        matchList := r.1 }], r.2)
    else (results, r.2)

/-- The double loop of `detectOnPage`, over the detectors in enumeration order. -/
def detectLoop (H : Runtime) (pageData : PageData) :
    List (String × Detector) → PatternCache → List DetectionResult →
    List DetectionResult × PatternCache
  | [], cache, results => (results, cache)
  | (category, detector) :: rest, cache, results =>
    let r := detectorStep H pageData category detector cache results
    detectLoop H pageData rest r.2 r.1

/-- `ScanEngine.detectOnPage(pageData, detectors)`. -/
def detectOnPage (H : Runtime) (pageData : Option PageData) (detectors : Option Catalog)
    (cache : PatternCache) : List DetectionResult × PatternCache :=
  match detectors, pageData with
  | some dets, some pd =>
    let r := detectLoop H pd dets.enumerate cache []
    (sortByConfidence r.1, r.2)
  | _, _ => ([], cache)

end ScanEngine

/-! ## Detection pass of the coordinator (`src/background.js`) -/

namespace Background

open Js

/-- The function `matchText(pattern, text, isRegex, caseSensitive)` of `background.js`. -/
def matchText (H : Runtime) (pattern : Option String) (text : String)
    (isRegex caseSensitive : Option Bool) : Bool :=
  if !strTruthy pattern || text.data.isEmpty then false
  else
    let pattern := pattern.getD ""
    if truthy isRegex then
      match RegExp.compile H pattern (!truthy caseSensitive) with
      | none => false
      | some regex => (regex.test H text).getD false
    else if truthy caseSensitive then includes text pattern
    else includes (toLowerCase H text) (toLowerCase H pattern)

/-- The function `checkCookieRule(rule, cookies)` of `background.js`. -/
def checkCookieRule (H : Runtime) (rule : CookieRule) : List Cookie → Bool
  | [] => false
  | cookie :: rest =>
    if matchText H rule.name cookie.name rule.nameRegex rule.nameCaseSensitive then
      if !strTruthy rule.value then true
      else matchText H rule.value cookie.value rule.valueRegex rule.valueCaseSensitive
    else checkCookieRule H rule rest

/-- A loop `for (const rule of rules) if (check(rule)) matches.push(record(rule))`. -/
def pushMatches {ρ : Type} (check : ρ → Bool) (record : ρ → MatchRecord)
    (rules : List ρ) (acc : List MatchRecord) : List MatchRecord :=
  acc ++ (rules.filter check).map record

/-- Membership test `list.includes(x)` for a possibly missing string `x`. -/
def includesOpt (list : List String) : Option String → Bool
  | some s => list.contains s
  | none => false

/-- The function `checkDetector(detector, pageData)` of `background.js`. -/
def checkDetector (H : Runtime) (detector : Detector) (pageData : PageData) : List MatchRecord :=
  let detection := detector.detection.getD {}
  let m1 :=
    match detection.cookie, pageData.cookies with
    | some rules, some cookies =>
      pushMatches (fun rule => checkCookieRule H rule cookies)
        (fun rule => ⟨"cookie", rule.name, numOr rule.confidence 50, rule.description⟩) rules []
    | _, _ => []
  let m2 :=
    match detection.url, pageData.scripts with
    | some rules, some scripts =>
      pushMatches
        (fun rule => scripts.any fun script =>
          matchText H rule.text script rule.textRegex rule.textCaseSensitive)
        (fun rule => ⟨"url", rule.text, numOr rule.confidence 50, rule.description⟩) rules m1
    | _, _ => m1
  let m3 :=
    match detection.content with
    | some rules =>
      if strTruthy pageData.html then
        pushMatches
          (fun rule => matchText H rule.text (pageData.html.getD "")
            rule.textRegex rule.textCaseSensitive)
          (fun rule => ⟨"content", rule.text, numOr rule.confidence 50, rule.description⟩)
          rules m2
      else m2
    | none => m2
  let m4 :=
    match detection.dom, pageData.dom.bind (·.selectors) with
    | some rules, some selectors =>
      pushMatches (fun rule => includesOpt selectors rule.selector)
        (fun rule => ⟨"dom", rule.selector, numOr rule.confidence 50, rule.description⟩) rules m3
    | _, _ => m3
  let m5 :=
    match detection.window, pageData.windowProps with
    | some rules, some props =>
      pushMatches (fun rule => includesOpt props rule.path)
        (fun rule => ⟨"window", rule.path, numOr rule.confidence 50, rule.description⟩) rules m4
    | _, _ => m4
  match detection.js_hooks, pageData.jsHooks with
  | some rules, some hooks =>
    pushMatches
      (fun rule => decide (rule.enabled ≠ some false) && includesOpt hooks rule.target)
      (fun rule => ⟨"js_hook", rule.target, numOr rule.confidence 50, rule.description⟩) rules m5
  | _, _ => m5

/-- The function `calculateConfidence(matches, baseConfidence = 50)` of `background.js`,
with the sum as in `ScoreCalculator.calculateConfidence`. -/
def calculateConfidence (matchList : List MatchRecord) (baseConfidence : Option Int) : Int :=
  let maxConfidence :=
    matchList.foldl (fun mx m => if m.confidence > mx then m.confidence else mx)
      (baseConfidence.getD 50)
  let boost := min ((matchList.length : Int) * 2) 15
  min (maxConfidence + boost) 100

/-- The result pushed by `runDetection` for one detector, if any. -/
def detectorResult (H : Runtime) (pageData : PageData) (category : String)
    (detector : Detector) : Option DetectionResult :=
  if detector.enabled = some false then none
  else
    let ms := checkDetector H detector pageData
    if ms.length > 0 then
      some {
        id := detector.id
        name := detector.name
        category := if strTruthy detector.category then detector.category.getD "" else category
        confidence := calculateConfidence ms detector.confidence
        icon := detector.icon
        website := detector.website
        description := detector.description
        matchList := ms }
    else none

/-- The function `runDetection(pageData)` of `background.js`; `detectorsLoaded` and
`detectors` are the module variables, `showSetting` the stored value of
`scrappey_show_fingerprinting`. -/
def runDetection (H : Runtime) (detectorsLoaded : Bool) (detectors : Catalog)
    (showSetting : Option Bool) (pageData : Option PageData) : List DetectionResult :=
  match pageData with
  | none => []
  | some pd =>
    if !detectorsLoaded then []
    else
      let showFingerprinting := decide (showSetting ≠ some false)
      let results := detectors.flatMap fun entry =>
        if entry.1 = "fingerprint" ∧ showFingerprinting = false then []
        else entry.2.filterMap fun d => detectorResult H pd entry.1 d.2
      sortByConfidence results

end Background

/-! ## Score calculator: levels and aggregation -/

/-- The `byCategory` object of the aggregate. -/
structure ByCategory where
  antibot : Nat
  captcha : Nat
  fingerprint : Nat
deriving DecidableEq, Repr

/-- The object returned by `aggregateResults`. -/
structure Aggregated where
  total : Nat
  byCategory : ByCategory
  highConfidence : Nat
  mediumConfidence : Nat
  lowConfidence : Nat
  averageConfidence : Int
deriving DecidableEq, Repr

namespace ScoreCalculator

open Js

/-- `ScoreCalculator.getConfidenceLevel(confidence)`. -/
def getConfidenceLevel (confidence : Int) : String :=
  if confidence ≥ 80 then "high"
  else if confidence ≥ 50 then "medium"
  else "low"

/-- `ScoreCalculator.getBadgeColor(detectionCount)`. -/
def getBadgeColor (detectionCount : Nat) : String :=
  if detectionCount = 0 then "#4CAF50"
  else if detectionCount ≤ 2 then "#FFA500"
  else "#FF4444"

/-- The `// Count by category` statement of the loop of `aggregateResults`. -/
def countCategory (H : Runtime) (b : ByCategory) (d : DetectionResult) : ByCategory :=
  let category := toLowerCase H d.category
  if includes category "anti" || includes category "bot" then
    { b with antibot := b.antibot + 1 }
  else if includes category "captcha" then
    { b with captcha := b.captcha + 1 }
  else if includes category "fingerprint" then
    { b with fingerprint := b.fingerprint + 1 }
  else b

/-- The body of the loop of `aggregateResults`; the second component is the local
variable `totalConfidence`. -/
def aggregateStep (H : Runtime) (acc : Aggregated × Int) (d : DetectionResult) :
    Aggregated × Int :=
  let a := { acc.1 with byCategory := countCategory H acc.1.byCategory d }
  let confidence := d.confidence
  let totalConfidence := acc.2 + confidence
  if confidence ≥ 80 then ({ a with highConfidence := a.highConfidence + 1 }, totalConfidence)
  else if confidence ≥ 50 then
    ({ a with mediumConfidence := a.mediumConfidence + 1 }, totalConfidence)
  else ({ a with lowConfidence := a.lowConfidence + 1 }, totalConfidence)

/-- The value of `Math.round(total / count)` for integers and a positive count: the
nearest integer, a half rounded up. -/
def roundDiv (total : Int) (count : Nat) : Int :=
  (2 * total + count) / (2 * (count : Int))

/-- `ScoreCalculator.aggregateResults(detections)`. -/
def aggregateResults (H : Runtime) (detections : List DetectionResult) : Aggregated :=
  let init : Aggregated :=
    { total := detections.length
      byCategory := { antibot := 0, captcha := 0, fingerprint := 0 }
      highConfidence := 0
      mediumConfidence := 0
      lowConfidence := 0
      averageConfidence := 0 }
  let r := detections.foldl (aggregateStep H) (init, 0)
  if detections.length > 0 then
    { r.1 with averageConfidence := roundDiv r.2 detections.length }
  else r.1

end ScoreCalculator

/-! ## Coordinator (`src/background.js`): cache and message handling -/

/-- An entry of the map `detectionCache`. An entry written by `PAGE_DATA` has no
`jsHooks` property. -/
structure CacheEntry where
  detections : List DetectionResult
  timestamp : Int
  jsHooks : Option (List String) := none
deriving DecidableEq, Repr

/-- The map `detectionCache`, keyed by page URL (`none`: the key `undefined`); the entry
of a key is the first one in the list. -/
abbrev DetectionCache := List (Option String × CacheEntry)

/-- A value kept in `chrome.storage.local`. -/
inductive StoredValue where
  | bool (b : Bool)
  | number (n : Int)
  | detectionEntry (url : String) (detections : List DetectionResult) (timestamp : Int)
      (count : Nat)
deriving DecidableEq, Repr

/-- The store `chrome.storage.local`. -/
abbrev Storage := List (String × StoredValue)

/-- The part of `sender` the coordinator reads: `sender.tab?.id` and `sender.tab?.url`. -/
structure Sender where
  tabId : Option Nat := none
  tabUrl : Option String := none
deriving DecidableEq, Repr

/-- An element of `message.hooks`. -/
structure HookReport where
  target : String
deriving DecidableEq, Repr

/-- The messages of `handleMessage`, by `message.type`. -/
inductive Message where
  | getDetectors
  | getDetections (url : Option String)
  | pageData (data : Option PageData)
  | pageLoadNotification (url : Option String)
  | runDetection (url : Option String) (tabId : Option Nat)
  | jsHookBatch (hooks : Option (List HookReport))
  | clearCache
  | toggleExtension (enabled : Option Bool)
  | checkCacheEarly (url : Option String)
  | unknown
deriving DecidableEq, Repr

/-- What the coordinator asks of the host while it handles a message: `updateBadge` is
the call `updateBadge(tabId, count)`, `requestPageData` the call
`chrome.tabs.sendMessage(tabId, REQUEST_PAGE_DATA)`, whose failure the handler ignores. -/
inductive Effect where
  | updateBadge (tabId : Nat) (detectionCount : Nat)
  | requestPageData (tabId : Option Nat)
deriving DecidableEq, Repr

/-- The value `handleMessage` resolves to; `rejected`: the handler throws. -/
inductive Response where
  | detectors (detectors : Catalog)
  | detections (detections : List DetectionResult)
  | pageData (detections : List DetectionResult)
  | cacheHit (hit : Bool) (detectionData : Option CacheEntry)
  | success (ok : Bool)
  | error (message : String)
  | rejected
deriving DecidableEq, Repr

namespace Background

open Js

/-- The constant `CACHE_DURATION`, 12 hours in milliseconds. -/
def CACHE_DURATION : Int := 12 * 60 * 60 * 1000

/-- The module variables of `background.js` and the host store. -/
structure State where
  detectorsLoaded : Bool
  detectors : Catalog
  detectionCache : DetectionCache
  storage : Storage
deriving DecidableEq, Repr

/-- The state when the service worker starts, before `loadDetectors` has run. -/
def State.initial (storage : Storage) : State :=
  { detectorsLoaded := false, detectors := [], detectionCache := [], storage := storage }

/-- The result of handling one message: the response, the state the handler leaves and
the calls to the host it makes; in every branch of `handleMessage` these calls come
after the change of the cache. -/
structure Outcome where
  response : Response
  state : State
  effects : List Effect
deriving DecidableEq, Repr

/-- The value of `a || b` for two optional strings. -/
def strOr (a b : Option String) : Option String := if strTruthy a then a else b

/-- Truthiness of an optional tab id. -/
def tabTruthy : Option Nat → Bool
  | some n => decide (n ≠ 0)
  | none => false

/-- The method `detectionCache.get`. -/
def cacheGet (cache : DetectionCache) (key : Option String) : Option CacheEntry :=
  cache.lookup key

/-- The method `detectionCache.delete`. -/
def cacheDelete (cache : DetectionCache) (key : Option String) : DetectionCache :=
  cache.filter fun e => decide (e.1 ≠ key)

/-- The method `detectionCache.set`. -/
def cacheSet (cache : DetectionCache) (key : Option String) (entry : CacheEntry) :
    DetectionCache :=
  (key, entry) :: cacheDelete cache key

/-- The stored setting `scrappey_show_fingerprinting`, when it is a boolean. -/
def showSetting (storage : Storage) : Option Bool :=
  match storage.lookup "scrappey_show_fingerprinting" with
  | some (StoredValue.bool b) => some b
  | _ => none

/-- The badge update `if (tabId) await updateBadge(tabId, count)`. -/
def badgeEffect (tabId : Option Nat) (count : Nat) : List Effect :=
  if tabTruthy tabId then [Effect.updateBadge (tabId.getD 0) count] else []

/-- The loop of `JS_HOOK_BATCH`: a target is pushed unless the list includes it. -/
def addHooks (jsHooks : List String) (hooks : List HookReport) : List String :=
  hooks.foldl (fun acc hook => if acc.contains hook.target then acc else acc ++ [hook.target])
    jsHooks

/-- The function `handleMessage(message, sender)`; `now` is the value of `Date.now()`
and `getCookiesForUrl` the cookie reader while the message is handled. -/
def handleMessage (H : Runtime) (getCookiesForUrl : String → List Cookie) (now : Int)
    (st : State) (message : Message) (sender : Sender) : Outcome :=
  let tabId := sender.tabId
  match message with
  | Message.getDetectors => ⟨Response.detectors st.detectors, st, []⟩
  | Message.getDetections url =>
    let cacheKey := strOr url sender.tabUrl
    match cacheGet st.detectionCache cacheKey with
    | some cached =>
      if now - cached.timestamp < CACHE_DURATION then
        ⟨Response.detections cached.detections, st, []⟩
      else ⟨Response.detections [], st, []⟩
    | none => ⟨Response.detections [], st, []⟩
  | Message.pageData data =>
    let url := strOr (data.bind fun d => d.url) sender.tabUrl
    if strTruthy url && data.isNone then ⟨Response.rejected, st, []⟩
    else
      let data :=
        if strTruthy url then
          data.map fun d => { d with cookies := some (getCookiesForUrl (url.getD "")) }
        else data
      let detections :=
        runDetection H st.detectorsLoaded st.detectors (showSetting st.storage) data
      let entry : CacheEntry := { detections := detections, timestamp := now }
      ⟨Response.pageData detections,
        { st with detectionCache := cacheSet st.detectionCache url entry },
        badgeEffect tabId detections.length⟩
  | Message.pageLoadNotification url =>
    match cacheGet st.detectionCache url with
    | some cached =>
      if now - cached.timestamp < CACHE_DURATION then
        ⟨Response.cacheHit true none, st, badgeEffect tabId cached.detections.length⟩
      else ⟨Response.cacheHit false none, st, [Effect.requestPageData tabId]⟩
    | none => ⟨Response.cacheHit false none, st, [Effect.requestPageData tabId]⟩
  | Message.runDetection url messageTabId =>
    ⟨Response.success true,
      { st with detectionCache := cacheDelete st.detectionCache url },
      [Effect.requestPageData (if tabTruthy messageTabId then messageTabId else tabId)]⟩
  | Message.jsHookBatch hooks =>
    let url := sender.tabUrl
    if !strTruthy url then ⟨Response.success false, st, []⟩
    else
      let cached : CacheEntry :=
        match cacheGet st.detectionCache url with
        | some cached => cached
        | none => { detections := [], timestamp := now, jsHooks := some [] }
      let jsHooks := addHooks (cached.jsHooks.getD []) (hooks.getD [])
      ⟨Response.success true,
        { st with
          detectionCache := cacheSet st.detectionCache url { cached with jsHooks := some jsHooks } },
        []⟩
  | Message.clearCache =>
    ⟨Response.success true,
      { st with
        detectionCache := []
        storage := st.storage.filter fun kv => !("detection_".data.isPrefixOf kv.1.data) },
      []⟩
  | Message.toggleExtension enabled =>
    match enabled with
    | some b =>
      ⟨Response.success true,
        { st with
          storage := ("scrappey_enabled", StoredValue.bool b) ::
            st.storage.filter fun kv => decide (kv.1 ≠ "scrappey_enabled") },
        []⟩
    | none => ⟨Response.success true, st, []⟩
  | Message.checkCacheEarly url =>
    match cacheGet st.detectionCache url with
    | some cached =>
      if now - cached.timestamp < CACHE_DURATION then
        ⟨Response.cacheHit true (some cached), st, []⟩
      else ⟨Response.cacheHit false none, st, []⟩
    | none => ⟨Response.cacheHit false none, st, []⟩
  | Message.unknown => ⟨Response.error "Unknown message type", st, []⟩

/-- A message as it reaches the coordinator: the message, its sender, the clock and the
cookie reader at that moment. -/
structure Event where
  message : Message
  sender : Sender
  now : Int
  getCookiesForUrl : String → List Cookie

/-- The coordinator handles one event. -/
def step (H : Runtime) (st : State) (e : Event) : State :=
  (handleMessage H e.getCookiesForUrl e.now st e.message e.sender).state

/-- The coordinator handles a sequence of events, one after the other. -/
def run (H : Runtime) (st : State) (events : List Event) : State :=
  events.foldl (step H) st

end Background

/-! ## Page-context hooks (`src/content-main-world.js`) -/

/-- A message posted to the window by the page-context script: `jsHook` has the type
`SCRAPPEY_JS_HOOK`, `windowProp` the type `SCRAPPEY_WINDOW_PROP`. -/
inductive PostedMessage where
  | jsHook (target : String)
  | windowProp (path : String)
deriving DecidableEq, Repr

namespace MainWorld

/-- The function `reportHook(target)`; the set `detectedHooks` is passed in and out, in
insertion order, next to the messages posted by the call. -/
def reportHook (detectedHooks : List String) (target : String) :
    List String × List PostedMessage :=
  if detectedHooks.contains target then (detectedHooks, [])
  else (detectedHooks ++ [target], [PostedMessage.jsHook target])

/-- The function `reportWindowProp(path)`, with the set `detectedProps`. -/
def reportWindowProp (detectedProps : List String) (path : String) :
    List String × List PostedMessage :=
  if detectedProps.contains path then (detectedProps, [])
  else (detectedProps ++ [path], [PostedMessage.windowProp path])

/-- One call of the wrapper that `hookMethod(proto, methodName, hookId)` installs:
`reportHook(hookId)`, then the original method, whose result the wrapper returns and
which posts nothing. -/
def hookedCall (detectedHooks : List String) (hookId : String) :
    List String × List PostedMessage :=
  reportHook detectedHooks hookId

/-- A sequence of invocations of instrumented APIs, given by their hook ids: the set
left and the messages posted, in order. -/
def invokeAll (detectedHooks : List String) : List String → List String × List PostedMessage
  | [] => (detectedHooks, [])
  | hookId :: rest =>
    let r := hookedCall detectedHooks hookId
    let r2 := invokeAll r.1 rest
    (r2.1, r.2 ++ r2.2)

end MainWorld

/-! ## UTF-16 code units -/

namespace Js

/-- The UTF-16 code units of a character: one unit below `0x10000`, a surrogate pair
from there on. -/
def charCodeUnits (c : Char) : List Nat :=
  if c.toNat < 0x10000 then [c.toNat]
  else [0xD800 + (c.toNat - 0x10000) / 0x400, 0xDC00 + (c.toNat - 0x10000) % 0x400]

/-- The UTF-16 code units of a string, the sequence that `length`, `slice` and
`charCodeAt` work on. -/
def codeUnits (s : String) : List Nat :=
  s.data.flatMap charCodeUnits

end Js

/-! ## Collection of the markup (`src/content.js`, `src/modules/scan-engine.js`) -/

namespace Content

/-- The `html` field built by `collectPageData` of `content.js`, over UTF-16 code units:
`outerHTML` is `document.documentElement?.outerHTML` (`none`: undefined) and
`inlineScripts` the `textContent` of the elements `script:not([src])`, in order. The
unit `10` is the line feed. -/
def collectHtml (outerHTML : Option (List Nat)) (inlineScripts : List (List Nat)) : List Nat :=
  let html :=
    match outerHTML with
    | some markup => markup.take 100000
    | none => []
  inlineScripts.foldl
    (fun html textContent => if textContent ≠ [] then html ++ ([10] ++ textContent) else html)
    html

end Content

namespace ScanEngine

/-- The `html` field built by `ScanEngine.collectPageData`, over UTF-16 code units. -/
def collectHtml (outerHTML : Option (List Nat)) (inlineScripts : List (List Nat)) : List Nat :=
  let html :=
    match outerHTML with
    | some markup => markup.take 100000
    | none => []
  inlineScripts.foldl
    (fun html textContent => if textContent ≠ [] then html ++ textContent else html)
    html

end ScanEngine

/-! ## Cache handler (`src/modules/cache-handler.js`) -/

namespace CacheHandler

/-- The conversion of an integer to a signed 32-bit integer, as done by the operators
`<<` and `&`. -/
def toInt32 (x : Int) : Int :=
  (x + 2147483648) % 4294967296 - 2147483648

/-- The body of the loop of `hashUrl` for one code unit:
`hash = ((hash << 5) - hash) + char; hash = hash & hash`. The shift works on 32 bits,
the subtraction and the addition are exact. -/
def hashStep (hash : Int) (char : Nat) : Int :=
  let hash := (toInt32 (toInt32 hash * 32) - hash) + (char : Int)
  toInt32 hash

/-- The value of `hash` at the end of the loop of `hashUrl`. -/
def hashLoop (url : String) : Int :=
  (Js.codeUnits url).foldl hashStep 0

/-- The digit of value `d` in base 36: `0` to `9`, then `a` to `z`. -/
def digit36 (d : Nat) : Char :=
  if d < 10 then Char.ofNat (48 + d) else Char.ofNat (87 + d)

/-- The digits of `n` in base 36 in front of `ds`, the most significant first. -/
def toDigits36 : Nat → Nat → List Char → List Char
  | 0, _, ds => ds
  | fuel + 1, n, ds =>
    let d := digit36 (n % 36)
    if n / 36 = 0 then d :: ds else toDigits36 fuel (n / 36) (d :: ds)

/-- The method `toString(36)` of a non-negative integer. -/
def toString36 (n : Nat) : String :=
  String.mk (toDigits36 (n + 1) n [])

/-- `CacheHandler.hashUrl(url)`: `Math.abs(hash).toString(36)`. -/
def hashUrl (url : String) : String :=
  toString36 (hashLoop url).natAbs

/-- An entry of the in-memory map `cache`: the value (`none`: null) and the time it was
put there. -/
structure MemoryEntry where
  value : Option StoredValue
  timestamp : Int
deriving DecidableEq, Repr

/-- The in-memory map `cache` and the host store `chrome.storage.local`. -/
structure State where
  cache : List (String × MemoryEntry)
  storage : Storage
deriving DecidableEq, Repr

/-- The constant `CACHE_DURATION`, 12 hours in milliseconds. -/
def CACHE_DURATION : Int := 12 * 60 * 60 * 1000

/-- The method `cache.set` of the in-memory map. -/
def memorySet (cache : List (String × MemoryEntry)) (key : String) (entry : MemoryEntry) :
    List (String × MemoryEntry) :=
  (key, entry) :: cache.filter fun e => decide (e.1 ≠ key)

/-- The call `chrome.storage.local.set` for one key. -/
def storageSet (storage : Storage) (key : String) (value : StoredValue) : Storage :=
  (key, value) :: storage.filter fun e => decide (e.1 ≠ key)

/-- `CacheHandler.get(key, defaultValue)` at the time `now`: the value and the state
left. A value of the in-memory map younger than `CACHE_DURATION` is returned as it is;
otherwise the value of the host store, or the default when the store has none, is put
in the map and returned. The host store is taken to answer; when its call is rejected
the `catch` block returns the default. -/
def get (now : Int) (st : State) (key : String) (defaultValue : Option StoredValue) :
    Option StoredValue × State :=
  let fetched : Option StoredValue :=
    match st.storage.lookup key with
    | some v => some v
    | none => defaultValue
  match st.cache.lookup key with
  | some cached =>
    if now - cached.timestamp < CACHE_DURATION then (cached.value, st)
    else (fetched, { st with cache := memorySet st.cache key ⟨fetched, now⟩ })
  | none => (fetched, { st with cache := memorySet st.cache key ⟨fetched, now⟩ })

/-- `CacheHandler.set(key, value)` at the time `now`, the host store answering. -/
def set (now : Int) (st : State) (key : String) (value : StoredValue) : State :=
  { cache := memorySet st.cache key ⟨some value, now⟩
    storage := storageSet st.storage key value }

/-- The key of the detection entry of a URL. -/
def detectionKey (url : String) : String :=
  "detection_" ++ hashUrl url

/-- The number that a stored value denotes in a product: a boolean counts as 1 or 0,
null as 0, and an object is not a number. -/
def toNumber : Option StoredValue → Option Int
  | some (StoredValue.number n) => some n
  | some (StoredValue.bool b) => some (if b then 1 else 0)
  | some (StoredValue.detectionEntry _ _ _ _) => none
  | none => some 0

/-- `CacheHandler.getDetectionCache(url)` at the time `now`: the entry returned
(`none`: null) and the state left. -/
def getDetectionCache (now : Int) (st : State) (url : String) : Option StoredValue × State :=
  let r := get now st (detectionKey url) none
  match r.1 with
  | some (StoredValue.detectionEntry u detections timestamp count) =>
    if timestamp ≠ 0 then
      let r2 := get now r.2 "scrappey_cache_duration" (some (StoredValue.number 12))
      match toNumber r2.1 with
      | some duration =>
        if now - timestamp < duration * 60 * 60 * 1000 then
          (some (StoredValue.detectionEntry u detections timestamp count), r2.2)
        else (none, r2.2)
      | none => (none, r2.2)
    else (none, r.2)
  | _ => (none, r.2)

/-- `CacheHandler.setDetectionCache(url, detections)` at the time `now`. -/
def setDetectionCache (now : Int) (st : State) (url : String)
    (detections : List DetectionResult) : State :=
  set now st (detectionKey url)
    (StoredValue.detectionEntry url detections now detections.length)

end CacheHandler

/-! ## Rule loader (`src/modules/rule-loader.js`) and the loader of `src/background.js` -/

/-- An element of one of the lists of `patterns` of a raw definition; `matchValue` is
the property `match`. -/
structure RawPattern where
  matchValue : Option String := none
  target : Option String := none
  score : Option Int := none
  note : Option String := none
deriving DecidableEq, Repr

/-- The `detector` section of a raw definition. -/
structure RawSection where
  id : Option String := none
  label : Option String := none
  active : Option Bool := none
  type : Option String := none
deriving DecidableEq, Repr

/-- The `meta` section of a raw definition, as far as a detector of the catalog keeps
it. -/
structure RawMeta where
  icon : Option String := none
  vendorUrl : Option String := none
  infoUrl : Option String := none
deriving DecidableEq, Repr

/-- The `patterns` section of a raw definition, as far as the detection passes read
its transform. -/
structure RawPatterns where
  cookies : Option (List RawPattern) := none
  urls : Option (List RawPattern) := none
  content : Option (List RawPattern) := none
  dom : Option (List RawPattern) := none
  globals : Option (List RawPattern) := none
  jsHooks : Option (List RawPattern) := none
deriving DecidableEq, Repr

/-- A raw detector definition, the parsed JSON file; `metaSection` is the property
`meta`. -/
structure RawDetector where
  detector : Option RawSection := none
  metaSection : Option RawMeta := none
  patterns : Option RawPatterns := none
  info : Option String := none
deriving DecidableEq, Repr

namespace Js

/-- The value of `x || d` for an optional string and a string literal. -/
def strOrElse (x : Option String) (d : String) : String :=
  if strTruthy x then x.getD "" else d

/-- The array index that a property key denotes, if any: the key is the decimal numeral,
without a leading zero, of a number up to 2^32 - 2. -/
def arrayIndex (key : String) : Option Nat :=
  if key.data.all Char.isDigit ∧ key.data ≠ [] ∧
      (key.data.head? ≠ some '0' ∨ key.data.length = 1) then
    let n := key.data.foldl (fun acc c => acc * 10 + (c.toNat - 48)) 0
    if n ≤ 4294967294 then some n else none
  else none

/-- The names of the properties that a plain object inherits from `Object.prototype`;
the value of each is a function, or the prototype itself for `__proto__`, hence truthy.
`__proto__` is the one among them with a setter, all others are writable data
properties. -/
def inheritedKeys : List String :=
  ["constructor", "__defineGetter__", "__defineSetter__", "hasOwnProperty",
   "__lookupGetter__", "__lookupSetter__", "isPrototypeOf", "propertyIsEnumerable",
   "toString", "valueOf", "__proto__", "toLocaleString"]

/-- The value of the own property `key` is replaced; the enumeration keeps its order. -/
def objReplace {α : Type} : List (String × α) → String → α → List (String × α)
  | [], _, _ => []
  | (k, v) :: rest, key, value =>
    if k = key then (key, value) :: rest else (k, v) :: objReplace rest key value

/-- A new own property whose key is the array index `n` takes its place in the
enumeration: after the array indices below `n`, before everything else. -/
def objInsert {α : Type} (n : Nat) (key : String) (value : α) :
    List (String × α) → List (String × α)
  | [] => [(key, value)]
  | (k, v) :: rest =>
    match arrayIndex k with
    | some m => if m < n then (k, v) :: objInsert n key value rest
      else (key, value) :: (k, v) :: rest
    | none => (key, value) :: (k, v) :: rest

/-- The assignment `obj[key] = value` on a plain object, given by the enumeration
`Object.entries` of its own properties (array indices first in ascending order, then the
other keys in the order of their creation). For the key `__proto__` the assignment runs
the setter inherited from `Object.prototype`, which changes the prototype of the object
and adds no own property. The value of an existing own key is replaced in place; a new
key is added at its place among the array indices, or at the end. -/
def objSet {α : Type} (obj : List (String × α)) (key : String) (value : α) :
    List (String × α) :=
  if key = "__proto__" then obj
  else if (obj.lookup key).isSome then objReplace obj key value
  else
    match arrayIndex key with
    | some n => objInsert n key value obj
    | none => obj ++ [(key, value)]

end Js

/-- What a call of `loadDetector` does besides leaving `this.detectors`: nothing more
(`quiet`), a warning logged by the `catch` block (`warned`), or the assignment
`this.detectors[category][id] = detector` made on the object that `this.detectors`
inherits under `category` from `Object.prototype` (`foreignWrite`); when that assignment
throws, the `catch` block logs it. -/
inductive LoadEffect where
  | quiet
  | warned
  | foreignWrite (category key : String)
deriving DecidableEq, Repr

namespace RuleLoader

open Js

/-- The function `transformDetector(rawDetector)`, which `rule-loader.js` and
`background.js` both define, the two differing in the default icon only. The properties
`color`, `lastUpdated`, `version` and `detection.header` of the result, and the
properties of the rules that no check reads, are left out. -/
def transformWith (defaultIcon : String) (rawDetector : Option RawDetector) : Option Detector :=
  match rawDetector with
  | none => none
  | some raw =>
    match raw.detector with
    | none => none
    | some det =>
      let metaSection := raw.metaSection.getD {}
      let patterns := raw.patterns.getD {}
      some {
        id := det.id
        name := Background.strOr det.label det.id
        enabled := some (decide (det.active ≠ some false))
        category := some (if det.type = some "antibot" then "Anti-Bot"
          else if det.type = some "captcha" then "CAPTCHA" else "Fingerprint")
        icon := some (strOrElse metaSection.icon defaultIcon)
        website := some (strOrElse (Background.strOr metaSection.vendorUrl metaSection.infoUrl) "")
        description := some (strOrElse raw.info "")
        confidence := some 80
        detection := some {
          cookie := some ((patterns.cookies.getD []).map fun p =>
            { name := p.matchValue, confidence := some (numOr p.score 80),
              description := some (strOrElse p.note ""),
              nameRegex := some false, nameCaseSensitive := some false,
              nameWholeWord := some false, value := some "",
              valueRegex := some false, valueCaseSensitive := some false,
              valueWholeWord := some false })
          url := some ((patterns.urls.getD []).map fun p =>
            { text := p.matchValue, confidence := some (numOr p.score 80),
              description := some (strOrElse p.note ""),
              textRegex := some false, textCaseSensitive := some false,
              textWholeWord := some false })
          content := some ((patterns.content.getD []).map fun p =>
            { text := p.matchValue, confidence := some (numOr p.score 80),
              description := some (strOrElse p.note ""),
              textRegex := some false, textCaseSensitive := some false,
              textWholeWord := some false })
          dom := some ((patterns.dom.getD []).map fun p =>
            { selector := p.matchValue, confidence := some (numOr p.score 80),
              description := some (strOrElse p.note "") })
          window := some ((patterns.globals.getD []).map fun p =>
            { path := p.matchValue, confidence := some (numOr p.score 80),
              description := some (strOrElse p.note "") })
          js_hooks := some ((patterns.jsHooks.getD []).map fun p =>
            { target := p.target, enabled := some true, confidence := some (numOr p.score 80),
              description := some (strOrElse p.note "") }) } }

/-- `RuleLoader.transformDetector(rawDetector)`; `none` for the raw definition is a
missing or null value. -/
def transformDetector (rawDetector : Option RawDetector) : Option Detector :=
  transformWith "vendor-default.png" rawDetector

/-- `RuleLoader.loadDetector(category, name)`, `Object.prototype` holding its built-in
properties only. `detectors` is `this.detectors` (`none`: null, its value before
`loadDetectors` has run) and `retrieved` what `fetch` and `response.json()` give for the
file of the name: `none` when one of them throws, `some none` for the value null. The
result is `this.detectors` after the call and what else the call did; no exception
leaves the call. The read `this.detectors[category]` finds the own property of that
name, else the property inherited from `Object.prototype`, which is truthy: the
assignment of the detector then goes to that inherited object and the catalog stays as
it is. A category that is neither is created first. -/
def loadDetector (detectors : Option Catalog) (category : String)
    (retrieved : Option (Option RawDetector)) : Option Catalog × LoadEffect :=
  match retrieved with
  | none => (detectors, LoadEffect.warned)
  | some rawDetector =>
    match transformDetector rawDetector with
    | none => (detectors, LoadEffect.quiet)
    | some detector =>
      if strTruthy detector.id then
        match detectors with
        | none => (none, LoadEffect.warned)
        | some catalog =>
          match catalog.lookup category with
          | some entries =>
            (some (objReplace catalog category
              (objSet entries (detector.id.getD "") detector)), LoadEffect.quiet)
          | none =>
            if inheritedKeys.contains category then
              (some catalog, LoadEffect.foreignWrite category (detector.id.getD ""))
            else
              (some (objSet catalog category (objSet [] (detector.id.getD "") detector)),
                LoadEffect.quiet)
      else (detectors, LoadEffect.quiet)

end RuleLoader

namespace Background

/-- The function `transformDetector(rawDetector)` of `background.js`. -/
def transformDetector (rawDetector : Option RawDetector) : Option Detector :=
  RuleLoader.transformWith "custom.png" rawDetector

end Background

/-! ## Specification-level definitions -/

namespace ScanEngine

/-- The cache states the engine can be in: the empty cache, and the cache left by any
call of `matchText` made in a state it can be in. -/
inductive Reachable (H : Runtime) : PatternCache → Prop where
  | empty : Reachable H []
  | call (cache : PatternCache) (pattern : Option String) (text : String)
      (isRegex caseSensitive wholeWord : Option Bool) :
      Reachable H cache →
      Reachable H (matchText H cache pattern text isRegex caseSensitive wholeWord).2

/-- Every entry of the cache is the expression compiled from the pattern and the case
flag of its key. -/
def Coherent (H : Runtime) (cache : PatternCache) : Prop :=
  ∀ (p : String) (f : Option Bool) (r : Js.RegExp),
    cache.lookup (cacheKey p f) = some r → Js.RegExp.compile H p (!Js.truthy f) = some r

/-- A stateful check whose result does not depend on the reachable cache it starts from,
and which leaves a reachable cache. -/
def Transparent (H : Runtime) {α : Type} (f : PatternCache → α × PatternCache) : Prop :=
  ∀ cache, Reachable H cache → (f cache).1 = (f []).1 ∧ Reachable H (f cache).2

/-- A block of `checkDetector` whose matches do not depend on the reachable cache. -/
def GoodPhase (H : Runtime) (P : ScanState → ScanState) : Prop :=
  ∀ s₁ s₂ : ScanState, s₁.1 = s₂.1 → Reachable H s₁.2 → Reachable H s₂.2 →
    (P s₁).1 = (P s₂).1 ∧ Reachable H (P s₁).2

/-- The result `r` is the one `detectOnPage` pushes for the enumerated detector `entry`,
the rules being checked in some cache state: the detector is not disabled, it has a
match, and `r` carries its id, its matches and the confidence computed from them. -/
def PushedFor (H : Runtime) (pageData : PageData) (entry : String × Detector)
    (r : DetectionResult) : Prop :=
  ∃ cache : PatternCache,
    entry.2.enabled ≠ some false ∧
    (checkDetector H entry.2 pageData cache).1 ≠ [] ∧
    r.id = entry.2.id ∧
    r.matchList = (checkDetector H entry.2 pageData cache).1 ∧
    r.confidence =
      ScoreCalculator.calculateConfidence (some (checkDetector H entry.2 pageData cache).1)
        entry.2.confidence

/-- The result that `detectOnPage` pushes for a detector enumerated under `category`,
if any: none for a disabled detector or one without a match. -/
def resultFor (H : Runtime) (pageData : PageData) (entry : String × Detector) :
    Option DetectionResult :=
  if entry.2.enabled = some false then none
  else
    let ms := (checkDetector H entry.2 pageData []).1
    if ms.length > 0 then
      some {
        id := entry.2.id
        name := entry.2.name
        category := if Js.strTruthy entry.2.category then entry.2.category.getD "" else entry.1
        confidence := ScoreCalculator.calculateConfidence (some ms) entry.2.confidence
        icon := entry.2.icon
        website := entry.2.website
        description := entry.2.description
        matchList := ms }
    else none

end ScanEngine

namespace ScoreCalculator

/-- The largest of `base` and the confidences of the matches. -/
def maxWith (base : Int) (ms : List MatchRecord) : Int :=
  ms.foldl (fun mx m => max mx m.confidence) base

/-- The score in the words of the specification:
`min(max(base, largest match confidence) + min(2 * number of matches, 15), 100)`. -/
def specConfidence (ms : List MatchRecord) (base : Int) : Int :=
  min (maxWith base ms + min (2 * (ms.length : Int)) 15) 100

end ScoreCalculator

namespace Js

/-- The character before the position reached after reading `read`, when `prev` was the
character before its start (`none`: the start of the input). -/
def prevAfter (prev : Option Char) : List Char → Option Char
  | [] => prev
  | c :: read => prevAfter (some c) read

/-- The block `mid` of the text is the pattern: the same characters, or with the `i` flag
the same characters up to the case of ASCII letters. -/
def SameWord (ignoreCase : Bool) (pattern mid : List Char) : Prop :=
  if ignoreCase then mid.map Char.toLower = pattern.map Char.toLower else mid = pattern

/-- The pattern occurs in the text at a position where it is neither immediately
preceded nor immediately followed by a word character. -/
def OccursAsWord (ignoreCase : Bool) (pattern text : List Char) : Prop :=
  ∃ pre mid post : List Char, text = pre ++ mid ++ post ∧ SameWord ignoreCase pattern mid ∧
    isWordAt pre.getLast? = false ∧ isWordAt post.head? = false

end Js

/-! ## Specification-level definitions: rule checks, aggregation, coordinator -/

namespace ScanEngine

/-- The name match of a cookie rule on one cookie. -/
def nameMatches (H : Runtime) (rule : CookieRule) (cookie : Cookie) : Bool :=
  (matchText H [] rule.name cookie.name rule.nameRegex rule.nameCaseSensitive
    rule.nameWholeWord).1

/-- The value match of a cookie rule on one cookie. -/
def valueMatches (H : Runtime) (rule : CookieRule) (cookie : Cookie) : Bool :=
  (matchText H [] rule.value cookie.value rule.valueRegex rule.valueCaseSensitive
    rule.valueWholeWord).1

/-- The decision of a cookie rule in the words of the specification: the first cookie
whose name matches decides, by its value when the rule has a value target. -/
def cookieDecision (H : Runtime) (rule : CookieRule) (cookies : List Cookie) : Bool :=
  match cookies.find? (nameMatches H rule) with
  | none => false
  | some cookie => if Js.strTruthy rule.value then valueMatches H rule cookie else true

/-- The text match of a url or content rule on one text. -/
def textMatches (H : Runtime) (rule : TextRule) (text : Option String) : Bool :=
  (checkTextRule H rule text []).1

/-- The records of type `cookie` that `checkDetector` emits. -/
def cookieMatches (H : Runtime) (detection : Detection) (pageData : PageData) :
    List MatchRecord :=
  match detection.cookie, pageData.cookies with
  | some rules, some cookies =>
    (rules.filter fun rule => (checkCookieRule H rule cookies []).1).map
      fun rule => ⟨"cookie", rule.name, Js.numOr rule.confidence 50, rule.description⟩
  | _, _ => []

/-- The records of type `url` that `checkDetector` emits: one for each rule that some
script source satisfies. -/
def urlMatches (H : Runtime) (detection : Detection) (pageData : PageData) :
    List MatchRecord :=
  match detection.url, pageData.scripts with
  | some rules, some scripts =>
    (rules.filter fun rule => scripts.any fun script => textMatches H rule (some script)).map
      fun rule => ⟨"url", rule.text, Js.numOr rule.confidence 50, rule.description⟩
  | _, _ => []

/-- The records of type `content` that `checkDetector` emits. -/
def contentMatches (H : Runtime) (detection : Detection) (pageData : PageData) :
    List MatchRecord :=
  match detection.content with
  | some rules =>
    if Js.strTruthy pageData.html then
      (rules.filter fun rule => textMatches H rule pageData.html).map
        fun rule => ⟨"content", rule.text, Js.numOr rule.confidence 50, rule.description⟩
    else []
  | none => []

/-- The records of type `dom` that `checkDetector` emits. -/
def domMatches (detection : Detection) (pageData : PageData) : List MatchRecord :=
  match detection.dom, pageData.dom with
  | some rules, some dom =>
    (rules.filter fun rule => checkDomRule rule (some dom)).map
      fun rule => ⟨"dom", rule.selector, Js.numOr rule.confidence 50, rule.description⟩
  | _, _ => []

/-- The records of type `window` that `checkDetector` emits. -/
def windowMatches (detection : Detection) (pageData : PageData) : List MatchRecord :=
  match detection.window, pageData.windowProps with
  | some rules, some props =>
    (rules.filter fun rule => checkWindowRule rule (some props)).map
      fun rule => ⟨"window", rule.path, Js.numOr rule.confidence 50, rule.description⟩
  | _, _ => []

/-- A js-hook rule matches: it is not disabled and its target is one of the hooks. -/
def HookRuleMatches (rule : JsHookRule) (hooks : List String) : Prop :=
  rule.enabled ≠ some false ∧ ∃ t, rule.target = some t ∧ t ∈ hooks

/-- The records of type `js_hook` that `checkDetector` emits. -/
def jsHookMatches (detection : Detection) (pageData : PageData) : List MatchRecord :=
  match detection.js_hooks, pageData.jsHooks with
  | some rules, some hooks =>
    (rules.filter fun rule => checkJsHookRule rule hooks).map
      fun rule => ⟨"js_hook", rule.target, Js.numOr rule.confidence 50, rule.description⟩
  | _, _ => []

end ScanEngine

namespace ScoreCalculator

/-- The category buckets of the aggregate. -/
inductive Bucket where
  | antibot
  | captcha
  | fingerprint
deriving DecidableEq, Repr

/-- The bucket of a result in the words of the specification, chosen on the lower-cased
category name. -/
def bucketOf (H : Runtime) (d : DetectionResult) : Option Bucket :=
  let category := Js.toLowerCase H d.category
  if Js.includes category "anti" ∨ Js.includes category "bot" then some Bucket.antibot
  else if Js.includes category "captcha" then some Bucket.captcha
  else if Js.includes category "fingerprint" then some Bucket.fingerprint
  else none

end ScoreCalculator

namespace Background

/-- The event is a `PAGE_DATA` message whose cache key is the URL `u`. -/
def Event.isPageDataFor (u : String) (e : Event) : Bool :=
  match e.message with
  | Message.pageData data => decide (strOr (data.bind fun d => d.url) e.sender.tabUrl = some u)
  | _ => false

/-- The event is a `JS_HOOK_BATCH` message sent from a tab showing the URL `u`. -/
def Event.isHookBatchFor (u : String) (e : Event) : Bool :=
  match e.message with
  | Message.jsHookBatch _ => decide (e.sender.tabUrl = some u)
  | _ => false

/-- The entry of the URL `u`, if any, holds no detection. -/
def NoDetections (u : String) (cache : DetectionCache) : Prop :=
  ∀ entry, cacheGet cache (some u) = some entry → entry.detections = []

/-- No entry of the cache lists a hook target twice. -/
def HooksNodup (cache : DetectionCache) : Prop :=
  ∀ key entry hooks, cacheGet cache key = some entry → entry.jsHooks = some hooks → hooks.Nodup

end Background

namespace Background

/-- The detection pass the `PAGE_DATA` branch runs for the snapshot `d` of the page `u`:
`runDetection` on the snapshot with the cookies of the cookie reader. -/
def scanOf (H : Runtime) (cookies : String → List Cookie) (st : State) (u : String)
    (d : PageData) : List DetectionResult :=
  runDetection H st.detectorsLoaded st.detectors (showSetting st.storage)
    (some { d with cookies := some (cookies u) })

end Background

namespace CacheHandler

/-- The hash in the words of the specification: `h := (31 * h + code unit)` wrapped to a
signed 32-bit integer, folded over the UTF-16 code units from 0. -/
def specHash (url : String) : Int :=
  (Js.codeUnits url).foldl (fun (h : Int) (unit : Nat) => toInt32 (31 * h + (unit : Int))) 0

/-- The value of a digit of base 36. -/
def digitValue36 (c : Char) : Nat :=
  if c.toNat < 58 then c.toNat - 48 else c.toNat - 87

/-- The number that a sequence of digits of base 36 denotes, the most significant
first. -/
def fromDigits36 (ds : List Char) : Nat :=
  ds.foldl (fun acc c => acc * 36 + digitValue36 c) 0

/-- The character is a digit of base 36: `0` to `9` or `a` to `z`. -/
def isDigit36 (c : Char) : Bool :=
  c.isDigit || c.isLower

end CacheHandler

/-- The detector that the catalog holds under a category and a key, if any. -/
def Catalog.find (detectors : Catalog) (category key : String) : Option Detector :=
  (detectors.lookup category).bind fun entries => entries.lookup key

namespace RuleLoader

/-- What was retrieved is a definition that has a detector section with a non-empty
id. -/
def hasId : Option (Option RawDetector) → Bool
  | some (some raw) =>
    match raw.detector with
    | some det => Js.strTruthy det.id
    | none => false
  | _ => false

end RuleLoader

namespace Background

open Js

/-- The block `// Check cookies` of `checkDetector` of `background.js`, pushing onto the
matches `acc`. -/
def cookieBlock (H : Runtime) (detection : Detection) (pageData : PageData)
    (acc : List MatchRecord) : List MatchRecord :=
  match detection.cookie, pageData.cookies with
  | some rules, some cookies =>
    pushMatches (fun rule => checkCookieRule H rule cookies)
      (fun rule => ⟨"cookie", rule.name, numOr rule.confidence 50, rule.description⟩) rules acc
  | _, _ => acc

/-- The block `// Check URLs` of `checkDetector` of `background.js`. -/
def urlBlock (H : Runtime) (detection : Detection) (pageData : PageData)
    (acc : List MatchRecord) : List MatchRecord :=
  match detection.url, pageData.scripts with
  | some rules, some scripts =>
    pushMatches
      (fun rule => scripts.any fun script =>
        matchText H rule.text script rule.textRegex rule.textCaseSensitive)
      (fun rule => ⟨"url", rule.text, numOr rule.confidence 50, rule.description⟩) rules acc
  | _, _ => acc

/-- The block `// Check content` of `checkDetector` of `background.js`. -/
def contentBlock (H : Runtime) (detection : Detection) (pageData : PageData)
    (acc : List MatchRecord) : List MatchRecord :=
  match detection.content with
  | some rules =>
    if strTruthy pageData.html then
      pushMatches
        (fun rule => matchText H rule.text (pageData.html.getD "")
          rule.textRegex rule.textCaseSensitive)
        (fun rule => ⟨"content", rule.text, numOr rule.confidence 50, rule.description⟩)
        rules acc
    else acc
  | none => acc

/-- The block `// Check DOM` of `checkDetector` of `background.js`. -/
def domBlock (detection : Detection) (pageData : PageData) (acc : List MatchRecord) :
    List MatchRecord :=
  match detection.dom, pageData.dom.bind (·.selectors) with
  | some rules, some selectors =>
    pushMatches (fun rule => includesOpt selectors rule.selector)
      (fun rule => ⟨"dom", rule.selector, numOr rule.confidence 50, rule.description⟩) rules acc
  | _, _ => acc

/-- The block `// Check window properties` of `checkDetector` of `background.js`. -/
def windowBlock (detection : Detection) (pageData : PageData) (acc : List MatchRecord) :
    List MatchRecord :=
  match detection.window, pageData.windowProps with
  | some rules, some props =>
    pushMatches (fun rule => includesOpt props rule.path)
      (fun rule => ⟨"window", rule.path, numOr rule.confidence 50, rule.description⟩) rules acc
  | _, _ => acc

/-- The block `// Check JS hooks` of `checkDetector` of `background.js`. -/
def jsHookBlock (detection : Detection) (pageData : PageData) (acc : List MatchRecord) :
    List MatchRecord :=
  match detection.js_hooks, pageData.jsHooks with
  | some rules, some hooks =>
    pushMatches
      (fun rule => decide (rule.enabled ≠ some false) && includesOpt hooks rule.target)
      (fun rule => ⟨"js_hook", rule.target, numOr rule.confidence 50, rule.description⟩) rules acc
  | _, _ => acc

end Background

/-- No cookie, url or content rule of the detection sets a whole-word flag. -/
def Detection.NoWholeWord (d : Detection) : Prop :=
  (∀ rules, d.cookie = some rules → ∀ r ∈ rules,
    Js.truthy r.nameWholeWord = false ∧ Js.truthy r.valueWholeWord = false) ∧
  (∀ rules, d.url = some rules → ∀ r ∈ rules, Js.truthy r.textWholeWord = false) ∧
  (∀ rules, d.content = some rules → ∀ r ∈ rules, Js.truthy r.textWholeWord = false)

/-- The lists of selector hits and of window property hits of the snapshot hold no
empty string. -/
def PageData.HitsNonEmpty (pageData : PageData) : Prop :=
  (∀ d sels, pageData.dom = some d → d.selectors = some sels → "" ∉ sels) ∧
  (∀ props, pageData.windowProps = some props → "" ∉ props)

/-- The detector was made by `transformDetector` from a raw definition, in the rule
loader or in the coordinator. -/
def Detector.Transformed (det : Detector) : Prop :=
  ∃ raw : RawDetector,
    RuleLoader.transformDetector (some raw) = some det ∨
    Background.transformDetector (some raw) = some det

namespace CacheHandler

/-- The setting key of the cache duration. -/
def durationKey : String := "scrappey_cache_duration"

/-- What the host store holds for a key, or the default of the call. -/
def storedOr (st : State) (key : String) (defaultValue : Option StoredValue) :
    Option StoredValue :=
  match st.storage.lookup key with
  | some v => some v
  | none => defaultValue

/-- The in-memory map agrees with the host store on a key at the time `now`: a value it
holds for the key that is younger than `CACHE_DURATION` is the value of the store, or
the default of the call when the store has none. -/
def Agrees (now : Int) (st : State) (key : String) (defaultValue : Option StoredValue) :
    Prop :=
  ∀ m, st.cache.lookup key = some m → now - m.timestamp < CACHE_DURATION →
    m.value = storedOr st key defaultValue

/-- A write to the host store made without the cache handler, such as `saveSettings`
of `popup.js`, which calls `chrome.storage.local.set` itself. -/
def externalSet (st : State) (key : String) (value : StoredValue) : State :=
  { st with storage := storageSet st.storage key value }

end CacheHandler

/-! ## Concrete inputs -/

namespace Example

/-- The detector of the end-to-end scenario of the specification. -/
def cloudflare : Detector :=
  { id := some "cloudflare", category := some "antibot",
    detection := some { cookie := some [{ name := some "__cf_bm", confidence := some 90 }] } }

/-- The snapshot of the end-to-end scenario. -/
def cfPage : PageData := { cookies := some [⟨"__cf_bm", "x"⟩] }

/-- The catalog of the end-to-end scenario. -/
def cfCatalog : Catalog := [("antibot", [("cloudflare", cloudflare)])]

/-- The result of the end-to-end scenario. -/
def cfResult : DetectionResult :=
  { id := some "cloudflare", name := none, category := "antibot", confidence := 92,
    icon := none, website := none, description := none,
    matchList := [⟨"cookie", some "__cf_bm", 90, none⟩] }

/-- A detector with a base confidence, a regular expression rule and a selector rule. -/
def recaptcha : Detector :=
  { id := some "recaptcha", name := some "reCAPTCHA", category := some "CAPTCHA",
    enabled := some true, confidence := some 80,
    detection := some {
      content := some [{ text := some "grecaptcha", textRegex := some true,
                         confidence := some 85 }],
      dom := some [{ selector := some ".g-recaptcha", confidence := some 70 }] } }

/-- A detector that is switched off. -/
def disabled : Detector :=
  { id := some "off", enabled := some false, confidence := some 80,
    detection := some { cookie := some [{ name := some "__cf_bm" }] } }

/-- A snapshot with a cookie, markup and a selector hit. -/
def page : PageData :=
  { html := some "<script>grecaptcha.render()</script>",
    cookies := some [⟨"__cf_bm", "x"⟩],
    dom := some { selectors := some [".g-recaptcha"] } }

/-- A catalog of two categories. -/
def catalog : Catalog :=
  [("antibot", [("cloudflare", { cloudflare with confidence := some 80 }), ("off", disabled)]),
   ("captcha", [("recaptcha", recaptcha)])]

/-- A cache state reached through one call of `matchText` in regular expression mode. -/
def warmCache : PatternCache :=
  (ScanEngine.matchText Js.asciiRuntime [] (some "bot") "robot" (some true) none none).2

/-- A result list with one result in each bucket and one in none. -/
def results : List DetectionResult :=
  [ cfResult,
    { cfResult with id := some "recaptcha", category := "CAPTCHA", confidence := 65 },
    { cfResult with id := some "canvas", category := "Fingerprint", confidence := 40 },
    { cfResult with id := some "waf", category := "Firewall", confidence := 80 } ]

/-- A tab showing the page `https://shop.example/`. -/
def shopTab : Sender := { tabId := some 7, tabUrl := some "https://shop.example/" }

/-- A hook batch sent from the shop tab at time 1000, before any page data. -/
def hookEvent : Background.Event :=
  { message := Message.jsHookBatch (some [⟨"HTMLCanvasElement.toDataURL"⟩]),
    sender := shopTab, now := 1000, getCookiesForUrl := fun _ => [] }

/-- A hook batch sent from a tab showing another page. -/
def otherHookEvent : Background.Event :=
  { message := Message.jsHookBatch (some [⟨"navigator.webdriver"⟩]),
    sender := { tabId := some 9, tabUrl := some "https://other.example/" },
    now := 1000, getCookiesForUrl := fun _ => [] }

/-- An early cache check for the shop page. -/
def cacheCheckEvent : Background.Event :=
  { message := Message.checkCacheEarly (some "https://shop.example/"),
    sender := shopTab, now := 1500, getCookiesForUrl := fun _ => [] }

/-- A coordinator state whose cache holds one entry for the shop page, written at
time 1000. -/
def cachedState : Background.State :=
  { detectorsLoaded := true, detectors := catalog,
    detectionCache := [(some "https://shop.example/",
      { detections := [cfResult], timestamp := 1000, jsHooks := some ["navigator.webdriver"] })],
    storage := [] }

/-- A coordinator state with the catalog of the end-to-end scenario loaded and an empty
cache. -/
def loadedState : Background.State :=
  { detectorsLoaded := true, detectors := cfCatalog, detectionCache := [], storage := [] }

/-- The snapshot a tab showing the shop page sends. -/
def shopData : PageData := { url := some "https://shop.example/" }

/-- A second tab showing the shop page. -/
def shopTab2 : Sender := { tabId := some 8, tabUrl := some "https://shop.example/" }

/-- The cookie reader of a browser holding the cookie `__cf_bm`. -/
def cfCookies : String → List Cookie := fun _ => [⟨"__cf_bm", "x"⟩]

/-- The text of an inline script of 100,000 letters `x`. -/
def longScript : List Nat := List.replicate 100000 120

/-- The serialized markup of a document whose head holds that inline script. -/
def longMarkup : List Nat :=
  Js.codeUnits "<html><head><script>" ++ longScript ++
    Js.codeUnits "</script></head><body></body></html>"

/-- A raw definition with a detector section, one cookie pattern and one global. -/
def rawCloudflare : RawDetector :=
  { detector := some { id := some "cloudflare", label := some "Cloudflare",
                       type := some "antibot" },
    patterns := some { cookies := some [{ matchValue := some "__cf_bm", score := some 90 }],
                       globals := some [{ matchValue := some "turnstile" }] },
    info := some "Cloudflare bot management" }

/-- A raw definition whose id is `__proto__`. -/
def rawProto : RawDetector :=
  { detector := some { id := some "__proto__", label := some "Proto" } }

/-- A raw definition whose detector section has no id. -/
def rawNoId : RawDetector :=
  { detector := some { label := some "Nameless" } }

/-- The catalog as `loadDetectors` initialises it. -/
def emptyCatalog : Catalog := [("antibot", []), ("captcha", []), ("fingerprint", [])]

/-- The detector that the rule loader makes of the raw definition of the example. -/
def loadedCloudflare : Detector :=
  (RuleLoader.transformDetector (some rawCloudflare)).getD {}

/-- A catalog that holds the loaded detector. -/
def loadedCatalog : Catalog := [("antibot", [("cloudflare", loadedCloudflare)])]

/-- The URL of a page of the shop. -/
def pageAa : String := "https://shop.example/Aa"

/-- The URL of another page of the shop, with the same hash. -/
def pageBB : String := "https://shop.example/BB"

/-- The cache handler after `setDetectionCache` for the shop page at time 1000 and a
lookup at time 2000, both layers empty before. -/
def handlerAfterLookup : CacheHandler.State :=
  (CacheHandler.getDetectionCache 2000
    (CacheHandler.setDetectionCache 1000 ⟨[], []⟩ pageAa [cfResult]) pageAa).2

end Example

/-! # Theorems -/

/-! ## Score calculator -/

namespace ScoreCalculator

theorem maxWith_ge_base (ms : List MatchRecord) (base : Int) : base ≤ maxWith base ms := by
  induction ms generalizing base with
  | nil => simp [maxWith]
  | cons m ms ih =>
    have h := ih (max base m.confidence)
    simp only [maxWith, List.foldl_cons] at h ⊢
    exact le_trans (le_max_left _ _) h

theorem maxWith_ge_mem (ms : List MatchRecord) (base : Int) :
    ∀ m ∈ ms, m.confidence ≤ maxWith base ms := by
  induction ms generalizing base with
  | nil => simp
  | cons a ms ih =>
    intro m hm
    rcases List.mem_cons.1 hm with rfl | hm
    · have h := maxWith_ge_base ms (max base m.confidence)
      simp only [maxWith, List.foldl_cons] at h ⊢
      exact le_trans (le_max_right _ _) h
    · have h := ih (max base a.confidence) m hm
      simpa only [maxWith, List.foldl_cons] using h

theorem maxWith_attained (ms : List MatchRecord) (base : Int) :
    maxWith base ms = base ∨ ∃ m ∈ ms, maxWith base ms = m.confidence := by
  induction ms generalizing base with
  | nil => simp [maxWith]
  | cons a ms ih =>
    have h := ih (max base a.confidence)
    simp only [maxWith, List.foldl_cons] at h ⊢
    rcases h with h | ⟨m, hm, h⟩
    · rcases max_choice base a.confidence with hc | hc
      · left; rw [h, hc]
      · right; exact ⟨a, List.mem_cons_self _ _, by rw [h, hc]⟩
    · right; exact ⟨m, List.mem_cons_of_mem _ hm, h⟩

theorem foldl_confidenceStep_eq_filter (ms : List MatchRecord) (base : Int) :
    ms.foldl confidenceStep base = maxWith base (ms.filter fun m => decide (m.confidence ≠ 0)) := by
  induction ms generalizing base with
  | nil => simp [maxWith]
  | cons a ms ih =>
    simp only [List.foldl_cons, List.filter_cons]
    by_cases h0 : a.confidence = 0
    · simp [confidenceStep, h0, ih]
    · simp only [h0, ne_eq, not_false_eq_true, decide_True, if_true, maxWith, List.foldl_cons]
      rw [ih]
      congr 1
      simp only [confidenceStep, h0, ne_eq, not_false_eq_true, true_and]
      split
      · rw [max_eq_right]; omega
      · rw [max_eq_left]; omega

theorem maxWith_filter_of_nonneg (ms : List MatchRecord) (base : Int) (hb : 0 ≤ base) :
    maxWith base (ms.filter fun m => decide (m.confidence ≠ 0)) = maxWith base ms := by
  induction ms generalizing base with
  | nil => rfl
  | cons a ms ih =>
    simp only [List.filter_cons]
    by_cases h0 : a.confidence = 0
    · simp only [h0, ne_eq, not_true_eq_false, decide_False, maxWith, List.foldl_cons]
      have : max base 0 = base := max_eq_left hb
      rw [this]
      exact ih base hb
    · simp only [h0, ne_eq, not_false_eq_true, decide_True, if_true, maxWith, List.foldl_cons]
      exact ih _ (le_trans hb (le_max_left _ _))

theorem filter_nonzero_of_all (ms : List MatchRecord) (h : ∀ m ∈ ms, m.confidence ≠ 0) :
    (ms.filter fun m => decide (m.confidence ≠ 0)) = ms := by
  apply List.filter_eq_self.2
  intro m hm
  simpa using h m hm

end ScoreCalculator

namespace ScoreCalculator

/-- C1: with base confidence -5 and one match of confidence 0, `calculateConfidence` of
the score calculator returns -3: the guard `match.confidence && ...` takes the
confidence 0 for a missing one and skips the match. The formula
`min(max(base, largest match confidence) + min(2n, 15), 100)` gives 2, and so does
`calculateConfidence` of `background.js`, which compares without that guard. -/
theorem calculateConfidence_zero_match_skipped :
    calculateConfidence (some [⟨"cookie", none, 0, none⟩]) (some (-5)) = -3 ∧
    specConfidence [⟨"cookie", none, 0, none⟩] (-5) = 2 ∧
    Background.calculateConfidence [⟨"cookie", none, 0, none⟩] (some (-5)) = 2 ∧
    calculateConfidence (some [⟨"cookie", none, 0, none⟩]) (some (-5)) ≠
      specConfidence [⟨"cookie", none, 0, none⟩] (-5) := by
  decide

set_option maxRecDepth 20000 in
theorem twenty_matches_score :
    calculateConfidence (some (List.replicate 20 ⟨"cookie", none, 10, none⟩)) (some 50) = 65 := by
  decide

/-- The score away from the guard: for every non-empty list of matches, whenever the
base is not negative or no match has the confidence 0 (as for every record that
`checkDetector` pushes), `calculateConfidence` is
`min(max(base, largest match confidence) + min(2n, 15), 100)`; in general the maximum
runs over the base and the non-zero match confidences. The boost never exceeds 15, and
20 matches of confidence 10 with base 50 score 65. -/
theorem calculateConfidence_formula (ms : List MatchRecord) (base : Int) (hne : ms ≠ []) :
    calculateConfidence (some ms) (some base) =
        min (maxWith base (ms.filter fun m => decide (m.confidence ≠ 0)) +
          min (2 * (ms.length : Int)) 15) 100 ∧
    ((0 ≤ base ∨ ∀ m ∈ ms, m.confidence ≠ 0) →
      calculateConfidence (some ms) (some base) = specConfidence ms base) ∧
    min (2 * (ms.length : Int)) 15 ≤ 15 ∧
    calculateConfidence (some (List.replicate 20 ⟨"cookie", none, 10, none⟩)) (some 50) = 65 := by
  have hlen : ms.length ≠ 0 := by
    intro h
    exact hne (List.length_eq_zero.1 h)
  have hcode : calculateConfidence (some ms) (some base) =
      min (maxWith base (ms.filter fun m => decide (m.confidence ≠ 0)) +
        min (2 * (ms.length : Int)) 15) 100 := by
    simp only [calculateConfidence, hlen, if_false, Option.getD_some,
      foldl_confidenceStep_eq_filter, mul_comm]
  refine ⟨hcode, ?_, min_le_right _ _, twenty_matches_score⟩
  intro h
  rw [hcode, specConfidence]
  rcases h with h | h
  · rw [maxWith_filter_of_nonneg ms base h]
  · rw [filter_nonzero_of_all ms h]

/-- The formula, applied to one match of confidence 90 with base confidence 50. -/
theorem calculateConfidence_formula_witness :
    calculateConfidence (some [⟨"cookie", none, 90, none⟩]) (some 50) =
      specConfidence [⟨"cookie", none, 90, none⟩] 50 :=
  (calculateConfidence_formula [⟨"cookie", none, 90, none⟩] 50 (by decide)).2.1
    (Or.inl (by decide))

end ScoreCalculator

/-! ## Host functions: substring test and cache keys -/

namespace Js

theorem isInfixOf_iff (p t : List Char) : isInfixOf p t = true ↔ p <:+: t := by
  induction t with
  | nil => simp [isInfixOf, List.infix_nil]
  | cons c t ih =>
    simp only [isInfixOf, Bool.or_eq_true, ih, List.infix_cons_iff, List.isPrefixOf_iff_prefix]

theorem includes_iff (text pattern : String) :
    includes text pattern = true ↔ pattern.data <:+: text.data :=
  isInfixOf_iff _ _

theorem append_sep_inj {α : Type} (s : α) :
    ∀ (l₁ l₂ r₁ r₂ : List α), s ∉ l₁ → s ∉ l₂ → l₁ ++ s :: r₁ = l₂ ++ s :: r₂ →
      l₁ = l₂ ∧ r₁ = r₂ := by
  intro l₁
  induction l₁ with
  | nil =>
    intro l₂ r₁ r₂ _ h₂ h
    cases l₂ with
    | nil => simpa using h
    | cons b l₂ =>
      simp only [List.nil_append, List.cons_append, List.cons.injEq] at h
      exact absurd (h.1 ▸ List.mem_cons_self _ _) h₂
  | cons a l₁ ih =>
    intro l₂ r₁ r₂ h₁ h₂ h
    cases l₂ with
    | nil =>
      simp only [List.nil_append, List.cons_append, List.cons.injEq] at h
      exact absurd (h.1 ▸ List.mem_cons_self _ _) h₁
    | cons b l₂ =>
      simp only [List.cons_append, List.cons.injEq] at h
      have := ih l₂ r₁ r₂ (fun hm => h₁ (List.mem_cons_of_mem _ hm))
        (fun hm => h₂ (List.mem_cons_of_mem _ hm)) h.2
      exact ⟨by rw [h.1, this.1], this.2⟩

theorem flagString_no_underscore (f : Option Bool) : '_' ∉ (flagString f).data.reverse := by
  rcases f with _ | _ | _ <;> decide

theorem flagString_inj (f g : Option Bool)
    (h : (flagString f).data.reverse = (flagString g).data.reverse) : f = g := by
  rcases f with _ | _ | _ <;> rcases g with _ | _ | _ <;> first | rfl | (exact absurd h (by decide))

end Js

namespace ScanEngine

open Js

theorem cacheKey_inj (p q : String) (f g : Option Bool) (h : cacheKey p f = cacheKey q g) :
    p = q ∧ f = g := by
  have hd := congrArg (fun s => s.data.reverse) h
  simp only [cacheKey, String.data_append, List.reverse_append] at hd
  have hu : ("_" : String).data.reverse = ['_'] := rfl
  rw [hu] at hd
  simp only [List.singleton_append] at hd
  have := append_sep_inj '_' _ _ _ _ (flagString_no_underscore f) (flagString_no_underscore g) hd
  refine ⟨?_, flagString_inj f g this.1⟩
  have hp : p.data = q.data := List.reverse_injective this.2
  exact String.ext hp

theorem coherent_nil (H : Runtime) : Coherent H [] := by
  intro p f r h
  simp at h

theorem coherent_cons (H : Runtime) (cache : PatternCache) (p : String) (f : Option Bool)
    (r : RegExp) (hc : Coherent H cache) (hr : RegExp.compile H p (!truthy f) = some r) :
    Coherent H ((cacheKey p f, r) :: cache) := by
  intro q g s h
  rw [List.lookup_cons] at h
  by_cases hk : cacheKey q g = cacheKey p f
  · have hk2 : (cacheKey q g == cacheKey p f) = true := by simp [hk]
    rw [hk2] at h
    obtain ⟨rfl, rfl⟩ := cacheKey_inj _ _ _ _ hk
    simp only [Option.some.injEq] at h
    rw [← h]; exact hr
  · have hk2 : (cacheKey q g == cacheKey p f) = false := by simp [hk]
    rw [hk2] at h
    exact hc q g s h

theorem matchText_coherent (H : Runtime) (cache : PatternCache) (pattern : Option String)
    (text : String) (isRegex caseSensitive wholeWord : Option Bool) (hc : Coherent H cache) :
    (matchText H cache pattern text isRegex caseSensitive wholeWord).1 =
      (matchText H [] pattern text isRegex caseSensitive wholeWord).1 ∧
    Coherent H (matchText H cache pattern text isRegex caseSensitive wholeWord).2 := by
  unfold matchText
  by_cases hg : (!strTruthy pattern || text.data.isEmpty) = true
  · simp only [hg, if_true]
    exact ⟨trivial, hc⟩
  · simp only [hg, Bool.false_eq_true, if_false]
    by_cases hr : truthy isRegex = true
    · simp only [hr, if_true, List.lookup_nil]
      cases hl : List.lookup (cacheKey (pattern.getD "") caseSensitive) cache with
      | some regex =>
        have := hc _ _ _ hl
        simp only [this]
        exact ⟨trivial, hc⟩
      | none =>
        cases hcomp : RegExp.compile H (pattern.getD "") (!truthy caseSensitive) with
        | none => exact ⟨rfl, hc⟩
        | some regex => exact ⟨rfl, coherent_cons H cache _ _ regex hc hcomp⟩
    · simp only [hr, Bool.false_eq_true, if_false]
      by_cases hw : truthy wholeWord = true
      · simp only [hw, if_true]
        split <;> exact ⟨rfl, hc⟩
      · simp only [hw, Bool.false_eq_true, if_false]
        exact ⟨trivial, hc⟩

theorem Reachable.coherent {H : Runtime} {cache : PatternCache} (h : Reachable H cache) :
    Coherent H cache := by
  induction h with
  | empty => exact coherent_nil H
  | call cache pattern text isRegex caseSensitive wholeWord _ ih =>
    exact (matchText_coherent H cache pattern text isRegex caseSensitive wholeWord ih).2

end ScanEngine

/-! ## The pattern cache does not change a result -/

namespace ScanEngine

open Js

theorem Transparent.eq_of_reachable {H : Runtime} {α : Type}
    {f : PatternCache → α × PatternCache} (hf : Transparent H f) {c₁ c₂ : PatternCache}
    (h₁ : Reachable H c₁) (h₂ : Reachable H c₂) : (f c₁).1 = (f c₂).1 := by
  rw [(hf c₁ h₁).1, (hf c₂ h₂).1]

theorem matchText_transparent (H : Runtime) (pattern : Option String) (text : String)
    (isRegex caseSensitive wholeWord : Option Bool) :
    Transparent H (fun c => matchText H c pattern text isRegex caseSensitive wholeWord) := by
  intro cache hc
  exact ⟨(matchText_coherent H cache pattern text isRegex caseSensitive wholeWord hc.coherent).1,
    Reachable.call cache pattern text isRegex caseSensitive wholeWord hc⟩

theorem checkCookieRule_reachable (H : Runtime) (rule : CookieRule) (cookies : List Cookie) :
    ∀ c₁ c₂, Reachable H c₁ → Reachable H c₂ →
      (checkCookieRule H rule cookies c₁).1 = (checkCookieRule H rule cookies c₂).1 ∧
      Reachable H (checkCookieRule H rule cookies c₁).2 := by
  induction cookies with
  | nil => intro c₁ c₂ h₁ _; exact ⟨rfl, h₁⟩
  | cons cookie rest ih =>
    intro c₁ c₂ h₁ h₂
    have hn := matchText_transparent H rule.name cookie.name rule.nameRegex
      rule.nameCaseSensitive rule.nameWholeWord
    have hv := matchText_transparent H rule.value cookie.value rule.valueRegex
      rule.valueCaseSensitive rule.valueWholeWord
    have e := hn.eq_of_reachable h₁ h₂
    have r₁ := (hn c₁ h₁).2
    have r₂ := (hn c₂ h₂).2
    simp only at e r₁ r₂
    simp only [checkCookieRule]
    rw [e]
    split
    · split
      · exact ⟨hv.eq_of_reachable r₁ r₂, (hv _ r₁).2⟩
      · exact ⟨rfl, r₁⟩
    · exact ih _ _ r₁ r₂

theorem checkCookieRule_transparent (H : Runtime) (rule : CookieRule) (cookies : List Cookie) :
    Transparent H (checkCookieRule H rule cookies) :=
  fun c hc => checkCookieRule_reachable H rule cookies c [] hc Reachable.empty

theorem checkTextRule_transparent (H : Runtime) (rule : TextRule) (text : Option String) :
    Transparent H (checkTextRule H rule text) := by
  intro c hc
  unfold checkTextRule
  split
  · exact ⟨rfl, hc⟩
  · exact matchText_transparent H rule.text (text.getD "") rule.textRegex rule.textCaseSensitive
      rule.textWholeWord c hc

theorem anyScript_reachable (H : Runtime) (rule : TextRule) (scripts : List String) :
    ∀ c₁ c₂, Reachable H c₁ → Reachable H c₂ →
      (anyScript H rule scripts c₁).1 = (anyScript H rule scripts c₂).1 ∧
      Reachable H (anyScript H rule scripts c₁).2 := by
  induction scripts with
  | nil => intro c₁ c₂ h₁ _; exact ⟨rfl, h₁⟩
  | cons script rest ih =>
    intro c₁ c₂ h₁ h₂
    have ht := checkTextRule_transparent H rule (some script)
    have e := ht.eq_of_reachable h₁ h₂
    have r₁ := (ht c₁ h₁).2
    have r₂ := (ht c₂ h₂).2
    simp only [anyScript]
    rw [e]
    split
    · exact ⟨rfl, r₁⟩
    · exact ih _ _ r₁ r₂

theorem anyScript_transparent (H : Runtime) (rule : TextRule) (scripts : List String) :
    Transparent H (anyScript H rule scripts) :=
  fun c hc => anyScript_reachable H rule scripts c [] hc Reachable.empty

theorem forEachRule_reachable (H : Runtime) {ρ : Type}
    (check : ρ → PatternCache → Bool × PatternCache) (record : ρ → MatchRecord)
    (hcheck : ∀ rule, Transparent H (check rule)) (rules : List ρ) :
    ∀ c acc, Reachable H c →
      (forEachRule check record rules c acc).1 =
        acc ++ (rules.filter fun rule => (check rule []).1).map record ∧
      Reachable H (forEachRule check record rules c acc).2 := by
  induction rules with
  | nil => intro c acc hc; exact ⟨by simp [forEachRule], hc⟩
  | cons rule rest ih =>
    intro c acc hc
    have h := hcheck rule c hc
    simp only [forEachRule]
    have := ih (check rule c).2 (if (check rule c).1 = true then acc ++ [record rule] else acc) h.2
    refine ⟨?_, this.2⟩
    rw [this.1, h.1, List.filter_cons]
    split <;> simp

theorem const_transparent (H : Runtime) (b : Bool) :
    Transparent H (fun c : PatternCache => (b, c)) :=
  fun _ hc => ⟨rfl, hc⟩

end ScanEngine

namespace ScanEngine

open Js

theorem goodPhase_id (H : Runtime) : GoodPhase H (fun s => s) :=
  fun _ _ h h₁ _ => ⟨h, h₁⟩

theorem goodPhase_forEachRule (H : Runtime) {ρ : Type}
    (check : ρ → PatternCache → Bool × PatternCache) (record : ρ → MatchRecord)
    (hcheck : ∀ rule, Transparent H (check rule)) (rules : List ρ) :
    GoodPhase H (fun s => forEachRule check record rules s.2 s.1) := by
  intro s₁ s₂ h h₁ h₂
  have a := forEachRule_reachable H check record hcheck rules s₁.2 s₁.1 h₁
  have b := forEachRule_reachable H check record hcheck rules s₂.2 s₂.1 h₂
  exact ⟨by rw [a.1, b.1, h], a.2⟩

theorem goodPhase_checkCookies (H : Runtime) (detection : Detection) (pageData : PageData) :
    GoodPhase H (checkCookies H detection pageData) := by
  unfold checkCookies
  split
  · exact goodPhase_forEachRule H _ _ (fun rule => checkCookieRule_transparent H rule _) _
  · exact goodPhase_id H

theorem goodPhase_checkUrls (H : Runtime) (detection : Detection) (pageData : PageData) :
    GoodPhase H (checkUrls H detection pageData) := by
  unfold checkUrls
  split
  · exact goodPhase_forEachRule H _ _ (fun rule => anyScript_transparent H rule _) _
  · exact goodPhase_id H

theorem goodPhase_checkContent (H : Runtime) (detection : Detection) (pageData : PageData) :
    GoodPhase H (checkContent H detection pageData) := by
  unfold checkContent
  split
  · split
    · exact goodPhase_forEachRule H _ _ (fun rule => checkTextRule_transparent H rule _) _
    · exact goodPhase_id H
  · exact goodPhase_id H

theorem goodPhase_checkDom (H : Runtime) (detection : Detection) (pageData : PageData) :
    GoodPhase H (checkDom detection pageData) := by
  unfold checkDom
  split
  · exact goodPhase_forEachRule H _ _ (fun _ => const_transparent H _) _
  · exact goodPhase_id H

theorem goodPhase_checkWindow (H : Runtime) (detection : Detection) (pageData : PageData) :
    GoodPhase H (checkWindow detection pageData) := by
  unfold checkWindow
  split
  · exact goodPhase_forEachRule H _ _ (fun _ => const_transparent H _) _
  · exact goodPhase_id H

theorem goodPhase_checkJsHooks (H : Runtime) (detection : Detection) (pageData : PageData) :
    GoodPhase H (checkJsHooks detection pageData) := by
  unfold checkJsHooks
  split
  · exact goodPhase_forEachRule H _ _ (fun _ => const_transparent H _) _
  · exact goodPhase_id H

theorem GoodPhase.comp {H : Runtime} {P Q : ScanState → ScanState} (hP : GoodPhase H P)
    (hQ : GoodPhase H Q) : GoodPhase H (fun s => Q (P s)) := by
  intro s₁ s₂ h h₁ h₂
  have a := hP s₁ s₂ h h₁ h₂
  have b := hP s₂ s₁ h.symm h₂ h₁
  exact hQ _ _ a.1 a.2 b.2

theorem checkDetector_transparent (H : Runtime) (detector : Detector) (pageData : PageData) :
    Transparent H (checkDetector H detector pageData) := by
  intro c hc
  let d := detector.detection.getD {}
  have h := ((((((goodPhase_checkCookies H d pageData).comp
    (goodPhase_checkUrls H d pageData)).comp
    (goodPhase_checkContent H d pageData)).comp
    (goodPhase_checkDom H d pageData)).comp
    (goodPhase_checkWindow H d pageData)).comp
    (goodPhase_checkJsHooks H d pageData)) ([], c) ([], []) rfl hc Reachable.empty
  exact h

end ScanEngine

/-! ## Characterisation of `detectOnPage` -/

namespace ScanEngine

open Js

theorem detectorStep_reachable (H : Runtime) (pageData : PageData) (category : String)
    (detector : Detector) (cache : PatternCache) (results : List DetectionResult)
    (hc : Reachable H cache) :
    (detectorStep H pageData category detector cache results).1 =
        results ++ (resultFor H pageData (category, detector)).toList ∧
    Reachable H (detectorStep H pageData category detector cache results).2 := by
  have ht := checkDetector_transparent H detector pageData cache hc
  unfold detectorStep resultFor
  by_cases he : detector.enabled = some false
  · simp only [he, if_true, Option.toList_none, List.append_nil]
    exact ⟨trivial, hc⟩
  · simp only [he, if_false]
    rw [ht.1]
    split
    · exact ⟨rfl, ht.2⟩
    · simp only [Option.toList_none, List.append_nil]
      exact ⟨trivial, ht.2⟩

theorem detectLoop_reachable (H : Runtime) (pageData : PageData)
    (entries : List (String × Detector)) :
    ∀ cache results, Reachable H cache →
      (detectLoop H pageData entries cache results).1 =
        results ++ entries.filterMap (resultFor H pageData) ∧
      Reachable H (detectLoop H pageData entries cache results).2 := by
  induction entries with
  | nil => intro cache results hc; exact ⟨by simp [detectLoop], hc⟩
  | cons e rest ih =>
    intro cache results hc
    obtain ⟨category, detector⟩ := e
    have hs := detectorStep_reachable H pageData category detector cache results hc
    have := ih _ (detectorStep H pageData category detector cache results).1 hs.2
    simp only [detectLoop]
    refine ⟨?_, this.2⟩
    rw [this.1, hs.1, List.filterMap_cons]
    cases resultFor H pageData (category, detector) <;> simp

theorem detectOnPage_eq (H : Runtime) (pageData : PageData) (detectors : Catalog)
    (cache : PatternCache) (hc : Reachable H cache) :
    (detectOnPage H (some pageData) (some detectors) cache).1 =
        sortByConfidence (detectors.enumerate.filterMap (resultFor H pageData)) ∧
    Reachable H (detectOnPage H (some pageData) (some detectors) cache).2 := by
  have h := detectLoop_reachable H pageData detectors.enumerate cache [] hc
  simp only [detectOnPage]
  exact ⟨by rw [h.1, List.nil_append], h.2⟩

theorem detectOnPage_reachable (H : Runtime) (pageData : Option PageData)
    (detectors : Option Catalog) (cache : PatternCache) (hc : Reachable H cache) :
    Reachable H (detectOnPage H pageData detectors cache).2 := by
  cases pageData with
  | none => cases detectors <;> exact hc
  | some pd =>
    cases detectors with
    | none => exact hc
    | some dets => exact (detectOnPage_eq H pd dets cache hc).2

end ScanEngine

/-! ## The stable sort by confidence -/

theorem filter_orderedInsert_confidence (k : Int) (a : DetectionResult)
    (l : List DetectionResult) :
    (List.orderedInsert (fun a b : DetectionResult => b.confidence ≤ a.confidence) a l).filter
        (fun r => decide (r.confidence = k)) =
      (a :: l).filter (fun r => decide (r.confidence = k)) := by
  induction l with
  | nil => simp
  | cons b l ih =>
    simp only [List.orderedInsert]
    split
    · rfl
    · rename_i hab
      rw [List.filter_cons, ih]
      by_cases hbk : b.confidence = k
      · have hak : ¬ a.confidence = k := by omega
        simp [List.filter_cons, hbk, hak]
      · simp [List.filter_cons, hbk]

theorem filter_sortByConfidence (k : Int) (l : List DetectionResult) :
    (sortByConfidence l).filter (fun r => decide (r.confidence = k)) =
      l.filter (fun r => decide (r.confidence = k)) := by
  induction l with
  | nil => rfl
  | cons a l ih =>
    unfold sortByConfidence at ih ⊢
    rw [List.insertionSort, filter_orderedInsert_confidence, List.filter_cons, ih,
      List.filter_cons]

theorem sorted_sortByConfidence (l : List DetectionResult) :
    List.Sorted (fun a b : DetectionResult => b.confidence ≤ a.confidence)
      (sortByConfidence l) := by
  haveI : IsTotal DetectionResult (fun a b => b.confidence ≤ a.confidence) :=
    ⟨fun a b => le_total b.confidence a.confidence⟩
  haveI : IsTrans DetectionResult (fun a b => b.confidence ≤ a.confidence) :=
    ⟨fun _ _ _ h₁ h₂ => le_trans h₂ h₁⟩
  exact List.sorted_insertionSort _ l

theorem perm_sortByConfidence (l : List DetectionResult) : (sortByConfidence l).Perm l :=
  List.perm_insertionSort _ l

/-! ## Bounds of the confidence of a result -/

namespace ScoreCalculator

theorem foldl_confidenceStep_ge (ms : List MatchRecord) (base : Int) :
    base ≤ ms.foldl confidenceStep base := by
  rw [foldl_confidenceStep_eq_filter]
  exact maxWith_ge_base _ _

theorem calculateConfidence_le (matchList : Option (List MatchRecord)) (base : Option Int) :
    calculateConfidence matchList base ≤ 100 := by
  cases matchList with
  | none => simp [calculateConfidence]
  | some ms =>
    simp only [calculateConfidence]
    split
    · decide
    · exact min_le_right _ _

theorem calculateConfidence_ge (ms : List MatchRecord) (base : Option Int) (hne : ms ≠ [])
    (h0 : 0 ≤ base.getD 50) (h100 : base.getD 50 ≤ 100) :
    0 ≤ calculateConfidence (some ms) base ∧
    base.getD 50 ≤ calculateConfidence (some ms) base := by
  have hlen : ms.length ≠ 0 := fun h => hne (List.length_eq_zero.1 h)
  have hge := foldl_confidenceStep_ge ms (base.getD 50)
  have hb : (0 : Int) ≤ min ((ms.length : Int) * 2) 15 := by
    apply le_min <;> omega
  simp only [calculateConfidence, hlen, if_false]
  constructor
  · apply le_min <;> omega
  · apply le_min <;> omega

end ScoreCalculator

namespace ScanEngine

theorem detectorStep_mem (H : Runtime) (pageData : PageData) (category : String)
    (detector : Detector) (cache : PatternCache) (results : List DetectionResult)
    (r : DetectionResult)
    (hr : r ∈ (detectorStep H pageData category detector cache results).1) :
    r ∈ results ∨ PushedFor H pageData (category, detector) r := by
  unfold detectorStep at hr
  by_cases he : detector.enabled = some false
  · simp only [he, if_true] at hr
    exact Or.inl hr
  · simp only [he, if_false] at hr
    split at hr
    · rename_i hlen
      rcases List.mem_append.1 hr with h | h
      · exact Or.inl h
      · right
        rw [List.mem_singleton] at h
        refine ⟨cache, he, ?_, ?_, ?_, ?_⟩
        · intro hnil
          rw [hnil] at hlen
          exact absurd hlen (by decide)
        · rw [h]
        · rw [h]
        · rw [h]
    · exact Or.inl hr

theorem detectLoop_mem (H : Runtime) (pageData : PageData)
    (entries : List (String × Detector)) :
    ∀ (cache : PatternCache) (results : List DetectionResult) (r : DetectionResult),
      r ∈ (detectLoop H pageData entries cache results).1 →
      r ∈ results ∨ ∃ e ∈ entries, PushedFor H pageData e r := by
  induction entries with
  | nil => intro cache results r hr; exact Or.inl hr
  | cons e rest ih =>
    intro cache results r hr
    obtain ⟨category, detector⟩ := e
    simp only [detectLoop] at hr
    rcases ih _ _ r hr with h | ⟨e, he, h⟩
    · rcases detectorStep_mem H pageData category detector cache results r h with h | h
      · exact Or.inl h
      · exact Or.inr ⟨(category, detector), List.mem_cons_self _ _, h⟩
    · exact Or.inr ⟨e, List.mem_cons_of_mem _ he, h⟩

/-- C2: when every base confidence of the catalog lies in 0..100, every result of
`detectOnPage` has a confidence in 0..100 that is at least the base confidence of the
detector it was pushed for (50 when the detector has none); the bound needs no
assumption on the rule confidences or on the cache. -/
theorem detectOnPage_confidence_bounds (H : Runtime) (pageData : PageData)
    (detectors : Catalog) (cache : PatternCache)
    (hbase : ∀ e ∈ detectors.enumerate, ∀ b, e.2.confidence = some b → 0 ≤ b ∧ b ≤ 100) :
    ∀ r ∈ (detectOnPage H (some pageData) (some detectors) cache).1,
      0 ≤ r.confidence ∧ r.confidence ≤ 100 ∧
      ∃ e ∈ detectors.enumerate, PushedFor H pageData e r ∧
        e.2.confidence.getD 50 ≤ r.confidence := by
  intro r hr
  simp only [detectOnPage] at hr
  have hr2 := (perm_sortByConfidence _).mem_iff.1 hr
  rcases detectLoop_mem H pageData _ cache [] r hr2 with h | ⟨e, he, hp⟩
  · simp at h
  · obtain ⟨c, hen, hne, hid, hm, hconf⟩ := hp
    have hb : 0 ≤ e.2.confidence.getD 50 ∧ e.2.confidence.getD 50 ≤ 100 := by
      cases hcf : e.2.confidence with
      | none => decide
      | some b => exact hbase e he b hcf
    have hge := ScoreCalculator.calculateConfidence_ge _ e.2.confidence hne hb.1 hb.2
    have hle := ScoreCalculator.calculateConfidence_le
      (some (checkDetector H e.2 pageData c).1) e.2.confidence
    rw [← hconf] at hge hle
    exact ⟨hge.1, hle, e, he, ⟨c, hen, hne, hid, hm, hconf⟩, hge.2⟩

end ScanEngine

namespace ScanEngine

open Js

theorem example_catalog_bases :
    ∀ e ∈ Example.catalog.enumerate, ∀ b, e.2.confidence = some b → 0 ≤ b ∧ b ≤ 100 := by
  intro e he b hb
  simp only [Example.catalog, Catalog.enumerate, List.flatMap_cons, List.flatMap_nil,
    List.map_cons, List.map_nil, List.append_nil, List.cons_append, List.nil_append,
    List.mem_cons, List.mem_singleton, List.not_mem_nil, or_false] at he
  rcases he with rfl | rfl | rfl <;>
    · simp only [Example.disabled, Example.recaptcha, Option.some.injEq] at hb
      omega

/-- C2, applied to the example catalog (all base confidences 80) and the example page:
the first result has confidence 92, within 0..100 and not below its base. -/
theorem detectOnPage_confidence_bounds_witness :
    (detectOnPage asciiRuntime (some Example.page) (some Example.catalog) []).1.head? =
      some Example.cfResult ∧
    (0 : Int) ≤ Example.cfResult.confidence ∧ Example.cfResult.confidence ≤ 100 :=
  have h := detectOnPage_confidence_bounds asciiRuntime Example.page Example.catalog []
    example_catalog_bases Example.cfResult (by decide)
  ⟨by decide, h.1, h.2.1⟩

/-- C3: the list returned by `detectOnPage` is ordered by confidence, larger first, and
for every confidence value the results with that confidence are, in the same order, the
results pushed for the detectors in catalog enumeration order that have it. -/
theorem detectOnPage_sorted_stable (H : Runtime) (pageData : PageData) (detectors : Catalog)
    (cache : PatternCache) (hc : Reachable H cache) :
    List.Sorted (fun a b : DetectionResult => b.confidence ≤ a.confidence)
      (detectOnPage H (some pageData) (some detectors) cache).1 ∧
    ∀ k : Int,
      (detectOnPage H (some pageData) (some detectors) cache).1.filter
          (fun r => decide (r.confidence = k)) =
        (detectors.enumerate.filterMap (resultFor H pageData)).filter
          (fun r => decide (r.confidence = k)) := by
  rw [(detectOnPage_eq H pageData detectors cache hc).1]
  exact ⟨sorted_sortByConfidence _, fun k => filter_sortByConfidence k _⟩

/-- C3, applied to the example catalog and page from the empty cache. -/
theorem detectOnPage_sorted_stable_witness :
    List.Sorted (fun a b : DetectionResult => b.confidence ≤ a.confidence)
      (detectOnPage asciiRuntime (some Example.page) (some Example.catalog) []).1 :=
  (detectOnPage_sorted_stable asciiRuntime Example.page Example.catalog [] Reachable.empty).1

theorem resultFor_isSome (H : Runtime) (pageData : PageData) (e : String × Detector) :
    (resultFor H pageData e).isSome = true ↔
      (e.2.enabled ≠ some false ∧ (checkDetector H e.2 pageData []).1 ≠ []) := by
  unfold resultFor
  by_cases he : e.2.enabled = some false
  · simp [he]
  · simp only [he, if_false, ne_eq, not_false_eq_true, true_and]
    split
    · rename_i hl
      simp only [Option.isSome_some, true_iff]
      intro hnil
      rw [hnil] at hl
      exact absurd hl (by decide)
    · rename_i hl
      simp only [Option.isSome_none, Bool.false_eq_true, false_iff, not_not]
      exact List.length_eq_zero.1 (by omega)

theorem resultFor_fields (H : Runtime) (pageData : PageData) (e : String × Detector)
    (r : DetectionResult) (h : resultFor H pageData e = some r) :
    r.id = e.2.id ∧ r.matchList = (checkDetector H e.2 pageData []).1 ∧
    r.confidence =
      ScoreCalculator.calculateConfidence (some (checkDetector H e.2 pageData []).1)
        e.2.confidence := by
  unfold resultFor at h
  by_cases he : e.2.enabled = some false
  · simp [he] at h
  · simp only [he, if_false] at h
    by_cases hl : (checkDetector H e.2 pageData []).1.length > 0
    · simp only [hl, if_true, Option.some.injEq] at h
      subst h
      exact ⟨rfl, rfl, rfl⟩
    · simp [hl] at h

/-- C4: the results of `detectOnPage` are, up to the order, the results pushed for the
enumerated detectors, one for each detector that is not disabled and for which
`checkDetector` yields a match and none for any other; a result carries the id of its
detector, the matches of `checkDetector` and the confidence `calculateConfidence`
computes from them. In the end-to-end scenario the list is the single result for
"cloudflare" with confidence 92. -/
theorem detectOnPage_one_result_per_matching_detector (H : Runtime) (pageData : PageData)
    (detectors : Catalog) (cache : PatternCache) (hc : Reachable H cache) :
    (detectOnPage H (some pageData) (some detectors) cache).1.Perm
      (detectors.enumerate.filterMap (resultFor H pageData)) ∧
    (∀ e : String × Detector, (resultFor H pageData e).isSome = true ↔
      (e.2.enabled ≠ some false ∧ (checkDetector H e.2 pageData []).1 ≠ [])) ∧
    (∀ (e : String × Detector) (c : PatternCache), Reachable H c →
      (checkDetector H e.2 pageData c).1 = (checkDetector H e.2 pageData []).1) ∧
    (∀ (e : String × Detector) (r : DetectionResult), resultFor H pageData e = some r →
      r.id = e.2.id ∧ r.matchList = (checkDetector H e.2 pageData []).1 ∧
      r.confidence =
        ScoreCalculator.calculateConfidence (some (checkDetector H e.2 pageData []).1)
          e.2.confidence) ∧
    (detectOnPage H (some Example.cfPage) (some Example.cfCatalog) cache).1 =
      [Example.cfResult] ∧
    Example.cfResult.id = some "cloudflare" ∧ Example.cfResult.confidence = 92 := by
  refine ⟨?_, resultFor_isSome H pageData, ?_, resultFor_fields H pageData, rfl, rfl, rfl⟩
  · rw [(detectOnPage_eq H pageData detectors cache hc).1]
    exact perm_sortByConfidence _
  · intro e c hr
    exact (checkDetector_transparent H e.2 pageData c hr).1

/-- C4, applied to the example catalog and page from the empty cache. -/
theorem detectOnPage_one_result_per_matching_detector_witness :
    (detectOnPage asciiRuntime (some Example.page) (some Example.catalog) []).1.Perm
      (Example.catalog.enumerate.filterMap (resultFor asciiRuntime Example.page)) :=
  (detectOnPage_one_result_per_matching_detector asciiRuntime Example.page Example.catalog []
    Reachable.empty).1

/-- C5: from any two cache states the engine can be in, `detectOnPage` returns the same
ordered result list for the same snapshot and catalog, and it leaves a cache state the
engine can be in; so two invocations agree whatever calls were made in between. -/
theorem detectOnPage_deterministic (H : Runtime) (pageData : Option PageData)
    (detectors : Option Catalog) (c₁ c₂ : PatternCache)
    (h₁ : Reachable H c₁) (h₂ : Reachable H c₂) :
    (detectOnPage H pageData detectors c₁).1 = (detectOnPage H pageData detectors c₂).1 ∧
    Reachable H (detectOnPage H pageData detectors c₁).2 := by
  refine ⟨?_, detectOnPage_reachable H pageData detectors c₁ h₁⟩
  cases pageData with
  | none => cases detectors <;> rfl
  | some pd =>
    cases detectors with
    | none => rfl
    | some dets =>
      rw [(detectOnPage_eq H pd dets c₁ h₁).1, (detectOnPage_eq H pd dets c₂ h₂).1]

/-- C5, applied to the empty cache and to a cache that already holds a compiled pattern. -/
theorem detectOnPage_deterministic_witness :
    Example.warmCache ≠ [] ∧
    (detectOnPage asciiRuntime (some Example.page) (some Example.catalog) []).1 =
      (detectOnPage asciiRuntime (some Example.page) (some Example.catalog)
        Example.warmCache).1 :=
  ⟨by decide,
   (detectOnPage_deterministic asciiRuntime (some Example.page) (some Example.catalog) []
      Example.warmCache Reachable.empty
      (Reachable.call [] (some "bot") "robot" (some true) none none Reachable.empty)).1⟩

end ScanEngine

namespace ScanEngine

open Js

theorem enumerate_eq_nil (detectors : Catalog) (h : ∀ e ∈ detectors, e.2 = []) :
    detectors.enumerate = [] := by
  induction detectors with
  | nil => rfl
  | cons e rest ih =>
    have he := h e (List.mem_cons_self _ _)
    have hr := ih fun x hx => h x (List.mem_cons_of_mem _ hx)
    simp only [Catalog.enumerate, List.flatMap_cons] at hr ⊢
    rw [hr, he]
    rfl

/-- C6: for every snapshot (absent ones included) and every cache, `detectOnPage`
returns the empty list, leaving the cache as it is, for an absent catalog, for an empty
catalog and for a catalog whose categories hold no detector; and `runDetection` of the
coordinator returns the empty list while `detectorsLoaded` is false, whatever the
catalog variable and the fingerprinting setting hold. Both are total functions: no
error is raised. -/
theorem detectOnPage_empty_catalog (H : Runtime) (pageData : Option PageData)
    (cache : PatternCache) (detectors : Catalog) (showSetting : Option Bool)
    (h : ∀ e ∈ detectors, e.2 = []) :
    detectOnPage H pageData none cache = ([], cache) ∧
    detectOnPage H pageData (some []) cache = ([], cache) ∧
    detectOnPage H pageData (some detectors) cache = ([], cache) ∧
    (∀ loaded : Catalog, Background.runDetection H false loaded showSetting pageData = []) := by
  refine ⟨?_, ?_, ?_, ?_⟩
  · cases pageData <;> rfl
  · cases pageData <;> rfl
  · cases pageData with
    | none => rfl
    | some pd =>
      simp only [detectOnPage, enumerate_eq_nil detectors h, detectLoop]
      rfl
  · intro loaded
    cases pageData <;> rfl

/-- C6, applied to the example page and a catalog of three categories without
detectors. -/
theorem detectOnPage_empty_catalog_witness :
    detectOnPage asciiRuntime (some Example.page)
        (some [("antibot", []), ("captcha", []), ("fingerprint", [])]) Example.warmCache =
      ([], Example.warmCache) ∧
    Background.runDetection asciiRuntime false Example.catalog none (some Example.page) = [] :=
  have h := detectOnPage_empty_catalog asciiRuntime (some Example.page) Example.warmCache
    [("antibot", []), ("captcha", []), ("fingerprint", [])] none (by decide)
  ⟨h.2.2.1, h.2.2.2 Example.catalog⟩

/-- C7: `matchText` returns false, and leaves the cache as it is, when the pattern is
missing or empty or the text is empty, for every value of the three flags. -/
theorem matchText_empty (H : Runtime) (cache : PatternCache) (pattern : Option String)
    (text : String) (isRegex caseSensitive wholeWord : Option Bool)
    (h : pattern = none ∨ pattern = some "" ∨ text = "") :
    matchText H cache pattern text isRegex caseSensitive wholeWord = (false, cache) := by
  unfold matchText
  have hg : (!strTruthy pattern || text.data.isEmpty) = true := by
    rcases h with h | h | h <;> subst h <;> simp [strTruthy]
  simp only [hg, if_true]

/-- C7, applied to an empty pattern in regular expression mode and to an empty text. -/
theorem matchText_empty_witness :
    matchText asciiRuntime [] (some "") "some text" (some true) (some true) (some true) =
      (false, []) ∧
    matchText asciiRuntime [] (some "bot") "" none none (some true) = (false, []) :=
  ⟨matchText_empty asciiRuntime [] (some "") "some text" (some true) (some true) (some true)
     (Or.inr (Or.inl rfl)),
   matchText_empty asciiRuntime [] (some "bot") "" none none (some true) (Or.inr (Or.inr rfl))⟩

end ScanEngine

/-! ## Characters -/

namespace Js

theorem toNat_ofNat_of_lt (n : Nat) (h : n < 55296) : (Char.ofNat n).toNat = n := by
  have hv : n.isValidChar := Or.inl h
  simp only [Char.ofNat, hv, dif_pos, Char.ofNatAux, Char.toNat, UInt32.toNat]
  simp

theorem char_eq_of_toNat_eq {c d : Char} (h : c.toNat = d.toNat) : c = d := by
  rw [← Char.ofNat_toNat c, ← Char.ofNat_toNat d, h]

theorem isUpper_iff (c : Char) : c.isUpper = true ↔ 65 ≤ c.toNat ∧ c.toNat ≤ 90 := by
  simp only [Char.isUpper, Char.toNat, Bool.and_eq_true, decide_eq_true_eq, ge_iff_le,
    UInt32.le_def]
  rfl

theorem isLower_iff (c : Char) : c.isLower = true ↔ 97 ≤ c.toNat ∧ c.toNat ≤ 122 := by
  simp only [Char.isLower, Char.toNat, Bool.and_eq_true, decide_eq_true_eq, ge_iff_le,
    UInt32.le_def]
  rfl

theorem isDigit_iff (c : Char) : c.isDigit = true ↔ 48 ≤ c.toNat ∧ c.toNat ≤ 57 := by
  simp only [Char.isDigit, Char.toNat, Bool.and_eq_true, decide_eq_true_eq, ge_iff_le,
    UInt32.le_def]
  rfl

theorem toNat_toLower (c : Char) :
    c.toLower.toNat = if 65 ≤ c.toNat ∧ c.toNat ≤ 90 then c.toNat + 32 else c.toNat := by
  unfold Char.toLower
  simp only [ge_iff_le]
  split
  · rw [toNat_ofNat_of_lt]; omega
  · rfl

theorem toNat_toUpper (c : Char) :
    c.toUpper.toNat = if 97 ≤ c.toNat ∧ c.toNat ≤ 122 then c.toNat - 32 else c.toNat := by
  unfold Char.toUpper
  simp only [ge_iff_le]
  split
  · rw [toNat_ofNat_of_lt]; omega
  · rfl

theorem isWordChar_iff (c : Char) :
    isWordChar c = true ↔
      (65 ≤ c.toNat ∧ c.toNat ≤ 90) ∨ (97 ≤ c.toNat ∧ c.toNat ≤ 122) ∨
      (48 ≤ c.toNat ∧ c.toNat ≤ 57) ∨ c.toNat = 95 := by
  have hu : (c == '_') = true ↔ c.toNat = 95 := by
    simp only [beq_iff_eq]
    constructor
    · rintro rfl; rfl
    · intro h; exact char_eq_of_toNat_eq h
  simp only [isWordChar, Char.isAlphanum, Char.isAlpha, Bool.or_eq_true, isUpper_iff,
    isLower_iff, isDigit_iff, hu]
  tauto

theorem isSyntaxChar_toNat (c : Char) (h : isSyntaxChar c = true) :
    c.toNat ∈ [46, 42, 43, 63, 94, 36, 123, 125, 40, 41, 124, 91, 93, 92] := by
  simp only [isSyntaxChar, decide_eq_true_eq, List.mem_cons, List.mem_singleton,
    List.not_mem_nil, or_false] at h
  rcases h with h | h | h | h | h | h | h | h | h | h | h | h | h | h <;> subst h <;> decide

theorem not_syntax_of_word (c : Char) (h : isWordChar c = true) : isSyntaxChar c = false := by
  rw [isWordChar_iff] at h
  by_contra hs
  have hs2 : isSyntaxChar c = true := by simpa using hs
  have := isSyntaxChar_toNat c hs2
  simp only [List.mem_cons, List.mem_singleton, List.not_mem_nil, or_false] at this
  omega

theorem isWordChar_toLower (c : Char) (h : isWordChar c = true) :
    isWordChar c.toLower = true := by
  rw [isWordChar_iff] at h ⊢
  rw [toNat_toLower]
  split <;> omega

theorem toLower_toLower (c : Char) : c.toLower.toLower = c.toLower := by
  apply char_eq_of_toNat_eq
  rw [toNat_toLower c.toLower, toNat_toLower c]
  split_ifs <;> omega

/-- Matching of a pattern character that is a word character under the `i` flag: the
text character is the same letter in either case, or the same digit or underscore. -/
theorem canonicalize_eq_iff_ignoreCase (H : Runtime) (c t : Char) (hc : isWordChar c = true) :
    (canonicalize H true c == canonicalize H true t) = true ↔ t.toLower = c.toLower := by
  rw [isWordChar_iff] at hc
  have hcl : c.val.toNat < 128 := by
    have : c.toNat < 128 := by omega
    exact this
  have hcan : canonicalize H true c = c.toUpper := by
    simp [canonicalize, hcl]
  rw [hcan, beq_iff_eq]
  have hcu := toNat_toUpper c
  have hclo := toNat_toLower c
  have htl := toNat_toLower t
  by_cases ht : t.val.toNat < 128
  · have htcan : canonicalize H true t = t.toUpper := by simp [canonicalize, ht]
    have htn : t.toNat < 128 := ht
    rw [htcan]
    have htu := toNat_toUpper t
    constructor
    · intro h
      apply char_eq_of_toNat_eq
      have h2 := congrArg Char.toNat h
      rw [hcu, htu] at h2
      rw [hclo, htl]
      split_ifs at h2 ⊢ <;> omega
    · intro h
      apply char_eq_of_toNat_eq
      have h2 := congrArg Char.toNat h
      rw [hclo, htl] at h2
      rw [hcu, htu]
      split_ifs at h2 ⊢ <;> omega
  · have htn : 128 ≤ t.toNat := Nat.le_of_not_lt ht
    constructor
    · intro h
      exfalso
      have h2 := congrArg Char.toNat h
      rw [hcu] at h2
      have h3 : 128 ≤ (canonicalize H true t).toNat := by
        simp only [canonicalize, Bool.not_true, Bool.false_eq_true, if_false, ht]
        split
        · exact htn
        · split
          · exact htn
          · rename_i h4
            exact Nat.le_of_not_lt h4
      split_ifs at h2 <;> omega
    · intro h
      exfalso
      have h2 := congrArg Char.toNat h
      rw [hclo, htl] at h2
      split_ifs at h2 <;> omega

end Js

/-! ## Regular expressions of the literal fragment -/

namespace Js

theorem prevAfter_eq_getLast (prev : Option Char) (l : List Char) (h : l ≠ []) :
    prevAfter prev l = l.getLast? := by
  induction l generalizing prev with
  | nil => exact absurd rfl h
  | cons c l ih =>
    cases l with
    | nil => rfl
    | cons d l =>
      rw [prevAfter, ih (some c) (by simp), List.getLast?_cons_cons]

theorem prevAfter_none (l : List Char) : prevAfter none l = l.getLast? := by
  cases l with
  | nil => rfl
  | cons c l => exact prevAfter_eq_getLast none (c :: l) (by simp)

theorem canonicalize_false (H : Runtime) (c : Char) : canonicalize H false c = c := by
  simp [canonicalize]

theorem sameWord_cons (ignoreCase : Bool) (c t : Char) (lits mid : List Char) :
    SameWord ignoreCase (c :: lits) (t :: mid) ↔
      (if ignoreCase then t.toLower = c.toLower else t = c) ∧ SameWord ignoreCase lits mid := by
  cases ignoreCase <;> simp [SameWord]

theorem sameWord_nil_left (ignoreCase : Bool) (mid : List Char) :
    SameWord ignoreCase [] mid ↔ mid = [] := by
  cases ignoreCase <;> simp [SameWord]

theorem sameWord_cons_nil (ignoreCase : Bool) (c : Char) (lits : List Char) :
    ¬ SameWord ignoreCase (c :: lits) [] := by
  cases ignoreCase <;> simp [SameWord]

theorem char_match_iff (H : Runtime) (ignoreCase : Bool) (c t : Char)
    (hc : isWordChar c = true) :
    (canonicalize H ignoreCase c == canonicalize H ignoreCase t) = true ↔
      (if ignoreCase then t.toLower = c.toLower else t = c) := by
  cases ignoreCase with
  | true => simpa using canonicalize_eq_iff_ignoreCase H c t hc
  | false =>
    simp only [canonicalize_false, beq_iff_eq, Bool.false_eq_true, if_false]
    exact eq_comm

theorem matchHere_char_cons (H : Runtime) (ignoreCase : Bool) (c t : Char) (rest : List Atom)
    (prev : Option Char) (ts : List Char) :
    matchHere H ignoreCase (Atom.char c :: rest) prev (t :: ts) =
      ((canonicalize H ignoreCase c == canonicalize H ignoreCase t) &&
        matchHere H ignoreCase rest (some t) ts) := rfl

theorem matchHere_char_nil (H : Runtime) (ignoreCase : Bool) (c : Char) (rest : List Atom)
    (prev : Option Char) : matchHere H ignoreCase (Atom.char c :: rest) prev [] = false := rfl

theorem matchHere_wordBoundary (H : Runtime) (ignoreCase : Bool) (rest : List Atom)
    (prev : Option Char) (text : List Char) :
    matchHere H ignoreCase (Atom.wordBoundary :: rest) prev text =
      ((isWordAt prev != isWordAt text.head?) && matchHere H ignoreCase rest prev text) := by
  cases text <;> rfl

theorem matchHere_chars (H : Runtime) (ignoreCase : Bool) (rest : List Atom)
    (lits : List Char) (hw : ∀ c ∈ lits, isWordChar c = true) :
    ∀ (prev : Option Char) (text : List Char),
      matchHere H ignoreCase (lits.map Atom.char ++ rest) prev text = true ↔
        ∃ mid post, text = mid ++ post ∧ SameWord ignoreCase lits mid ∧
          matchHere H ignoreCase rest (prevAfter prev mid) post = true := by
  induction lits with
  | nil =>
    intro prev text
    simp only [List.map_nil, List.nil_append, sameWord_nil_left]
    constructor
    · intro h; exact ⟨[], text, rfl, rfl, h⟩
    · rintro ⟨mid, post, rfl, rfl, h⟩; exact h
  | cons c lits ih =>
    intro prev text
    have hc := hw c (List.mem_cons_self _ _)
    have ih2 := ih fun x hx => hw x (List.mem_cons_of_mem _ hx)
    cases text with
    | nil =>
      simp only [List.map_cons, List.cons_append, matchHere_char_nil, Bool.false_eq_true,
        false_iff]
      rintro ⟨mid, post, h, hs, _⟩
      cases mid with
      | nil => exact sameWord_cons_nil _ _ _ hs
      | cons t mid => simp at h
    | cons t ts =>
      simp only [List.map_cons, List.cons_append, matchHere_char_cons, Bool.and_eq_true,
        char_match_iff H ignoreCase c t hc, ih2 (some t) ts]
      constructor
      · rintro ⟨h₁, mid, post, rfl, hs, hm⟩
        exact ⟨t :: mid, post, rfl, (sameWord_cons _ _ _ _ _).2 ⟨h₁, hs⟩, hm⟩
      · rintro ⟨mid, post, h, hs, hm⟩
        cases mid with
        | nil => exact absurd hs (sameWord_cons_nil _ _ _)
        | cons u mid =>
          simp only [List.cons_append, List.cons.injEq] at h
          obtain ⟨rfl, rfl⟩ := h
          have := (sameWord_cons _ _ _ _ _).1 hs
          exact ⟨this.1, mid, post, rfl, this.2, hm⟩

theorem searchAtoms_iff (H : Runtime) (ignoreCase : Bool) (atoms : List Atom) :
    ∀ (prev : Option Char) (text : List Char),
      searchAtoms H ignoreCase atoms prev text = true ↔
        ∃ pre rest, text = pre ++ rest ∧
          matchHere H ignoreCase atoms (prevAfter prev pre) rest = true := by
  intro prev text
  induction text generalizing prev with
  | nil =>
    simp only [searchAtoms]
    constructor
    · intro h; exact ⟨[], [], rfl, h⟩
    · rintro ⟨pre, rest, h, hm⟩
      have hp : pre = [] := (List.append_eq_nil.1 h.symm).1
      have hr : rest = [] := (List.append_eq_nil.1 h.symm).2
      subst hp hr
      exact hm
  | cons t ts ih =>
    simp only [searchAtoms, Bool.or_eq_true, ih (some t)]
    constructor
    · rintro (h | ⟨pre, rest, rfl, hm⟩)
      · exact ⟨[], t :: ts, rfl, h⟩
      · exact ⟨t :: pre, rest, rfl, hm⟩
    · rintro ⟨pre, rest, h, hm⟩
      cases pre with
      | nil =>
        simp only [List.nil_append] at h
        subst h
        exact Or.inl hm
      | cons u pre =>
        simp only [List.cons_append, List.cons.injEq] at h
        obtain ⟨rfl, rfl⟩ := h
        exact Or.inr ⟨pre, rest, rfl, hm⟩

end Js

namespace Js

theorem isWordChar_of_toLower_eq (c t : Char) (hc : isWordChar c = true)
    (h : t.toLower = c.toLower) : isWordChar t = true := by
  rw [isWordChar_iff] at hc ⊢
  have h2 := congrArg Char.toNat h
  rw [toNat_toLower, toNat_toLower] at h2
  split_ifs at h2 <;> omega

theorem sameWord_word (ignoreCase : Bool) (lits : List Char)
    (hw : ∀ c ∈ lits, isWordChar c = true) :
    ∀ mid, SameWord ignoreCase lits mid → ∀ t ∈ mid, isWordChar t = true := by
  induction lits with
  | nil =>
    intro mid hs t ht
    rw [(sameWord_nil_left _ _).1 hs] at ht
    exact absurd ht (List.not_mem_nil _)
  | cons c lits ih =>
    intro mid hs t ht
    cases mid with
    | nil => exact absurd ht (List.not_mem_nil _)
    | cons u mid =>
      have h := (sameWord_cons _ _ _ _ _).1 hs
      rcases List.mem_cons.1 ht with rfl | ht
      · have hc := hw c (List.mem_cons_self _ _)
        cases ignoreCase with
        | true => exact isWordChar_of_toLower_eq c t hc (by simpa using h.1)
        | false =>
          have : t = c := by simpa using h.1
          rw [this]; exact hc
      · exact ih (fun x hx => hw x (List.mem_cons_of_mem _ hx)) mid h.2 t ht

theorem sameWord_ne_nil (ignoreCase : Bool) (lits mid : List Char) (hne : lits ≠ [])
    (hs : SameWord ignoreCase lits mid) : mid ≠ [] := by
  intro h
  subst h
  cases lits with
  | nil => exact hne rfl
  | cons c lits => exact sameWord_cons_nil _ _ _ hs

theorem isWordAt_head (mid post : List Char) (hne : mid ≠ [])
    (hw : ∀ t ∈ mid, isWordChar t = true) : isWordAt (mid ++ post).head? = true := by
  cases mid with
  | nil => exact absurd rfl hne
  | cons t mid => exact hw t (List.mem_cons_self _ _)

theorem isWordAt_prevAfter (prev : Option Char) (mid : List Char) (hne : mid ≠ [])
    (hw : ∀ t ∈ mid, isWordChar t = true) : isWordAt (prevAfter prev mid) = true := by
  rw [prevAfter_eq_getLast prev mid hne, List.getLast?_eq_getLast mid hne]
  exact hw _ (List.getLast_mem hne)

theorem bne_true_left (b : Bool) : (b != true) = true ↔ b = false := by
  cases b <;> simp

theorem true_bne (b : Bool) : (true != b) = true ↔ b = false := by
  cases b <;> simp

/-- The regular expression `\bLITERAL\b` for a literal made of word characters finds a
match exactly when the literal occurs in the text as a whole word. -/
theorem wholeWord_search_iff (H : Runtime) (ignoreCase : Bool) (lits : List Char)
    (hne : lits ≠ []) (hw : ∀ c ∈ lits, isWordChar c = true) (text : List Char) :
    searchAtoms H ignoreCase
        (Atom.wordBoundary :: (lits.map Atom.char ++ [Atom.wordBoundary])) none text = true ↔
      OccursAsWord ignoreCase lits text := by
  rw [searchAtoms_iff]
  constructor
  · rintro ⟨pre, rest, rfl, hm⟩
    rw [matchHere_wordBoundary, Bool.and_eq_true, matchHere_chars H ignoreCase _ lits hw] at hm
    obtain ⟨hb, mid, post, rfl, hs, hm2⟩ := hm
    have hmne := sameWord_ne_nil ignoreCase lits mid hne hs
    have hmw := sameWord_word ignoreCase lits hw mid hs
    rw [matchHere_wordBoundary, Bool.and_eq_true, isWordAt_prevAfter _ mid hmne hmw,
      true_bne] at hm2
    rw [isWordAt_head mid post hmne hmw, bne_true_left, prevAfter_none] at hb
    exact ⟨pre, mid, post, by simp, hs, hb, hm2.1⟩
  · rintro ⟨pre, mid, post, rfl, hs, hpre, hpost⟩
    have hmne := sameWord_ne_nil ignoreCase lits mid hne hs
    have hmw := sameWord_word ignoreCase lits hw mid hs
    refine ⟨pre, mid ++ post, by simp, ?_⟩
    rw [matchHere_wordBoundary, Bool.and_eq_true, matchHere_chars H ignoreCase _ lits hw]
    refine ⟨?_, mid, post, rfl, hs, ?_⟩
    · rw [isWordAt_head mid post hmne hmw, bne_true_left, prevAfter_none]
      exact hpre
    · rw [matchHere_wordBoundary, Bool.and_eq_true, isWordAt_prevAfter _ mid hmne hmw,
        true_bne]
      exact ⟨hpost, rfl⟩

end Js

namespace Js

theorem parseLiteral_append (l rest : List Char) (h : ∀ c ∈ l, isSyntaxChar c = false) :
    parseLiteral (l ++ rest) = (parseLiteral rest).map (l.map Atom.char ++ ·) := by
  induction l with
  | nil => simp
  | cons c l ih =>
    have hc := h c (List.mem_cons_self _ _)
    have hb : c ≠ '\\' := by
      intro hcb
      rw [hcb] at hc
      exact absurd hc (by decide)
    have e : parseLiteral (c :: (l ++ rest)) =
        (parseLiteral (l ++ rest)).map (Atom.char c :: ·) := by
      rw [parseLiteral.eq_def]
      simp [hb, hc]
    rw [List.cons_append, e, ih fun x hx => h x (List.mem_cons_of_mem _ hx)]
    cases parseLiteral rest <;> simp

theorem parseLiteral_wordBoundary (rest : List Char) :
    parseLiteral ('\\' :: 'b' :: rest) = (parseLiteral rest).map (Atom.wordBoundary :: ·) := by
  rw [parseLiteral.eq_def]
  simp

theorem parseLiteral_wholeWord (l : List Char) (h : ∀ c ∈ l, isSyntaxChar c = false) :
    parseLiteral ('\\' :: 'b' :: (l ++ ['\\', 'b'])) =
      some (Atom.wordBoundary :: (l.map Atom.char ++ [Atom.wordBoundary])) := by
  rw [parseLiteral_wordBoundary, parseLiteral_append l _ h, parseLiteral_wordBoundary]
  simp [parseLiteral]

theorem isAscii_of_word (l : List Char) (h : ∀ c ∈ l, isWordChar c = true) :
    isAscii l = true := by
  simp only [isAscii, List.all_eq_true, decide_eq_true_eq]
  intro c hc
  have := (isWordChar_iff c).1 (h c hc)
  have e : c.val.toNat = c.toNat := rfl
  omega

theorem toLowerCase_word (H : Runtime) (p : String) (h : ∀ c ∈ p.data, isWordChar c = true) :
    toLowerCase H p = String.mk (p.data.map Char.toLower) := by
  simp [toLowerCase, isAscii_of_word p.data h]

theorem occursAsWord_toLower (pattern text : List Char) :
    OccursAsWord true (pattern.map Char.toLower) text ↔ OccursAsWord true pattern text := by
  have e : (pattern.map Char.toLower).map Char.toLower = pattern.map Char.toLower := by
    rw [List.map_map]
    apply List.map_congr_left
    intro c _
    exact toLower_toLower c
  simp only [OccursAsWord, SameWord, if_true, e]

theorem string_data_ne_nil (s : String) (h : s ≠ "") : s.data ≠ [] := by
  intro hd
  exact h (String.ext hd)

end Js

namespace ScanEngine

open Js

theorem escapeRegex_plain (s : String) (h : ∀ c ∈ s.data, isSyntaxChar c = false) :
    escapeRegex s = s := by
  have : (s.data.flatMap fun c => if isSyntaxChar c then ['\\', c] else [c]) = s.data := by
    generalize s.data = l at h
    induction l with
    | nil => rfl
    | cons c l ih =>
      rw [List.flatMap_cons, ih fun x hx => h x (List.mem_cons_of_mem _ hx)]
      simp [h c (List.mem_cons_self _ _)]
  unfold escapeRegex
  rw [this]

/-- The value of `matchText` in whole-word mode for a pattern made of word characters. -/
theorem matchText_wholeWord_eq (H : Runtime) (cache : PatternCache) (p t : String)
    (isRegex caseSensitive wholeWord : Option Bool)
    (hp : p ≠ "") (hword : ∀ ch ∈ p.data, isWordChar ch = true) (ht : t ≠ "")
    (hr : truthy isRegex = false) (hw : truthy wholeWord = true) :
    matchText H cache (some p) t isRegex caseSensitive wholeWord =
      (searchAtoms H (!truthy caseSensitive)
        (Atom.wordBoundary ::
          (((if truthy caseSensitive then p.data else p.data.map Char.toLower).map Atom.char) ++
            [Atom.wordBoundary])) none t.data, cache) := by
  have hpd := string_data_ne_nil p hp
  have htd := string_data_ne_nil t ht
  have hg : (!strTruthy (some p) || t.data.isEmpty) = false := by
    simp [strTruthy, List.isEmpty_iff, hpd, htd]
  have hsp : ∀ c ∈ (if truthy caseSensitive = true then p else toLowerCase H p).data,
      isSyntaxChar c = false := by
    intro c hc
    apply not_syntax_of_word
    split at hc
    · exact hword c hc
    · rw [toLowerCase_word H p hword] at hc
      simp only [List.mem_map] at hc
      obtain ⟨d, hd, rfl⟩ := hc
      exact isWordChar_toLower d (hword d hd)
  have hsrc : ("\\b" ++ escapeRegex (if truthy caseSensitive = true then p else toLowerCase H p)
      ++ "\\b").data =
      '\\' :: 'b' :: ((if truthy caseSensitive = true then p else toLowerCase H p).data ++
        ['\\', 'b']) := by
    rw [escapeRegex_plain _ hsp]
    simp only [String.data_append]
    rfl
  have hparse := parseLiteral_wholeWord _ hsp
  have hdata : (if truthy caseSensitive = true then p else toLowerCase H p).data =
      (if truthy caseSensitive = true then p.data else p.data.map Char.toLower) := by
    split
    · rfl
    · rw [toLowerCase_word H p hword]
  rw [hdata] at hsrc hparse
  unfold matchText
  simp only [hg, Bool.false_eq_true, if_false, hr, hw, if_true, Option.getD_some,
    RegExp.compile, RegExp.test, hsrc, hparse]

end ScanEngine

namespace ScanEngine

open Js

/-- C8: for a non-empty pattern and a non-empty text, with `isRegex` and `wholeWord`
unset, `matchText` returns true exactly when the pattern is a contiguous block of the
text if `caseSensitive` is set, and exactly when the lower-cased pattern is a contiguous
block of the lower-cased text if it is not; the cache is left as it is. A cookie rule with
name "CF_Bot" and `nameCaseSensitive` false matches a cookie named "cf_bot". -/
theorem matchText_substring (H : Runtime) (cache : PatternCache) (p t : String)
    (isRegex caseSensitive wholeWord : Option Bool) (value : String)
    (hp : p ≠ "") (ht : t ≠ "")
    (hr : truthy isRegex = false) (hw : truthy wholeWord = false) :
    ((matchText H cache (some p) t isRegex caseSensitive wholeWord).1 = true ↔
      if truthy caseSensitive then p.data <:+: t.data
      else (toLowerCase H p).data <:+: (toLowerCase H t).data) ∧
    (matchText H cache (some p) t isRegex caseSensitive wholeWord).2 = cache ∧
    (checkCookieRule H { name := some "CF_Bot", nameCaseSensitive := some false }
      [⟨"cf_bot", value⟩] cache).1 = true := by
  have hpd := string_data_ne_nil p hp
  have htd := string_data_ne_nil t ht
  have hg : (!strTruthy (some p) || t.data.isEmpty) = false := by
    simp [strTruthy, List.isEmpty_iff, hpd, htd]
  refine ⟨?_, ?_, rfl⟩
  · unfold matchText
    simp only [hg, Bool.false_eq_true, if_false, hr, hw, Option.getD_some, includes_iff]
    split <;> rfl
  · unfold matchText
    simp only [hg, Bool.false_eq_true, if_false, hr, hw]

/-- C8, applied to the pattern "Bot" and the text "robot" without case sensitivity. -/
theorem matchText_substring_witness :
    ((matchText asciiRuntime [] (some "Bot") "robot" none none none).1 = true ↔
      (toLowerCase asciiRuntime "Bot").data <:+: (toLowerCase asciiRuntime "robot").data) ∧
    (matchText asciiRuntime [] (some "Bot") "robot" none none none).1 = true :=
  ⟨(matchText_substring asciiRuntime [] "Bot" "robot" none none none "v" (by decide)
      (by decide) rfl rfl).1, rfl⟩

/-- C9: for a non-empty pattern made of word characters and a non-empty text, with
`isRegex` unset and `wholeWord` set, `matchText` returns true exactly when the pattern
occurs in the text (up to the case of letters unless `caseSensitive` is set) at a
position where it is neither preceded nor followed by a word character; "bot" matches
"this site blocks bot traffic" and does not match "robotics lab". -/
theorem matchText_wholeWord (H : Runtime) (cache : PatternCache) (p t : String)
    (isRegex caseSensitive wholeWord : Option Bool)
    (hp : p ≠ "") (hword : ∀ ch ∈ p.data, isWordChar ch = true) (ht : t ≠ "")
    (hr : truthy isRegex = false) (hw : truthy wholeWord = true) :
    ((matchText H cache (some p) t isRegex caseSensitive wholeWord).1 = true ↔
      OccursAsWord (!truthy caseSensitive) p.data t.data) ∧
    (matchText H cache (some "bot") "this site blocks bot traffic" none none (some true)).1 =
      true ∧
    (matchText H cache (some "bot") "robotics lab" none none (some true)).1 = false := by
  refine ⟨?_, rfl, rfl⟩
  rw [matchText_wholeWord_eq H cache p t isRegex caseSensitive wholeWord hp hword ht hr hw]
  have hpd := string_data_ne_nil p hp
  cases hcs : truthy caseSensitive with
  | true =>
    simp only [if_true, Bool.not_true]
    exact wholeWord_search_iff H false p.data hpd hword t.data
  | false =>
    simp only [Bool.false_eq_true, if_false, Bool.not_false]
    rw [wholeWord_search_iff H true (p.data.map Char.toLower) (by simpa using hpd)
      (by
        intro c hc
        simp only [List.mem_map] at hc
        obtain ⟨d, hd, rfl⟩ := hc
        exact isWordChar_toLower d (hword d hd)) t.data]
    exact occursAsWord_toLower p.data t.data

/-- C9, applied to the pattern "Bot" and the text "a bot!": the match found is the
block "bot" between a blank and an exclamation mark. -/
theorem matchText_wholeWord_witness :
    (matchText asciiRuntime [] (some "Bot") "a bot!" none none (some true)).1 = true ∧
    OccursAsWord true "Bot".data "a bot!".data :=
  have h := (matchText_wholeWord asciiRuntime [] "Bot" "a bot!" none none (some true)
    (by decide) (by decide) (by decide) rfl rfl).1
  ⟨rfl, h.1 rfl⟩

/-- C10: in regular expression mode, from every cache state the engine can be in, a
pattern whose compilation fails, or whose compiled expression throws on the text, makes
`matchText` return false, for every text and every value of the other flags; the
embedding returns a value in every case, so nothing is propagated to the caller, and a
pattern that does not compile leaves no cache entry. -/
theorem matchText_regex_failure (H : Runtime) (cache : PatternCache) (p t : String)
    (isRegex caseSensitive wholeWord : Option Bool)
    (hc : Reachable H cache) (hr : truthy isRegex = true)
    (hfail : RegExp.compile H p (!truthy caseSensitive) = none ∨
      ∃ r, RegExp.compile H p (!truthy caseSensitive) = some r ∧ RegExp.test H r t = none) :
    (matchText H cache (some p) t isRegex caseSensitive wholeWord).1 = false ∧
    (RegExp.compile H p (!truthy caseSensitive) = none →
      (matchText H cache (some p) t isRegex caseSensitive wholeWord).2 = cache) := by
  constructor
  · rw [(matchText_coherent H cache (some p) t isRegex caseSensitive wholeWord hc.coherent).1]
    unfold matchText
    split
    · rfl
    · simp only [hr, if_true, List.lookup_nil, Option.getD_some]
      rcases hfail with h | ⟨r, h, ht⟩
      · rw [h]
      · rw [h]
        simp only [ht, Option.getD_none]
  · intro hnone
    unfold matchText
    split
    · rfl
    · simp only [hr, if_true, Option.getD_some]
      cases hl : List.lookup (cacheKey p caseSensitive) cache with
      | some regex => rfl
      | none => simp only [hnone]

/-- C10, applied to the pattern "(" (an unterminated group), from a cache that already
holds a compiled pattern. -/
theorem matchText_regex_failure_witness :
    matchText asciiRuntime Example.warmCache (some "(") "a(b" (some true) none (some true) =
      (false, Example.warmCache) :=
  have h := matchText_regex_failure asciiRuntime Example.warmCache "(" "a(b" (some true) none
    (some true) (Reachable.call [] (some "bot") "robot" (some true) none none Reachable.empty)
    rfl (Or.inl rfl)
  Prod.ext h.1 (h.2 rfl)

end ScanEngine

/-! ## Rule checks of `checkDetector` -/

namespace ScanEngine

open Js

theorem checkCookieRule_eq_decision (H : Runtime) (rule : CookieRule) (cookies : List Cookie) :
    ∀ cache, Reachable H cache →
      (checkCookieRule H rule cookies cache).1 = cookieDecision H rule cookies := by
  induction cookies with
  | nil => intro cache _; rfl
  | cons cookie rest ih =>
    intro cache hc
    have hn := matchText_transparent H rule.name cookie.name rule.nameRegex
      rule.nameCaseSensitive rule.nameWholeWord cache hc
    have hv := matchText_transparent H rule.value cookie.value rule.valueRegex
      rule.valueCaseSensitive rule.valueWholeWord _ hn.2
    simp only at hn hv
    simp only [checkCookieRule, cookieDecision, List.find?_cons]
    rw [hn.1]
    have hnm : (matchText H [] rule.name cookie.name rule.nameRegex rule.nameCaseSensitive
        rule.nameWholeWord).1 = nameMatches H rule cookie := rfl
    rw [hnm]
    cases hm : nameMatches H rule cookie with
    | true =>
      simp only [if_true]
      split
      · exact hv.1
      · rfl
    | false =>
      simp only [Bool.false_eq_true, if_false]
      have := ih _ hn.2
      rw [this, cookieDecision]

theorem bg_checkCookieRule_eq (H : Runtime) (rule : CookieRule) (cookies : List Cookie) :
    Background.checkCookieRule H rule cookies =
      match cookies.find? (fun cookie =>
        Background.matchText H rule.name cookie.name rule.nameRegex rule.nameCaseSensitive) with
      | none => false
      | some cookie =>
        if strTruthy rule.value then
          Background.matchText H rule.value cookie.value rule.valueRegex rule.valueCaseSensitive
        else true := by
  induction cookies with
  | nil => rfl
  | cons cookie rest ih =>
    simp only [Background.checkCookieRule, List.find?_cons]
    cases hm : Background.matchText H rule.name cookie.name rule.nameRegex
        rule.nameCaseSensitive with
    | true =>
      simp only [if_true]
      cases strTruthy rule.value <;> simp
    | false =>
      simp only [Bool.false_eq_true, if_false]
      exact ih

/-- C11: `checkCookieRule` decides on the first cookie, in list order, whose name
satisfies the name match: it returns the value match of that cookie when the rule has a
non-empty value target, true when it has none, and false when no cookie name matches;
the function of the coordinator decides the same way. A later cookie with a matching
name and a matching value does not make the rule match. -/
theorem checkCookieRule_first_match (H : Runtime) (rule : CookieRule) (cookies : List Cookie)
    (cache : PatternCache) (hc : Reachable H cache) :
    (checkCookieRule H rule cookies cache).1 =
      (match cookies.find? (nameMatches H rule) with
       | none => false
       | some cookie => if strTruthy rule.value then valueMatches H rule cookie else true) ∧
    Background.checkCookieRule H rule cookies =
      (match cookies.find? (fun cookie =>
        Background.matchText H rule.name cookie.name rule.nameRegex rule.nameCaseSensitive) with
       | none => false
       | some cookie =>
         if strTruthy rule.value then
           Background.matchText H rule.value cookie.value rule.valueRegex
             rule.valueCaseSensitive
         else true) ∧
    (checkCookieRule H { name := some "sid", value := some "abc" }
      [⟨"sid", "zzz"⟩, ⟨"sid", "abc"⟩] cache).1 = false ∧
    (checkCookieRule H { name := some "sid", value := some "abc" } [⟨"sid", "abc"⟩] cache).1 =
      true :=
  ⟨checkCookieRule_eq_decision H rule cookies cache hc, bg_checkCookieRule_eq H rule cookies,
    rfl, rfl⟩

/-- C11, applied to a rule with a value target and two cookies of the same name. -/
theorem checkCookieRule_first_match_witness :
    (checkCookieRule asciiRuntime { name := some "sid", value := some "abc" }
      [⟨"other", "abc"⟩, ⟨"sid", "zzz"⟩, ⟨"sid", "abc"⟩] Example.warmCache).1 =
      valueMatches asciiRuntime { name := some "sid", value := some "abc" } ⟨"sid", "zzz"⟩ :=
  (checkCookieRule_first_match asciiRuntime { name := some "sid", value := some "abc" }
    [⟨"other", "abc"⟩, ⟨"sid", "zzz"⟩, ⟨"sid", "abc"⟩] Example.warmCache
    (Reachable.call [] (some "bot") "robot" (some true) none none Reachable.empty)).1

end ScanEngine

namespace ScanEngine

open Js

theorem anyScript_eq_any (H : Runtime) (rule : TextRule) (scripts : List String) :
    ∀ cache, Reachable H cache →
      (anyScript H rule scripts cache).1 =
        scripts.any fun script => textMatches H rule (some script) := by
  induction scripts with
  | nil => intro cache _; rfl
  | cons script rest ih =>
    intro cache hc
    have ht := checkTextRule_transparent H rule (some script) cache hc
    simp only [anyScript, List.any_cons]
    rw [ht.1]
    have e : (checkTextRule H rule (some script) []).1 = textMatches H rule (some script) := rfl
    rw [e]
    cases textMatches H rule (some script) with
    | true => rfl
    | false =>
      simp only [Bool.false_eq_true, if_false, Bool.false_or]
      exact ih _ ht.2

theorem checkCookies_eq (H : Runtime) (detection : Detection) (pageData : PageData)
    (s : ScanState) (hs : Reachable H s.2) :
    (checkCookies H detection pageData s).1 = s.1 ++ cookieMatches H detection pageData ∧
    Reachable H (checkCookies H detection pageData s).2 := by
  unfold checkCookies cookieMatches
  split
  · exact forEachRule_reachable H _ _ (fun rule => checkCookieRule_transparent H rule _) _ _ _ hs
  · exact ⟨by simp, hs⟩

theorem checkUrls_eq (H : Runtime) (detection : Detection) (pageData : PageData)
    (s : ScanState) (hs : Reachable H s.2) :
    (checkUrls H detection pageData s).1 = s.1 ++ urlMatches H detection pageData ∧
    Reachable H (checkUrls H detection pageData s).2 := by
  unfold checkUrls urlMatches
  split
  · rename_i rules scripts _ _
    have h := forEachRule_reachable H (fun rule c => anyScript H rule scripts c)
      (fun rule => ⟨"url", rule.text, numOr rule.confidence 50, rule.description⟩)
      (fun rule => anyScript_transparent H rule _) rules s.2 s.1 hs
    refine ⟨?_, h.2⟩
    rw [h.1]
    congr 2
    apply List.filter_congr
    intro rule _
    exact anyScript_eq_any H rule scripts [] Reachable.empty
  · exact ⟨by simp, hs⟩

theorem checkContent_eq (H : Runtime) (detection : Detection) (pageData : PageData)
    (s : ScanState) (hs : Reachable H s.2) :
    (checkContent H detection pageData s).1 = s.1 ++ contentMatches H detection pageData ∧
    Reachable H (checkContent H detection pageData s).2 := by
  unfold checkContent contentMatches
  split
  · split
    · exact forEachRule_reachable H _ _ (fun rule => checkTextRule_transparent H rule _) _ _ _ hs
    · exact ⟨by simp, hs⟩
  · exact ⟨by simp, hs⟩

theorem checkDom_eq (H : Runtime) (detection : Detection) (pageData : PageData)
    (s : ScanState) (hs : Reachable H s.2) :
    (checkDom detection pageData s).1 = s.1 ++ domMatches detection pageData ∧
    Reachable H (checkDom detection pageData s).2 := by
  unfold checkDom domMatches
  split
  · exact forEachRule_reachable H _ _ (fun _ => const_transparent H _) _ _ _ hs
  · exact ⟨by simp, hs⟩

theorem checkWindow_eq (H : Runtime) (detection : Detection) (pageData : PageData)
    (s : ScanState) (hs : Reachable H s.2) :
    (checkWindow detection pageData s).1 = s.1 ++ windowMatches detection pageData ∧
    Reachable H (checkWindow detection pageData s).2 := by
  unfold checkWindow windowMatches
  split
  · exact forEachRule_reachable H _ _ (fun _ => const_transparent H _) _ _ _ hs
  · exact ⟨by simp, hs⟩

theorem checkJsHooks_eq (H : Runtime) (detection : Detection) (pageData : PageData)
    (s : ScanState) (hs : Reachable H s.2) :
    (checkJsHooks detection pageData s).1 = s.1 ++ jsHookMatches detection pageData ∧
    Reachable H (checkJsHooks detection pageData s).2 := by
  unfold checkJsHooks jsHookMatches
  split
  · exact forEachRule_reachable H _ _ (fun _ => const_transparent H _) _ _ _ hs
  · exact ⟨by simp, hs⟩

/-- The matches of `checkDetector`, block by block. -/
theorem checkDetector_eq (H : Runtime) (detector : Detector) (pageData : PageData)
    (cache : PatternCache) (hc : Reachable H cache) :
    (checkDetector H detector pageData cache).1 =
      cookieMatches H (detector.detection.getD {}) pageData ++
      urlMatches H (detector.detection.getD {}) pageData ++
      contentMatches H (detector.detection.getD {}) pageData ++
      domMatches (detector.detection.getD {}) pageData ++
      windowMatches (detector.detection.getD {}) pageData ++
      jsHookMatches (detector.detection.getD {}) pageData := by
  have h1 := checkCookies_eq H (detector.detection.getD {}) pageData ([], cache) hc
  have h2 := checkUrls_eq H (detector.detection.getD {}) pageData _ h1.2
  have h3 := checkContent_eq H (detector.detection.getD {}) pageData _ h2.2
  have h4 := checkDom_eq H (detector.detection.getD {}) pageData _ h3.2
  have h5 := checkWindow_eq H (detector.detection.getD {}) pageData _ h4.2
  have h6 := checkJsHooks_eq H (detector.detection.getD {}) pageData _ h5.2
  simp only [checkDetector]
  rw [h6.1, h5.1, h4.1, h3.1, h2.1, h1.1, List.nil_append]

end ScanEngine

namespace ScanEngine

open Js

theorem filter_type_map_same (k : String) {ρ : Type} (f : ρ → MatchRecord) (l : List ρ)
    (h : ∀ r, (f r).type = k) :
    (l.map f).filter (fun m => decide (m.type = k)) = l.map f := by
  apply List.filter_eq_self.2
  intro m hm
  obtain ⟨r, _, rfl⟩ := List.mem_map.1 hm
  simp [h r]

theorem filter_type_map_other (k : String) {ρ : Type} (f : ρ → MatchRecord) (l : List ρ)
    (h : ∀ r, (f r).type ≠ k) :
    (l.map f).filter (fun m => decide (m.type = k)) = [] := by
  apply List.filter_eq_nil_iff.2
  intro m hm
  obtain ⟨r, _, rfl⟩ := List.mem_map.1 hm
  simp [h r]

theorem filter_type_cookieMatches (H : Runtime) (detection : Detection) (pageData : PageData)
    (k : String) (hk : k ≠ "cookie") :
    (cookieMatches H detection pageData).filter (fun m => decide (m.type = k)) = [] := by
  unfold cookieMatches
  split
  · exact filter_type_map_other k _ _ fun _ => Ne.symm hk
  · rfl

theorem filter_type_urlMatches (H : Runtime) (detection : Detection) (pageData : PageData)
    (k : String) (hk : k ≠ "url") :
    (urlMatches H detection pageData).filter (fun m => decide (m.type = k)) = [] := by
  unfold urlMatches
  split
  · exact filter_type_map_other k _ _ fun _ => Ne.symm hk
  · rfl

theorem filter_type_contentMatches (H : Runtime) (detection : Detection) (pageData : PageData)
    (k : String) (hk : k ≠ "content") :
    (contentMatches H detection pageData).filter (fun m => decide (m.type = k)) = [] := by
  unfold contentMatches
  split
  · split
    · exact filter_type_map_other k _ _ fun _ => Ne.symm hk
    · rfl
  · rfl

theorem filter_type_domMatches (detection : Detection) (pageData : PageData)
    (k : String) (hk : k ≠ "dom") :
    (domMatches detection pageData).filter (fun m => decide (m.type = k)) = [] := by
  unfold domMatches
  split
  · exact filter_type_map_other k _ _ fun _ => Ne.symm hk
  · rfl

theorem filter_type_windowMatches (detection : Detection) (pageData : PageData)
    (k : String) (hk : k ≠ "window") :
    (windowMatches detection pageData).filter (fun m => decide (m.type = k)) = [] := by
  unfold windowMatches
  split
  · exact filter_type_map_other k _ _ fun _ => Ne.symm hk
  · rfl

theorem filter_type_jsHookMatches (detection : Detection) (pageData : PageData)
    (k : String) (hk : k ≠ "js_hook") :
    (jsHookMatches detection pageData).filter (fun m => decide (m.type = k)) = [] := by
  unfold jsHookMatches
  split
  · exact filter_type_map_other k _ _ fun _ => Ne.symm hk
  · rfl

theorem checkJsHookRule_iff (rule : JsHookRule) (hooks : List String) :
    checkJsHookRule rule hooks = true ↔ HookRuleMatches rule hooks := by
  unfold checkJsHookRule HookRuleMatches
  cases ht : rule.target with
  | none => simp
  | some t => simp

/-- C12: among the matches of `checkDetector`, the records of type `url` are, in rule
order, one record for each url rule that at least one script source satisfies, and none
for a rule that no source satisfies; three sources that satisfy a rule give one record. -/
theorem checkDetector_url_records (H : Runtime) (detector : Detector) (pageData : PageData)
    (cache : PatternCache) (rules : List TextRule) (scripts : List String)
    (hc : Reachable H cache) (hr : (detector.detection.getD {}).url = some rules)
    (hs : pageData.scripts = some scripts) :
    (checkDetector H detector pageData cache).1.filter (fun m => decide (m.type = "url")) =
      (rules.filter fun rule =>
        scripts.any fun script => (checkTextRule H rule (some script) []).1).map
        (fun rule => ⟨"url", rule.text, numOr rule.confidence 50, rule.description⟩) ∧
    (checkDetector H { detection := some { url := some [{ text := some "captcha" }] } }
      { scripts := some ["https://a.example/captcha.js", "https://b.example/captcha-v2.js",
          "https://c.example/recaptcha/api.js", "https://c.example/app.js"] } cache).1 =
      [⟨"url", some "captcha", 50, none⟩] ∧
    (checkDetector H { detection := some { url := some [{ text := some "captcha" }] } }
      { scripts := some ["https://c.example/app.js"] } cache).1 = [] := by
  refine ⟨?_, rfl, rfl⟩
  rw [checkDetector_eq H detector pageData cache hc]
  simp only [List.filter_append,
    filter_type_cookieMatches H _ pageData "url" (by decide),
    filter_type_contentMatches H _ pageData "url" (by decide),
    filter_type_domMatches _ pageData "url" (by decide),
    filter_type_windowMatches _ pageData "url" (by decide),
    filter_type_jsHookMatches _ pageData "url" (by decide),
    List.nil_append, List.append_nil]
  unfold urlMatches
  rw [hr, hs]
  exact filter_type_map_same "url" _ _ fun _ => rfl

/-- C12, applied to the example detector extended with one url rule and to a snapshot
with two scripts that both satisfy it. -/
theorem checkDetector_url_records_witness :
    (checkDetector asciiRuntime
      { Example.recaptcha with detection := some { url := some [{ text := some "captcha" }] } }
      { scripts := some ["https://a.example/captcha.js", "https://b.example/captcha.js"] }
      []).1.filter (fun m => decide (m.type = "url")) =
      [⟨"url", some "captcha", 50, none⟩] :=
  (checkDetector_url_records asciiRuntime
    { Example.recaptcha with detection := some { url := some [{ text := some "captcha" }] } }
    { scripts := some ["https://a.example/captcha.js", "https://b.example/captcha.js"] }
    [] [{ text := some "captcha" }]
    ["https://a.example/captcha.js", "https://b.example/captcha.js"]
    Reachable.empty rfl rfl).1.trans (by decide)

/-- C13: among the matches of `checkDetector`, the records of type `js_hook` are, in rule
order, one record for each js-hook rule that is not disabled and whose target is an
element of the `jsHooks` list of the snapshot (no element when the list is absent), and
none for any other rule; a disabled rule does not match even when its target is
present. -/
theorem checkDetector_jsHook_records (H : Runtime) (detector : Detector)
    (pageData : PageData) (cache : PatternCache) (rules : List JsHookRule)
    (hc : Reachable H cache) (hr : (detector.detection.getD {}).js_hooks = some rules) :
    (checkDetector H detector pageData cache).1.filter
        (fun m => decide (m.type = "js_hook")) =
      (rules.filter fun rule => checkJsHookRule rule (pageData.jsHooks.getD [])).map
        (fun rule => ⟨"js_hook", rule.target, numOr rule.confidence 50, rule.description⟩) ∧
    (∀ (rule : JsHookRule) (hooks : List String),
      checkJsHookRule rule hooks = true ↔
        (rule.enabled ≠ some false ∧ ∃ t, rule.target = some t ∧ t ∈ hooks)) ∧
    (checkDetector H
      { detection := some { js_hooks := some [
          { target := some "HTMLCanvasElement.toDataURL", enabled := some false },
          { target := some "navigator.webdriver" },
          { target := some "AudioContext.createOscillator", enabled := some true }] } }
      { jsHooks := some ["HTMLCanvasElement.toDataURL", "navigator.webdriver"] } cache).1 =
      [⟨"js_hook", some "navigator.webdriver", 50, none⟩] := by
  refine ⟨?_, checkJsHookRule_iff, rfl⟩
  rw [checkDetector_eq H detector pageData cache hc]
  simp only [List.filter_append,
    filter_type_cookieMatches H _ pageData "js_hook" (by decide),
    filter_type_urlMatches H _ pageData "js_hook" (by decide),
    filter_type_contentMatches H _ pageData "js_hook" (by decide),
    filter_type_domMatches _ pageData "js_hook" (by decide),
    filter_type_windowMatches _ pageData "js_hook" (by decide),
    List.nil_append]
  unfold jsHookMatches
  rw [hr]
  cases hj : pageData.jsHooks with
  | none =>
    simp only [Option.getD_none]
    have : (rules.filter fun rule => checkJsHookRule rule []) = [] := by
      apply List.filter_eq_nil_iff.2
      intro rule _
      simp [checkJsHookRule]
      intro _
      cases rule.target <;> simp
    rw [this]
    rfl
  | some hooks =>
    simp only [Option.getD_some]
    exact filter_type_map_same "js_hook" _ _ fun _ => rfl

/-- C13, applied to a detector with a disabled and an enabled rule whose targets are both
present. -/
theorem checkDetector_jsHook_records_witness :
    (checkDetector asciiRuntime
      { detection := some { js_hooks := some [
          { target := some "HTMLCanvasElement.toDataURL", enabled := some false },
          { target := some "navigator.webdriver" }] } }
      { jsHooks := some ["HTMLCanvasElement.toDataURL", "navigator.webdriver"] }
      []).1.filter (fun m => decide (m.type = "js_hook")) =
      [⟨"js_hook", some "navigator.webdriver", 50, none⟩] :=
  (checkDetector_jsHook_records asciiRuntime
    { detection := some { js_hooks := some [
        { target := some "HTMLCanvasElement.toDataURL", enabled := some false },
        { target := some "navigator.webdriver" }] } }
    { jsHooks := some ["HTMLCanvasElement.toDataURL", "navigator.webdriver"] } []
    [{ target := some "HTMLCanvasElement.toDataURL", enabled := some false },
     { target := some "navigator.webdriver" }]
    Reachable.empty rfl).1.trans (by decide)

end ScanEngine

/-! ## Confidence levels and aggregation -/

namespace ScoreCalculator

open Js

theorem getConfidenceLevel_high_iff (score : Int) :
    getConfidenceLevel score = "high" ↔ 80 ≤ score := by
  unfold getConfidenceLevel
  split_ifs <;> constructor <;> intro e <;>
    first
    | rfl
    | omega
    | exact absurd e (by decide)

theorem getConfidenceLevel_medium_iff (score : Int) :
    getConfidenceLevel score = "medium" ↔ 50 ≤ score ∧ score < 80 := by
  unfold getConfidenceLevel
  split_ifs <;> constructor <;> intro e <;>
    first
    | rfl
    | omega
    | exact absurd e (by decide)

theorem getConfidenceLevel_low_iff (score : Int) :
    getConfidenceLevel score = "low" ↔ score < 50 := by
  unfold getConfidenceLevel
  split_ifs <;> constructor <;> intro e <;>
    first
    | rfl
    | omega
    | exact absurd e (by decide)

/-- C14: `getConfidenceLevel` returns "high" for a score of at least 80, "medium" for a
score from 50 up to but not including 80, and "low" for a score below 50. -/
theorem getConfidenceLevel_levels (score : Int) :
    (80 ≤ score → getConfidenceLevel score = "high") ∧
    (50 ≤ score ∧ score < 80 → getConfidenceLevel score = "medium") ∧
    (score < 50 → getConfidenceLevel score = "low") :=
  ⟨(getConfidenceLevel_high_iff score).2, (getConfidenceLevel_medium_iff score).2,
    (getConfidenceLevel_low_iff score).2⟩

/-- C14, applied to the scores 80, 79, 50 and 49. -/
theorem getConfidenceLevel_levels_witness :
    getConfidenceLevel 80 = "high" ∧ getConfidenceLevel 79 = "medium" ∧
    getConfidenceLevel 50 = "medium" ∧ getConfidenceLevel 49 = "low" :=
  ⟨(getConfidenceLevel_levels 80).1 (by decide),
   (getConfidenceLevel_levels 79).2.1 (by decide),
   (getConfidenceLevel_levels 50).2.1 (by decide),
   (getConfidenceLevel_levels 49).2.2 (by decide)⟩

end ScoreCalculator

namespace ScoreCalculator

open Js

theorem countCategory_eq (H : Runtime) (b : ByCategory) (d : DetectionResult) :
    (countCategory H b d).antibot =
        b.antibot + (if bucketOf H d = some Bucket.antibot then 1 else 0) ∧
    (countCategory H b d).captcha =
        b.captcha + (if bucketOf H d = some Bucket.captcha then 1 else 0) ∧
    (countCategory H b d).fingerprint =
        b.fingerprint + (if bucketOf H d = some Bucket.fingerprint then 1 else 0) := by
  unfold countCategory bucketOf
  by_cases h1 : (includes (toLowerCase H d.category) "anti" ||
      includes (toLowerCase H d.category) "bot") = true
  · have h1' := h1
    rw [Bool.or_eq_true] at h1'
    simp [h1, h1']
  · have h1' := h1
    rw [Bool.or_eq_true] at h1'
    by_cases h2 : includes (toLowerCase H d.category) "captcha" = true
    · simp [h1, h1', h2]
    · by_cases h3 : includes (toLowerCase H d.category) "fingerprint" = true
      · simp [h1, h1', h2, h3]
      · simp [h1, h1', h2, h3]

theorem aggregateStep_eq (H : Runtime) (acc : Aggregated × Int) (d : DetectionResult) :
    (aggregateStep H acc d).1.total = acc.1.total ∧
    (aggregateStep H acc d).1.byCategory = countCategory H acc.1.byCategory d ∧
    (aggregateStep H acc d).1.highConfidence =
      acc.1.highConfidence + (if getConfidenceLevel d.confidence = "high" then 1 else 0) ∧
    (aggregateStep H acc d).1.mediumConfidence =
      acc.1.mediumConfidence + (if getConfidenceLevel d.confidence = "medium" then 1 else 0) ∧
    (aggregateStep H acc d).1.lowConfidence =
      acc.1.lowConfidence + (if getConfidenceLevel d.confidence = "low" then 1 else 0) ∧
    (aggregateStep H acc d).2 = acc.2 + d.confidence := by
  simp only [getConfidenceLevel_high_iff, getConfidenceLevel_medium_iff,
    getConfidenceLevel_low_iff]
  unfold aggregateStep
  by_cases h : d.confidence ≥ 80
  · have h1 : ¬ (50 ≤ d.confidence ∧ d.confidence < 80) := by omega
    have h2 : ¬ d.confidence < 50 := by omega
    have h3 : 80 ≤ d.confidence := h
    simp [h, h1, h2, h3]
  · by_cases h' : d.confidence ≥ 50
    · have h1 : 50 ≤ d.confidence ∧ d.confidence < 80 := by omega
      have h2 : ¬ d.confidence < 50 := by omega
      have h3 : ¬ 80 ≤ d.confidence := h
      simp [h, h', h1, h2, h3]
    · have h1 : ¬ (50 ≤ d.confidence ∧ d.confidence < 80) := by omega
      have h2 : d.confidence < 50 := by omega
      have h3 : ¬ 80 ≤ d.confidence := h
      simp [h, h', h1, h2, h3]

/-- The counters after the loop of `aggregateResults`, from any starting value. -/
theorem aggregate_fold (H : Runtime) (ds : List DetectionResult) :
    ∀ acc : Aggregated × Int,
      (ds.foldl (aggregateStep H) acc).1.total = acc.1.total ∧
      (ds.foldl (aggregateStep H) acc).1.byCategory.antibot = acc.1.byCategory.antibot +
        ds.countP (fun d => decide (bucketOf H d = some Bucket.antibot)) ∧
      (ds.foldl (aggregateStep H) acc).1.byCategory.captcha = acc.1.byCategory.captcha +
        ds.countP (fun d => decide (bucketOf H d = some Bucket.captcha)) ∧
      (ds.foldl (aggregateStep H) acc).1.byCategory.fingerprint =
        acc.1.byCategory.fingerprint +
        ds.countP (fun d => decide (bucketOf H d = some Bucket.fingerprint)) ∧
      (ds.foldl (aggregateStep H) acc).1.highConfidence = acc.1.highConfidence +
        ds.countP (fun d => decide (getConfidenceLevel d.confidence = "high")) ∧
      (ds.foldl (aggregateStep H) acc).1.mediumConfidence = acc.1.mediumConfidence +
        ds.countP (fun d => decide (getConfidenceLevel d.confidence = "medium")) ∧
      (ds.foldl (aggregateStep H) acc).1.lowConfidence = acc.1.lowConfidence +
        ds.countP (fun d => decide (getConfidenceLevel d.confidence = "low")) := by
  induction ds with
  | nil => intro acc; simp
  | cons d ds ih =>
    intro acc
    have hs := aggregateStep_eq H acc d
    have hc := countCategory_eq H acc.1.byCategory d
    have := ih (aggregateStep H acc d)
    obtain ⟨t, a, c, f, hi, me, lo⟩ := this
    obtain ⟨st, sb, shi, sme, slo, _⟩ := hs
    simp only [List.foldl_cons, List.countP_cons, decide_eq_true_eq]
    rw [t, a, c, f, hi, me, lo, st, sb, shi, sme, slo, hc.1, hc.2.1, hc.2.2]
    refine ⟨rfl, ?_, ?_, ?_, ?_, ?_, ?_⟩ <;> omega

theorem bucket_counts_le (H : Runtime) (ds : List DetectionResult) :
    ds.countP (fun d => decide (bucketOf H d = some Bucket.antibot)) +
      ds.countP (fun d => decide (bucketOf H d = some Bucket.captcha)) +
      ds.countP (fun d => decide (bucketOf H d = some Bucket.fingerprint)) ≤ ds.length := by
  induction ds with
  | nil => simp
  | cons d ds ih =>
    simp only [List.countP_cons, List.length_cons, decide_eq_true_eq]
    rcases hb : bucketOf H d with _ | _ | _ | _ <;> simp <;> omega

theorem level_counts_eq (ds : List DetectionResult) :
    ds.countP (fun d => decide (getConfidenceLevel d.confidence = "high")) +
      ds.countP (fun d => decide (getConfidenceLevel d.confidence = "medium")) +
      ds.countP (fun d => decide (getConfidenceLevel d.confidence = "low")) = ds.length := by
  induction ds with
  | nil => simp
  | cons d ds ih =>
    simp only [List.countP_cons, List.length_cons, decide_eq_true_eq,
      getConfidenceLevel_high_iff, getConfidenceLevel_medium_iff, getConfidenceLevel_low_iff]
      at ih ⊢
    split_ifs <;> omega

end ScoreCalculator

namespace ScoreCalculator

open Js

/-- C15: `aggregateResults` counts a result in the antibot bucket when its lower-cased
category contains "anti" or "bot", otherwise in the captcha bucket when it contains
"captcha", otherwise in the fingerprint bucket when it contains "fingerprint", and
otherwise in none; the three counts sum to at most the total, the length of the list. -/
theorem aggregateResults_byCategory (H : Runtime) (ds : List DetectionResult) :
    (aggregateResults H ds).byCategory.antibot =
        ds.countP (fun d => decide (bucketOf H d = some Bucket.antibot)) ∧
    (aggregateResults H ds).byCategory.captcha =
        ds.countP (fun d => decide (bucketOf H d = some Bucket.captcha)) ∧
    (aggregateResults H ds).byCategory.fingerprint =
        ds.countP (fun d => decide (bucketOf H d = some Bucket.fingerprint)) ∧
    (aggregateResults H ds).total = ds.length ∧
    (aggregateResults H ds).byCategory.antibot + (aggregateResults H ds).byCategory.captcha +
        (aggregateResults H ds).byCategory.fingerprint ≤ (aggregateResults H ds).total ∧
    (aggregateResults H Example.results).byCategory =
        { antibot := 1, captcha := 1, fingerprint := 1 } ∧
    (aggregateResults H Example.results).total = 4 := by
  have hf := aggregate_fold H ds
    ({ total := ds.length, byCategory := { antibot := 0, captcha := 0, fingerprint := 0 },
       highConfidence := 0, mediumConfidence := 0, lowConfidence := 0,
       averageConfidence := 0 }, 0)
  obtain ⟨t, a, c, f, _, _, _⟩ := hf
  simp only [Nat.zero_add] at t a c f
  have ha : (aggregateResults H ds).byCategory.antibot =
      ds.countP (fun d => decide (bucketOf H d = some Bucket.antibot)) := by
    unfold aggregateResults
    split <;> exact a
  have hc : (aggregateResults H ds).byCategory.captcha =
      ds.countP (fun d => decide (bucketOf H d = some Bucket.captcha)) := by
    unfold aggregateResults
    split <;> exact c
  have hfp : (aggregateResults H ds).byCategory.fingerprint =
      ds.countP (fun d => decide (bucketOf H d = some Bucket.fingerprint)) := by
    unfold aggregateResults
    split <;> exact f
  have ht : (aggregateResults H ds).total = ds.length := by
    unfold aggregateResults
    split <;> exact t
  refine ⟨ha, hc, hfp, ht, ?_, rfl, rfl⟩
  rw [ha, hc, hfp, ht]
  exact bucket_counts_le H ds

/-- C16: the counts `highConfidence`, `mediumConfidence` and `lowConfidence` of
`aggregateResults` are the numbers of results whose `getConfidenceLevel` is "high",
"medium" and "low"; they sum to the returned total, which is the length of the list. -/
theorem aggregateResults_levels (H : Runtime) (ds : List DetectionResult) :
    (aggregateResults H ds).highConfidence =
        ds.countP (fun d => decide (getConfidenceLevel d.confidence = "high")) ∧
    (aggregateResults H ds).mediumConfidence =
        ds.countP (fun d => decide (getConfidenceLevel d.confidence = "medium")) ∧
    (aggregateResults H ds).lowConfidence =
        ds.countP (fun d => decide (getConfidenceLevel d.confidence = "low")) ∧
    (aggregateResults H ds).highConfidence + (aggregateResults H ds).mediumConfidence +
        (aggregateResults H ds).lowConfidence = (aggregateResults H ds).total ∧
    (aggregateResults H ds).total = ds.length ∧
    ((aggregateResults H Example.results).highConfidence,
      (aggregateResults H Example.results).mediumConfidence,
      (aggregateResults H Example.results).lowConfidence) = (2, 1, 1) := by
  have hf := aggregate_fold H ds
    ({ total := ds.length, byCategory := { antibot := 0, captcha := 0, fingerprint := 0 },
       highConfidence := 0, mediumConfidence := 0, lowConfidence := 0,
       averageConfidence := 0 }, 0)
  obtain ⟨t, _, _, _, hi, me, lo⟩ := hf
  simp only [Nat.zero_add] at t hi me lo
  have hh : (aggregateResults H ds).highConfidence =
      ds.countP (fun d => decide (getConfidenceLevel d.confidence = "high")) := by
    unfold aggregateResults
    split <;> exact hi
  have hm : (aggregateResults H ds).mediumConfidence =
      ds.countP (fun d => decide (getConfidenceLevel d.confidence = "medium")) := by
    unfold aggregateResults
    split <;> exact me
  have hl : (aggregateResults H ds).lowConfidence =
      ds.countP (fun d => decide (getConfidenceLevel d.confidence = "low")) := by
    unfold aggregateResults
    split <;> exact lo
  have ht : (aggregateResults H ds).total = ds.length := by
    unfold aggregateResults
    split <;> exact t
  refine ⟨hh, hm, hl, ?_, ht, rfl⟩
  rw [hh, hm, hl, ht]
  exact level_counts_eq ds

end ScoreCalculator

/-! ## Coordinator: the cache map -/

namespace Background

open Js

theorem cacheGet_cacheDelete_same (cache : DetectionCache) (key : Option String) :
    cacheGet (cacheDelete cache key) key = none := by
  induction cache with
  | nil => rfl
  | cons e cache ih =>
    obtain ⟨k, v⟩ := e
    unfold cacheGet cacheDelete at ih ⊢
    by_cases h : k = key
    · simp only [List.filter_cons, h, ne_eq, not_true_eq_false, decide_False,
        Bool.false_eq_true, if_false]
      exact ih
    · simp only [List.filter_cons, h, ne_eq, not_false_eq_true, decide_True, if_true,
        List.lookup_cons]
      have : (key == k) = false := by simp [Ne.symm h]
      rw [this]
      exact ih

theorem cacheGet_cacheDelete_other (cache : DetectionCache) (key other : Option String)
    (h : other ≠ key) : cacheGet (cacheDelete cache key) other = cacheGet cache other := by
  induction cache with
  | nil => rfl
  | cons e cache ih =>
    obtain ⟨k, v⟩ := e
    unfold cacheGet cacheDelete at ih ⊢
    by_cases hk : k = key
    · subst hk
      have hb : (other == k) = false := by simp [h]
      have hf : List.filter (fun e : Option String × CacheEntry => decide (e.1 ≠ k))
          ((k, v) :: cache) =
          List.filter (fun e : Option String × CacheEntry => decide (e.1 ≠ k)) cache := by
        rw [List.filter_cons]
        simp
      rw [hf, ih, List.lookup_cons, hb]
    · have hf : List.filter (fun e : Option String × CacheEntry => decide (e.1 ≠ key))
          ((k, v) :: cache) =
          (k, v) :: List.filter (fun e : Option String × CacheEntry => decide (e.1 ≠ key))
            cache := by
        rw [List.filter_cons]
        simp [hk]
      rw [hf, List.lookup_cons, List.lookup_cons, ih]

theorem cacheGet_cacheSet_same (cache : DetectionCache) (key : Option String)
    (entry : CacheEntry) : cacheGet (cacheSet cache key entry) key = some entry := by
  simp [cacheGet, cacheSet, List.lookup_cons]

theorem cacheGet_cacheSet_other (cache : DetectionCache) (key other : Option String)
    (entry : CacheEntry) (h : other ≠ key) :
    cacheGet (cacheSet cache key entry) other = cacheGet cache other := by
  have : (other == key) = false := by simp [h]
  have e := cacheGet_cacheDelete_other cache key other h
  unfold cacheGet cacheSet at *
  rw [List.lookup_cons, this]
  exact e

end Background

/-! ## Coordinator: cache lookups -/

namespace Background

open Js

theorem pageLoadNotification_fresh (H : Runtime) (cookies : String → List Cookie) (now : Int)
    (st : State) (key : Option String) (entry : CacheEntry) (sender : Sender)
    (he : cacheGet st.detectionCache key = some entry)
    (hf : now - entry.timestamp < CACHE_DURATION) :
    handleMessage H cookies now st (Message.pageLoadNotification key) sender =
      ⟨Response.cacheHit true none, st, badgeEffect sender.tabId entry.detections.length⟩ := by
  simp only [handleMessage, he, hf, if_true]

theorem pageLoadNotification_stale (H : Runtime) (cookies : String → List Cookie) (now : Int)
    (st : State) (key : Option String) (entry : CacheEntry) (sender : Sender)
    (he : cacheGet st.detectionCache key = some entry)
    (hf : ¬ now - entry.timestamp < CACHE_DURATION) :
    handleMessage H cookies now st (Message.pageLoadNotification key) sender =
      ⟨Response.cacheHit false none, st, [Effect.requestPageData sender.tabId]⟩ := by
  simp only [handleMessage, he, hf, if_false]

theorem pageLoadNotification_absent (H : Runtime) (cookies : String → List Cookie) (now : Int)
    (st : State) (key : Option String) (sender : Sender)
    (he : cacheGet st.detectionCache key = none) :
    handleMessage H cookies now st (Message.pageLoadNotification key) sender =
      ⟨Response.cacheHit false none, st, [Effect.requestPageData sender.tabId]⟩ := by
  simp only [handleMessage, he]

theorem requestPageData_not_mem_badgeEffect (tabId : Option Nat) (count : Nat)
    (t : Option Nat) : Effect.requestPageData t ∉ badgeEffect tabId count := by
  unfold badgeEffect
  split <;> simp

/-- C17: for a cache entry with timestamp `t0` and a lookup at time `now`, a
`PAGE_LOAD_NOTIFICATION` for the key of the entry answers `cacheHit: true` and sends no
`REQUEST_PAGE_DATA` exactly when `now - t0 < CACHE_DURATION` (12 hours, 43,200,000 ms);
otherwise it answers `cacheHit: false` and requests page data; the state is left as it
is. The entry is a hit one millisecond before `t0 + ttl` and is re-scanned at `t0 + ttl`
and one millisecond after. -/
theorem pageLoadNotification_ttl (H : Runtime) (cookies : String → List Cookie) (now : Int)
    (st : State) (key : Option String) (entry : CacheEntry) (sender : Sender)
    (he : cacheGet st.detectionCache key = some entry) :
    ((handleMessage H cookies now st (Message.pageLoadNotification key) sender).response =
        Response.cacheHit true none ↔ now - entry.timestamp < CACHE_DURATION) ∧
    (now - entry.timestamp < CACHE_DURATION →
      ∀ t, Effect.requestPageData t ∉
        (handleMessage H cookies now st (Message.pageLoadNotification key) sender).effects) ∧
    (¬ now - entry.timestamp < CACHE_DURATION →
      (handleMessage H cookies now st (Message.pageLoadNotification key) sender).response =
          Response.cacheHit false none ∧
      (handleMessage H cookies now st (Message.pageLoadNotification key) sender).effects =
          [Effect.requestPageData sender.tabId]) ∧
    (handleMessage H cookies now st (Message.pageLoadNotification key) sender).state = st ∧
    CACHE_DURATION = 43200000 ∧
    (handleMessage H cookies (entry.timestamp + CACHE_DURATION - 1) st
      (Message.pageLoadNotification key) sender).response = Response.cacheHit true none ∧
    (handleMessage H cookies (entry.timestamp + CACHE_DURATION) st
      (Message.pageLoadNotification key) sender).response = Response.cacheHit false none ∧
    (handleMessage H cookies (entry.timestamp + CACHE_DURATION + 1) st
      (Message.pageLoadNotification key) sender).response = Response.cacheHit false none := by
  have hd : CACHE_DURATION = 43200000 := by decide
  refine ⟨?_, ?_, ?_, ?_, hd, ?_, ?_, ?_⟩
  · by_cases hf : now - entry.timestamp < CACHE_DURATION
    · rw [pageLoadNotification_fresh H cookies now st key entry sender he hf]
      exact ⟨fun _ => hf, fun _ => rfl⟩
    · rw [pageLoadNotification_stale H cookies now st key entry sender he hf]
      constructor
      · intro h; exact absurd h (by simp)
      · intro h; exact absurd h hf
  · intro hf t
    rw [pageLoadNotification_fresh H cookies now st key entry sender he hf]
    exact requestPageData_not_mem_badgeEffect _ _ t
  · intro hf
    rw [pageLoadNotification_stale H cookies now st key entry sender he hf]
    exact ⟨rfl, rfl⟩
  · by_cases hf : now - entry.timestamp < CACHE_DURATION
    · rw [pageLoadNotification_fresh H cookies now st key entry sender he hf]
    · rw [pageLoadNotification_stale H cookies now st key entry sender he hf]
  · rw [pageLoadNotification_fresh H cookies _ st key entry sender he (by omega)]
  · rw [pageLoadNotification_stale H cookies _ st key entry sender he (by omega)]
  · rw [pageLoadNotification_stale H cookies _ st key entry sender he (by omega)]

/-- C17, applied to the example state (entry written at time 1000) one millisecond
before the entry expires. -/
theorem pageLoadNotification_ttl_witness :
    (handleMessage asciiRuntime (fun _ => []) (1000 + 43200000 - 1) Example.cachedState
      (Message.pageLoadNotification (some "https://shop.example/")) Example.shopTab).response =
      Response.cacheHit true none :=
  (pageLoadNotification_ttl asciiRuntime (fun _ => []) (1000 + 43200000 - 1)
    Example.cachedState (some "https://shop.example/")
    { detections := [Example.cfResult], timestamp := 1000,
      jsHooks := some ["navigator.webdriver"] }
    Example.shopTab rfl).1.2 (by decide)

end Background

/-! ## Coordinator: hook batches -/

namespace Background

open Js

/-- The loop of `JS_HOOK_BATCH` appends to the list the targets of the batch that the
list does not hold, each once, in the order of their first occurrence. -/
theorem addHooks_spec (hooks : List HookReport) :
    ∀ old : List String, ∃ added : List String,
      addHooks old hooks = old ++ added ∧ added.Nodup ∧
      (∀ t, t ∈ added ↔ (t ∈ hooks.map (fun h => h.target) ∧ t ∉ old)) ∧
      added.Sublist (hooks.map fun h => h.target) := by
  induction hooks with
  | nil =>
    intro old
    exact ⟨[], by simp [addHooks], List.nodup_nil, by simp, List.Sublist.refl _⟩
  | cons hook rest ih =>
    intro old
    by_cases hin : hook.target ∈ old
    · obtain ⟨added, he, hn, hm, hs⟩ := ih old
      refine ⟨added, ?_, hn, ?_, ?_⟩
      · have hc : old.contains hook.target = true := by simpa using hin
        simp only [addHooks, List.foldl_cons, hc, if_true]
        exact he
      · intro t
        rw [hm t]
        simp only [List.map_cons, List.mem_cons]
        constructor
        · rintro ⟨h1, h2⟩; exact ⟨Or.inr h1, h2⟩
        · rintro ⟨h1 | h1, h2⟩
          · rw [h1] at h2; exact absurd hin h2
          · exact ⟨h1, h2⟩
      · exact List.Sublist.cons _ hs
    · obtain ⟨added, he, hn, hm, hs⟩ := ih (old ++ [hook.target])
      refine ⟨hook.target :: added, ?_, ?_, ?_, ?_⟩
      · have hc : old.contains hook.target = false := by simpa using hin
        simp only [addHooks, List.foldl_cons, hc, Bool.false_eq_true, if_false]
        have := he
        simp only [addHooks] at this
        rw [this]
        simp
      · refine List.nodup_cons.2 ⟨?_, hn⟩
        intro h
        have := ((hm _).1 h).2
        simp at this
      · intro t
        simp only [List.mem_cons, List.map_cons, hm t, List.mem_append, List.mem_singleton,
          not_or]
        constructor
        · rintro (rfl | ⟨h1, h2, _⟩)
          · exact ⟨Or.inl rfl, hin⟩
          · exact ⟨Or.inr h1, h2⟩
        · rintro ⟨h1 | h1, h2⟩
          · exact Or.inl h1
          · by_cases ht : t = hook.target
            · exact Or.inl ht
            · exact Or.inr ⟨h1, h2, ht, List.not_mem_nil _⟩
      · exact List.Sublist.cons₂ _ hs

theorem addHooks_nodup (old : List String) (hooks : List HookReport) (h : old.Nodup) :
    (addHooks old hooks).Nodup := by
  obtain ⟨added, he, hn, hm, _⟩ := addHooks_spec hooks old
  rw [he]
  refine List.nodup_append.2 ⟨h, hn, ?_⟩
  intro t ht hta
  exact ((hm t).1 hta).2 ht

theorem hooksNodup_cacheSet (cache : DetectionCache) (key : Option String)
    (entry : CacheEntry) (hc : HooksNodup cache)
    (he : ∀ hooks, entry.jsHooks = some hooks → hooks.Nodup) :
    HooksNodup (cacheSet cache key entry) := by
  intro k e hooks hk hh
  by_cases h : k = key
  · subst h
    rw [cacheGet_cacheSet_same] at hk
    simp only [Option.some.injEq] at hk
    subst hk
    exact he hooks hh
  · rw [cacheGet_cacheSet_other _ _ _ _ h] at hk
    exact hc k e hooks hk hh

theorem hooksNodup_cacheDelete (cache : DetectionCache) (key : Option String)
    (hc : HooksNodup cache) : HooksNodup (cacheDelete cache key) := by
  intro k e hooks hk hh
  by_cases h : k = key
  · subst h
    rw [cacheGet_cacheDelete_same] at hk
    exact absurd hk (by simp)
  · rw [cacheGet_cacheDelete_other _ _ _ h] at hk
    exact hc k e hooks hk hh

theorem hooksNodup_step (H : Runtime) (st : State) (e : Event)
    (hc : HooksNodup st.detectionCache) : HooksNodup (step H st e).detectionCache := by
  unfold step handleMessage
  cases hm : e.message with
  | getDetectors => exact hc
  | getDetections url =>
    simp only
    split
    · split <;> exact hc
    · exact hc
  | pageData data =>
    simp only
    split
    · exact hc
    · exact hooksNodup_cacheSet _ _ _ hc (fun hooks hh => by simp at hh)
  | pageLoadNotification url =>
    simp only
    split
    · split <;> exact hc
    · exact hc
  | runDetection url tabId => exact hooksNodup_cacheDelete _ _ hc
  | jsHookBatch hooks =>
    simp only
    split
    · exact hc
    · apply hooksNodup_cacheSet _ _ _ hc
      intro l hl
      simp only [Option.some.injEq] at hl
      rw [← hl]
      apply addHooks_nodup
      cases hg : cacheGet st.detectionCache e.sender.tabUrl with
      | none => simp
      | some cached =>
        simp only
        cases hj : cached.jsHooks with
        | none => simp
        | some l0 => exact hc _ _ _ hg hj
  | clearCache =>
    intro k en hooks hk _
    simp [cacheGet] at hk
  | toggleExtension enabled =>
    simp only
    split <;> exact hc
  | checkCacheEarly url =>
    simp only
    split
    · split <;> exact hc
    · exact hc
  | unknown => exact hc

theorem hooksNodup_run (H : Runtime) (events : List Event) :
    ∀ st : State, HooksNodup st.detectionCache → HooksNodup (run H st events).detectionCache := by
  induction events with
  | nil => intro st h; exact h
  | cons e rest ih =>
    intro st h
    exact ih _ (hooksNodup_step H st e h)

end Background

namespace Background

open Js

theorem strTruthy_some (u : String) (h : u ≠ "") : strTruthy (some u) = true := by
  have := string_data_ne_nil u h
  simp [strTruthy, List.isEmpty_iff, this]

theorem jsHookBatch_existing (H : Runtime) (cookies : String → List Cookie) (now : Int)
    (st : State) (sender : Sender) (hooks : Option (List HookReport)) (url : String)
    (entry : CacheEntry) (hu : sender.tabUrl = some url) (hne : url ≠ "")
    (he : cacheGet st.detectionCache (some url) = some entry) :
    handleMessage H cookies now st (Message.jsHookBatch hooks) sender =
      ⟨Response.success true,
        { st with
          detectionCache := cacheSet st.detectionCache (some url)
            ⟨entry.detections, entry.timestamp,
              some (addHooks (entry.jsHooks.getD []) (hooks.getD []))⟩ }, []⟩ := by
  simp only [handleMessage, hu, strTruthy_some url hne, Bool.not_true, Bool.false_eq_true,
    if_false, he]

theorem jsHookBatch_absent (H : Runtime) (cookies : String → List Cookie) (now : Int)
    (st : State) (sender : Sender) (hooks : Option (List HookReport)) (url : String)
    (hu : sender.tabUrl = some url) (hne : url ≠ "")
    (he : cacheGet st.detectionCache (some url) = none) :
    handleMessage H cookies now st (Message.jsHookBatch hooks) sender =
      ⟨Response.success true,
        { st with
          detectionCache := cacheSet st.detectionCache (some url)
            ⟨[], now, some (addHooks [] (hooks.getD []))⟩ }, []⟩ := by
  simp only [handleMessage, hu, strTruthy_some url hne, Bool.not_true, Bool.false_eq_true,
    if_false, he, Option.getD_some]

/-- C19: a `JS_HOOK_BATCH` from a tab whose URL has a cache entry leaves the detections
and the timestamp of the entry as they are, leaves the entry of every other URL as it
is, and makes the hook list of the entry the old list followed by the targets of the
batch that the old list does not hold, each once, in the order of their first
occurrence; no target occurs twice in the new list when none did in the old one, which
holds in every state the coordinator reaches from its start. -/
theorem jsHookBatch_merge (H : Runtime) (cookies : String → List Cookie) (now : Int)
    (st : State) (sender : Sender) (hooks : Option (List HookReport)) (url : String)
    (entry : CacheEntry)
    (hu : sender.tabUrl = some url) (hne : url ≠ "")
    (he : cacheGet st.detectionCache (some url) = some entry) :
    ∃ added : List String,
      cacheGet (handleMessage H cookies now st (Message.jsHookBatch hooks)
          sender).state.detectionCache (some url) =
        some { detections := entry.detections, timestamp := entry.timestamp,
               jsHooks := some (entry.jsHooks.getD [] ++ added) } ∧
      added.Nodup ∧
      (∀ t, t ∈ added ↔
        (t ∈ (hooks.getD []).map (fun h => h.target) ∧ t ∉ entry.jsHooks.getD [])) ∧
      added.Sublist ((hooks.getD []).map fun h => h.target) ∧
      ((entry.jsHooks.getD []).Nodup → (entry.jsHooks.getD [] ++ added).Nodup) ∧
      (∀ key, key ≠ some url →
        cacheGet (handleMessage H cookies now st (Message.jsHookBatch hooks)
          sender).state.detectionCache key = cacheGet st.detectionCache key) ∧
      (∀ (storage : Storage) (events : List Event),
        HooksNodup (run H (State.initial storage) events).detectionCache) := by
  obtain ⟨added, ha, hn, hm, hs⟩ := addHooks_spec (hooks.getD []) (entry.jsHooks.getD [])
  refine ⟨added, ?_, hn, hm, hs, ?_, ?_, ?_⟩
  · rw [jsHookBatch_existing H cookies now st sender hooks url entry hu hne he]
    simp only [cacheGet_cacheSet_same, ha]
  · intro hold
    rw [← ha]
    exact addHooks_nodup _ _ hold
  · intro key hk
    rw [jsHookBatch_existing H cookies now st sender hooks url entry hu hne he]
    exact cacheGet_cacheSet_other _ _ _ _ hk
  · intro storage events
    apply hooksNodup_run
    intro k e hooks hk _
    simp [State.initial, cacheGet] at hk

/-- C19, applied to the example state and a batch of three reports, one of them for a
target the entry already lists and two for the same new target. -/
theorem jsHookBatch_merge_witness :
    (cacheGet (handleMessage asciiRuntime (fun _ => []) 5000 Example.cachedState
      (Message.jsHookBatch (some [⟨"navigator.webdriver"⟩, ⟨"AudioContext"⟩,
        ⟨"AudioContext"⟩])) Example.shopTab).state.detectionCache
      (some "https://shop.example/")).map (fun e => (e.detections, e.timestamp)) =
      some ([Example.cfResult], 1000) := by
  obtain ⟨added, h, _⟩ := jsHookBatch_merge asciiRuntime (fun _ => []) 5000
    Example.cachedState Example.shopTab
    (some [⟨"navigator.webdriver"⟩, ⟨"AudioContext"⟩, ⟨"AudioContext"⟩])
    "https://shop.example/"
    { detections := [Example.cfResult], timestamp := 1000,
      jsHooks := some ["navigator.webdriver"] } rfl (by decide) rfl
  rw [h]
  rfl

end Background

/-! ## Coordinator: invariants over sequences of messages -/

namespace Background

open Js

theorem cacheGet_cacheDelete_none (cache : DetectionCache) (key k : Option String)
    (h : cacheGet cache k = none) : cacheGet (cacheDelete cache key) k = none := by
  by_cases hk : k = key
  · subst hk; exact cacheGet_cacheDelete_same _ _
  · rw [cacheGet_cacheDelete_other _ _ _ hk]; exact h

/-- As long as no `PAGE_DATA` and no `JS_HOOK_BATCH` is handled for a URL without an
entry, the URL stays without an entry. -/
theorem absent_step (H : Runtime) (st : State) (e : Event) (u : String)
    (h0 : cacheGet st.detectionCache (some u) = none)
    (hp : e.isPageDataFor u = false) (hh : e.isHookBatchFor u = false) :
    cacheGet (step H st e).detectionCache (some u) = none := by
  unfold step handleMessage
  unfold Event.isPageDataFor at hp
  unfold Event.isHookBatchFor at hh
  cases hm : e.message with
  | getDetectors => exact h0
  | getDetections url =>
    simp only
    split
    · split <;> exact h0
    · exact h0
  | pageData data =>
    rw [hm] at hp
    simp only [decide_eq_false_iff_not] at hp
    simp only
    split
    · exact h0
    · rw [cacheGet_cacheSet_other _ _ _ _ (Ne.symm hp)]
      exact h0
  | pageLoadNotification url =>
    simp only
    split
    · split <;> exact h0
    · exact h0
  | runDetection url tabId => exact cacheGet_cacheDelete_none _ _ _ h0
  | jsHookBatch hooks =>
    rw [hm] at hh
    simp only [decide_eq_false_iff_not] at hh
    simp only
    split
    · exact h0
    · rw [cacheGet_cacheSet_other _ _ _ _ (Ne.symm hh)]
      exact h0
  | clearCache => rfl
  | toggleExtension enabled =>
    simp only
    split <;> exact h0
  | checkCacheEarly url =>
    simp only
    split
    · split <;> exact h0
    · exact h0
  | unknown => exact h0

theorem absent_run (H : Runtime) (u : String) (events : List Event) :
    ∀ st : State, cacheGet st.detectionCache (some u) = none →
      (∀ e ∈ events, e.isPageDataFor u = false ∧ e.isHookBatchFor u = false) →
      cacheGet (run H st events).detectionCache (some u) = none := by
  induction events with
  | nil => intro st h _; exact h
  | cons e rest ih =>
    intro st h hev
    have he := hev e (List.mem_cons_self _ _)
    exact ih _ (absent_step H st e u h he.1 he.2)
      (fun x hx => hev x (List.mem_cons_of_mem _ hx))

theorem noDetections_cacheSet (u : String) (cache : DetectionCache) (key : Option String)
    (entry : CacheEntry) (hc : NoDetections u cache)
    (he : key = some u → entry.detections = []) :
    NoDetections u (cacheSet cache key entry) := by
  intro en hen
  by_cases hk : some u = key
  · rw [← hk, cacheGet_cacheSet_same] at hen
    simp only [Option.some.injEq] at hen
    rw [← hen]
    exact he hk.symm
  · rw [cacheGet_cacheSet_other _ _ _ _ hk] at hen
    exact hc en hen

/-- As long as no `PAGE_DATA` is handled for a URL, an entry of the URL without
detections stays without detections. -/
theorem noDetections_step (H : Runtime) (st : State) (e : Event) (u : String)
    (h0 : NoDetections u st.detectionCache) (hp : e.isPageDataFor u = false) :
    NoDetections u (step H st e).detectionCache := by
  unfold step handleMessage
  unfold Event.isPageDataFor at hp
  cases hm : e.message with
  | getDetectors => exact h0
  | getDetections url =>
    simp only
    split
    · split <;> exact h0
    · exact h0
  | pageData data =>
    rw [hm] at hp
    simp only [decide_eq_false_iff_not] at hp
    simp only
    split
    · exact h0
    · exact noDetections_cacheSet u _ _ _ h0 (fun hk => absurd hk hp)
  | pageLoadNotification url =>
    simp only
    split
    · split <;> exact h0
    · exact h0
  | runDetection url tabId =>
    intro en hen
    by_cases hk : some u = url
    · rw [← hk, cacheGet_cacheDelete_same] at hen
      exact absurd hen (by simp)
    · rw [cacheGet_cacheDelete_other _ _ _ hk] at hen
      exact h0 en hen
  | jsHookBatch hooks =>
    simp only
    split
    · exact h0
    · apply noDetections_cacheSet u _ _ _ h0
      intro hk
      rw [hk]
      cases hg : cacheGet st.detectionCache (some u) with
      | none => rfl
      | some cached => exact h0 cached hg
  | clearCache =>
    intro en hen
    simp [cacheGet] at hen
  | toggleExtension enabled =>
    simp only
    split <;> exact h0
  | checkCacheEarly url =>
    simp only
    split
    · split <;> exact h0
    · exact h0
  | unknown => exact h0

theorem noDetections_run (H : Runtime) (u : String) (events : List Event) :
    ∀ st : State, NoDetections u st.detectionCache →
      (∀ e ∈ events, e.isPageDataFor u = false) →
      NoDetections u (run H st events).detectionCache := by
  induction events with
  | nil => intro st h _; exact h
  | cons e rest ih =>
    intro st h hev
    exact ih _ (noDetections_step H st e u h (hev e (List.mem_cons_self _ _)))
      (fun x hx => hev x (List.mem_cons_of_mem _ hx))

theorem getDetections_empty (H : Runtime) (cookies : String → List Cookie) (now : Int)
    (st : State) (url : Option String) (sender : Sender) (u : String)
    (hk : strOr url sender.tabUrl = some u) (h0 : NoDetections u st.detectionCache) :
    (handleMessage H cookies now st (Message.getDetections url) sender).response =
      Response.detections [] := by
  simp only [handleMessage, hk]
  cases hg : cacheGet st.detectionCache (some u) with
  | none => rfl
  | some cached =>
    simp only
    split
    · rw [h0 cached hg]
    · rfl

end Background

namespace Background

open Js

/-- C18 (as stated, refuted): from the start state, a `JS_HOOK_BATCH` sent from the shop
tab at time 1000 is the only message handled, no `PAGE_DATA` among them; the
`PAGE_LOAD_NOTIFICATION` for the shop URL at time 2000 answers `cacheHit: true` and
requests no page data: the batch created an entry without detections. -/
theorem hook_batch_makes_url_fresh :
    (∀ e ∈ [Example.hookEvent], e.isPageDataFor "https://shop.example/" = false) ∧
    cacheGet (run asciiRuntime (State.initial []) [Example.hookEvent]).detectionCache
        (some "https://shop.example/") =
      some { detections := [], timestamp := 1000,
             jsHooks := some ["HTMLCanvasElement.toDataURL"] } ∧
    (handleMessage asciiRuntime (fun _ => []) 2000
      (run asciiRuntime (State.initial []) [Example.hookEvent])
      (Message.pageLoadNotification (some "https://shop.example/"))
      Example.shopTab).response = Response.cacheHit true none ∧
    (handleMessage asciiRuntime (fun _ => []) 2000
      (run asciiRuntime (State.initial []) [Example.hookEvent])
      (Message.pageLoadNotification (some "https://shop.example/"))
      Example.shopTab).effects = [Effect.updateBadge 7 0] := by
  decide

/-- C18 (amended): as long as neither a `PAGE_DATA` nor a `JS_HOOK_BATCH` has been
handled for a URL since a state in which the URL had no entry (the start state, or the
state after `RUN_DETECTION` for it), a `PAGE_LOAD_NOTIFICATION` for the URL answers
`cacheHit: false` and requests page data, whatever other messages were handled. A
`JS_HOOK_BATCH` from a tab showing a URL without an entry creates an entry with no
detections, the current time and the targets of the batch. -/
theorem fresh_only_after_scan_or_hook_batch (H : Runtime) (st : State) (u : String)
    (events : List Event) (cookies : String → List Cookie) (now : Int) (sender : Sender)
    (h0 : cacheGet st.detectionCache (some u) = none)
    (hev : ∀ e ∈ events, e.isPageDataFor u = false ∧ e.isHookBatchFor u = false) :
    (handleMessage H cookies now (run H st events) (Message.pageLoadNotification (some u))
      sender).response = Response.cacheHit false none ∧
    (handleMessage H cookies now (run H st events) (Message.pageLoadNotification (some u))
      sender).effects = [Effect.requestPageData sender.tabId] ∧
    (∀ storage : Storage, cacheGet (State.initial storage).detectionCache (some u) = none) ∧
    (∀ (st₀ : State) (tabId : Option Nat),
      cacheGet (handleMessage H cookies now st₀ (Message.runDetection (some u) tabId)
        sender).state.detectionCache (some u) = none) ∧
    (∀ (hooks : Option (List HookReport)) (tab : Sender), tab.tabUrl = some u → u ≠ "" →
      cacheGet (handleMessage H cookies now st (Message.jsHookBatch hooks)
        tab).state.detectionCache (some u) =
        some ⟨[], now, some (addHooks [] (hooks.getD []))⟩) := by
  have ha := absent_run H u events st h0 hev
  rw [pageLoadNotification_absent H cookies now _ (some u) sender ha]
  refine ⟨rfl, rfl, fun _ => rfl, ?_, ?_⟩
  · intro st₀ tabId
    exact cacheGet_cacheDelete_same _ _
  · intro hooks tab hu hne
    rw [jsHookBatch_absent H cookies now st tab hooks u hu hne h0]
    exact cacheGet_cacheSet_same _ _ _

/-- C18 (amended), applied to the start state and a sequence that holds a hook batch for
another page and a cache lookup. -/
theorem fresh_only_after_scan_or_hook_batch_witness :
    (handleMessage asciiRuntime (fun _ => []) 2000
      (run asciiRuntime (State.initial [])
        [Example.otherHookEvent, Example.cacheCheckEvent])
      (Message.pageLoadNotification (some "https://shop.example/"))
      Example.shopTab).response = Response.cacheHit false none :=
  (fresh_only_after_scan_or_hook_batch asciiRuntime (State.initial [])
    "https://shop.example/"
    [Example.otherHookEvent, Example.cacheCheckEvent]
    (fun _ => []) 2000 Example.shopTab rfl (by decide)).1

/-- C20: `RUN_DETECTION` for a URL removes the entry of the URL, leaves the entry of
every other URL as it is and then requests page data; from then on, whatever messages
are handled, a `GET_DETECTIONS` whose key is the URL answers the empty list as long as
no `PAGE_DATA` for the URL is handled. -/
theorem runDetection_clears_entry (H : Runtime) (cookies : String → List Cookie) (now : Int)
    (st : State) (u : String) (messageTabId : Option Nat) (sender : Sender) :
    cacheGet (handleMessage H cookies now st (Message.runDetection (some u) messageTabId)
      sender).state.detectionCache (some u) = none ∧
    (∀ key, key ≠ some u →
      cacheGet (handleMessage H cookies now st (Message.runDetection (some u) messageTabId)
        sender).state.detectionCache key = cacheGet st.detectionCache key) ∧
    (handleMessage H cookies now st (Message.runDetection (some u) messageTabId)
      sender).effects =
      [Effect.requestPageData (if tabTruthy messageTabId then messageTabId
        else sender.tabId)] ∧
    (handleMessage H cookies now st (Message.runDetection (some u) messageTabId)
      sender).response = Response.success true ∧
    (∀ events : List Event, (∀ e ∈ events, e.isPageDataFor u = false) →
      ∀ (cookies₂ : String → List Cookie) (now₂ : Int) (url : Option String) (tab : Sender),
        strOr url tab.tabUrl = some u →
        (handleMessage H cookies₂ now₂
          (run H (handleMessage H cookies now st (Message.runDetection (some u) messageTabId)
            sender).state events)
          (Message.getDetections url) tab).response = Response.detections []) := by
  refine ⟨cacheGet_cacheDelete_same _ _, ?_, rfl, rfl, ?_⟩
  · intro key hk
    exact cacheGet_cacheDelete_other _ _ _ hk
  · intro events hev cookies₂ now₂ url tab hk
    apply getDetections_empty H cookies₂ now₂ _ url tab u hk
    apply noDetections_run H u events _ _ hev
    intro en hen
    have : cacheGet (handleMessage H cookies now st
        (Message.runDetection (some u) messageTabId) sender).state.detectionCache (some u) =
        none := cacheGet_cacheDelete_same _ _
    rw [this] at hen
    exact absurd hen (by simp)

/-- C20, applied to the example state: after `RUN_DETECTION` for the shop page and a hook
batch from its tab, `GET_DETECTIONS` for the page answers the empty list. -/
theorem runDetection_clears_entry_witness :
    (handleMessage asciiRuntime (fun _ => []) 3000
      (run asciiRuntime
        (handleMessage asciiRuntime (fun _ => []) 2000 Example.cachedState
          (Message.runDetection (some "https://shop.example/") none) Example.shopTab).state
        [Example.hookEvent])
      (Message.getDetections (some "https://shop.example/")) {}).response =
      Response.detections [] :=
  (runDetection_clears_entry asciiRuntime (fun _ => []) 2000 Example.cachedState
    "https://shop.example/" none Example.shopTab).2.2.2.2 [Example.hookEvent] (by decide)
    (fun _ => []) 3000 (some "https://shop.example/") {} rfl

end Background

/-! ## Page-context hooks: one notification per target -/

namespace MainWorld

theorem mem_reportHook (s : List String) (t x : String) :
    x ∈ (reportHook s t).1 ↔ x ∈ s ∨ x = t := by
  unfold reportHook
  by_cases h : s.contains t = true
  · rw [if_pos h]
    have hm : t ∈ s := by simpa using h
    constructor
    · intro hx; exact Or.inl hx
    · rintro (hx | hx)
      · exact hx
      · rw [hx]; exact hm
  · rw [if_neg h]; simp

theorem reportHook_posted (s : List String) (t : String) :
    (reportHook s t).2 = if t ∈ s then [] else [PostedMessage.jsHook t] := by
  unfold reportHook
  by_cases h : t ∈ s
  · have hc : s.contains t = true := by simpa using h
    rw [if_pos hc, if_pos h]
  · have hc : ¬ s.contains t = true := by simpa using h
    rw [if_neg hc, if_neg h]

theorem mem_invokeAll (targets : List String) :
    ∀ (s : List String) (x : String), x ∈ (invokeAll s targets).1 ↔ x ∈ s ∨ x ∈ targets := by
  induction targets with
  | nil => intro s x; simp [invokeAll]
  | cons t rest ih =>
    intro s x
    simp only [invokeAll, hookedCall]
    rw [ih, mem_reportHook, List.mem_cons, or_assoc]

theorem count_invokeAll (targets : List String) :
    ∀ (s : List String) (t : String),
      (invokeAll s targets).2.count (PostedMessage.jsHook t) =
        if t ∉ s ∧ t ∈ targets then 1 else 0 := by
  induction targets with
  | nil => intro s t; simp [invokeAll]
  | cons u rest ih =>
    intro s t
    simp only [invokeAll, hookedCall, List.count_append]
    rw [ih, reportHook_posted]
    by_cases hut : u = t
    · subst hut
      by_cases hs : u ∈ s
      · have h1 : u ∈ (reportHook s u).1 := (mem_reportHook s u u).2 (Or.inr rfl)
        simp [hs, h1]
      · have h1 : u ∈ (reportHook s u).1 := (mem_reportHook s u u).2 (Or.inr rfl)
        simp [hs, h1]
    · have hne : t ≠ u := fun e => hut e.symm
      have hmem : t ∈ (reportHook s u).1 ↔ t ∈ s := by
        rw [mem_reportHook]; simp [hne]
      have hc : (if u ∈ s then [] else [PostedMessage.jsHook u]).count
          (PostedMessage.jsHook t) = 0 := by
        split
        · rfl
        · rw [List.count_singleton]
          simp [hut]
      rw [hc]
      by_cases hs : t ∈ s
      · have h1 : t ∈ (reportHook s u).1 := hmem.2 hs
        simp [hs, h1]
      · have h1 : t ∉ (reportHook s u).1 := fun h => hs (hmem.1 h)
        simp [hs, h1, hne]

/-- C21: over every sequence of calls of instrumented APIs from the start of a page
load, the number of `SCRAPPEY_JS_HOOK` messages posted for a target is one when the
target is called at all and zero otherwise; the call that follows the calls `before`
posts one message when its target is not among them and none when it is; and five
calls of one target post exactly one message. -/
theorem reportHook_once_per_target (targets : List String) (t : String) :
    (invokeAll [] targets).2.count (PostedMessage.jsHook t) = (if t ∈ targets then 1 else 0) ∧
    (∀ before : List String,
      (hookedCall (invokeAll [] before).1 t).2 =
        if t ∈ before then [] else [PostedMessage.jsHook t]) ∧
    (invokeAll [] (List.replicate 5 t)).2 = [PostedMessage.jsHook t] := by
  refine ⟨?_, ?_, ?_⟩
  · rw [count_invokeAll]; simp
  · intro before
    unfold hookedCall
    rw [reportHook_posted]
    have hm : t ∈ (invokeAll [] before).1 ↔ t ∈ before := by
      rw [mem_invokeAll]; simp
    by_cases h : t ∈ before
    · rw [if_pos (hm.2 h), if_pos h]
    · rw [if_neg (fun h2 => h (hm.1 h2)), if_neg h]
  · simp [List.replicate, invokeAll, hookedCall, reportHook]

end MainWorld

/-! ## Coordinator: lookups and scans -/

namespace Background

open Js

theorem pageData_outcome (H : Runtime) (cookies : String → List Cookie) (now : Int)
    (st : State) (u : String) (d : PageData) (sender : Sender) (hu : u.data ≠ [])
    (hd : d.url = some u) :
    handleMessage H cookies now st (Message.pageData (some d)) sender =
      ⟨Response.pageData (scanOf H cookies st u d),
        { st with detectionCache :=
            cacheSet st.detectionCache (some u) ⟨scanOf H cookies st u d, now, none⟩ },
        badgeEffect sender.tabId (scanOf H cookies st u d).length⟩ := by
  have ht : strTruthy (some u) = true := by
    cases hdata : u.data with
    | nil => exact absurd hdata hu
    | cons c cs => simp [strTruthy, hdata]
  have hurl : strOr ((some d).bind fun d => d.url) sender.tabUrl = some u := by
    simp only [Option.bind, hd, strOr, ht, if_true]
  simp only [handleMessage, hurl, ht, Option.isNone, Bool.and_false, Option.map, Option.getD,
    if_true, Bool.false_eq_true, if_false, scanOf]

/-- C22 (as stated, refuted): the shop page has no entry and two tabs showing it look it
up one after the other. Both lookups answer `cacheHit: false` and each requests page
data from its own tab; the first lookup leaves no trace in the state. Each of the two
`PAGE_DATA` messages that follow is answered with the result of a detection pass of its
own, and the entry left is the one of the second pass. -/
theorem two_lookups_two_scans :
    (handleMessage asciiRuntime Example.cfCookies 1000 Example.loadedState
      (Message.pageLoadNotification (some "https://shop.example/")) Example.shopTab) =
      ⟨Response.cacheHit false none, Example.loadedState, [Effect.requestPageData (some 7)]⟩ ∧
    (handleMessage asciiRuntime Example.cfCookies 1001 Example.loadedState
      (Message.pageLoadNotification (some "https://shop.example/")) Example.shopTab2) =
      ⟨Response.cacheHit false none, Example.loadedState, [Effect.requestPageData (some 8)]⟩ ∧
    (handleMessage asciiRuntime Example.cfCookies 1002 Example.loadedState
      (Message.pageData (some Example.shopData)) Example.shopTab).response =
      Response.pageData [Example.cfResult] ∧
    (handleMessage asciiRuntime Example.cfCookies 1003
      (handleMessage asciiRuntime Example.cfCookies 1002 Example.loadedState
        (Message.pageData (some Example.shopData)) Example.shopTab).state
      (Message.pageData (some Example.shopData)) Example.shopTab2).response =
      Response.pageData [Example.cfResult] ∧
    cacheGet (handleMessage asciiRuntime Example.cfCookies 1003
      (handleMessage asciiRuntime Example.cfCookies 1002 Example.loadedState
        (Message.pageData (some Example.shopData)) Example.shopTab).state
      (Message.pageData (some Example.shopData)) Example.shopTab2).state.detectionCache
      (some "https://shop.example/") =
      some { detections := [Example.cfResult], timestamp := 1003 } := by
  decide

/-- C22 (amended): the coordinator keeps no record of a scan in progress. For a page
without an entry, every lookup answers `cacheHit: false`, requests page data from the
tab it came from and leaves the state as it is, so a second lookup does the same; every
`PAGE_DATA` message for the page is answered with a detection pass of its own, and
after two of them the entry is the one written by the later pass, with its time. -/
theorem lookups_do_not_share_a_scan (H : Runtime) (cookies₁ cookies₂ : String → List Cookie)
    (st : State) (u : String) (tab₁ tab₂ : Sender) (d₁ d₂ : PageData) (t₁ t₂ t₃ t₄ : Int)
    (hu : u.data ≠ []) (h0 : cacheGet st.detectionCache (some u) = none)
    (h₁ : d₁.url = some u) (h₂ : d₂.url = some u) :
    handleMessage H cookies₁ t₁ st (Message.pageLoadNotification (some u)) tab₁ =
      ⟨Response.cacheHit false none, st, [Effect.requestPageData tab₁.tabId]⟩ ∧
    handleMessage H cookies₂ t₂ st (Message.pageLoadNotification (some u)) tab₂ =
      ⟨Response.cacheHit false none, st, [Effect.requestPageData tab₂.tabId]⟩ ∧
    (handleMessage H cookies₁ t₃ st (Message.pageData (some d₁)) tab₁).response =
      Response.pageData (scanOf H cookies₁ st u d₁) ∧
    (handleMessage H cookies₂ t₄
      (handleMessage H cookies₁ t₃ st (Message.pageData (some d₁)) tab₁).state
      (Message.pageData (some d₂)) tab₂).response =
      Response.pageData (scanOf H cookies₂ st u d₂) ∧
    cacheGet (handleMessage H cookies₂ t₄
      (handleMessage H cookies₁ t₃ st (Message.pageData (some d₁)) tab₁).state
      (Message.pageData (some d₂)) tab₂).state.detectionCache (some u) =
      some ⟨scanOf H cookies₂ st u d₂, t₄, none⟩ := by
  refine ⟨pageLoadNotification_absent H cookies₁ t₁ st _ tab₁ h0,
    pageLoadNotification_absent H cookies₂ t₂ st _ tab₂ h0, ?_, ?_, ?_⟩
  · rw [pageData_outcome H cookies₁ t₃ st u d₁ tab₁ hu h₁]
  · rw [pageData_outcome H cookies₁ t₃ st u d₁ tab₁ hu h₁,
      pageData_outcome H cookies₂ t₄ _ u d₂ tab₂ hu h₂]
    rfl
  · rw [pageData_outcome H cookies₁ t₃ st u d₁ tab₁ hu h₁,
      pageData_outcome H cookies₂ t₄ _ u d₂ tab₂ hu h₂]
    exact cacheGet_cacheSet_same _ _ _

/-- C22 (amended), applied to two tabs showing the shop page while it has no entry. -/
theorem lookups_do_not_share_a_scan_witness :
    "https://shop.example/".data ≠ [] ∧
    cacheGet Example.loadedState.detectionCache (some "https://shop.example/") = none ∧
    handleMessage asciiRuntime Example.cfCookies 1001 Example.loadedState
      (Message.pageLoadNotification (some "https://shop.example/")) Example.shopTab2 =
      ⟨Response.cacheHit false none, Example.loadedState,
        [Effect.requestPageData Example.shopTab2.tabId]⟩ :=
  ⟨by decide, rfl,
    (lookups_do_not_share_a_scan asciiRuntime Example.cfCookies Example.cfCookies
      Example.loadedState "https://shop.example/" Example.shopTab Example.shopTab2
      Example.shopData Example.shopData 1000 1001 1002 1003 (by decide) rfl rfl rfl).2.1⟩

end Background

/-! ## Collection of the markup: length of the `html` field -/

theorem foldl_append_eq_flatMap (f : List Nat → List Nat) (ss : List (List Nat)) :
    ∀ init : List Nat,
      ss.foldl (fun html s => if s ≠ [] then html ++ f s else html) init =
        init ++ ss.flatMap (fun s => if s ≠ [] then f s else []) := by
  induction ss with
  | nil => intro init; simp
  | cons s rest ih =>
    intro init
    rw [List.foldl_cons, ih, List.flatMap_cons]
    by_cases h : s ≠ []
    · rw [if_pos h, if_pos h, List.append_assoc]
    · rw [if_neg h, if_neg h, List.nil_append]

theorem length_flatMap_scripts (k : Nat) (f : List Nat → List Nat)
    (hf : ∀ s, (f s).length = k + s.length) (ss : List (List Nat)) :
    (ss.flatMap (fun s => if s ≠ [] then f s else [])).length =
      ((ss.filter fun s => decide (s ≠ [])).map fun s => k + s.length).sum := by
  induction ss with
  | nil => rfl
  | cons s rest ih =>
    rw [List.flatMap_cons, List.length_append, ih]
    by_cases h : s ≠ []
    · rw [if_pos h, List.filter_cons_of_pos (by simpa using h), List.map_cons, List.sum_cons, hf]
    · rw [if_neg h, List.filter_cons_of_neg (by simpa using h)]
      simp

theorem Content.collectHtml_eq (outerHTML : Option (List Nat))
    (inlineScripts : List (List Nat)) :
    Content.collectHtml outerHTML inlineScripts =
      (outerHTML.getD []).take 100000 ++
        inlineScripts.flatMap (fun s => if s ≠ [] then [10] ++ s else []) := by
  unfold Content.collectHtml
  rw [foldl_append_eq_flatMap (fun s => [10] ++ s)]
  cases outerHTML <;> rfl

theorem ScanEngine.engineHtml_eq (outerHTML : Option (List Nat))
    (inlineScripts : List (List Nat)) :
    ScanEngine.collectHtml outerHTML inlineScripts =
      (outerHTML.getD []).take 100000 ++
        inlineScripts.flatMap (fun s => if s ≠ [] then s else []) := by
  unfold ScanEngine.collectHtml
  rw [foldl_append_eq_flatMap (fun s => s)]
  cases outerHTML <;> rfl

theorem Content.length_collectHtml (outerHTML : Option (List Nat))
    (inlineScripts : List (List Nat)) :
    (Content.collectHtml outerHTML inlineScripts).length =
      min 100000 (outerHTML.getD []).length +
        ((inlineScripts.filter fun s => decide (s ≠ [])).map fun s => 1 + s.length).sum := by
  rw [Content.collectHtml_eq, List.length_append, List.length_take,
    length_flatMap_scripts 1 (fun s => [10] ++ s) (by intro s; simp; omega)]

theorem ScanEngine.length_engineHtml (outerHTML : Option (List Nat))
    (inlineScripts : List (List Nat)) :
    (ScanEngine.collectHtml outerHTML inlineScripts).length =
      min 100000 (outerHTML.getD []).length +
        ((inlineScripts.filter fun s => decide (s ≠ [])).map fun s => 0 + s.length).sum := by
  rw [ScanEngine.engineHtml_eq, List.length_append, List.length_take,
    length_flatMap_scripts 0 (fun s => s) (by intro s; simp)]

theorem longScript_length : Example.longScript.length = 100000 := by
  simp only [Example.longScript, List.length_replicate]

theorem longScript_ne_nil : Example.longScript ≠ [] := by
  intro h
  have hl := longScript_length
  rw [h] at hl
  exact absurd hl (by decide)

theorem longMarkup_length : Example.longMarkup.length = 100056 := by
  have h1 : (Js.codeUnits "<html><head><script>").length = 20 := by decide
  have h2 : (Js.codeUnits "</script></head><body></body></html>").length = 36 := by decide
  rw [Example.longMarkup, List.length_append, List.length_append, longScript_length, h1, h2]

namespace Content

/-- C23: for the document whose head holds an inline script of 100,000 letters, the
`html` field built by `content.js` has 200,001 code units and the one built by the scan
engine 200,000, both above the bound of 100,000 that the line `slice(0, 100000)` and its
comment `limited for performance` set: the markup is cut at 100,000 and the text of the
script is then appended in full. -/
theorem collectHtml_exceeds_bound :
    (collectHtml (some Example.longMarkup) [Example.longScript]).length = 200001 ∧
    (ScanEngine.collectHtml (some Example.longMarkup) [Example.longScript]).length = 200000 := by
  have hf : ([Example.longScript].filter fun s => decide (s ≠ [])) = [Example.longScript] :=
    List.filter_cons_of_pos (by simpa using longScript_ne_nil)
  constructor
  · rw [length_collectHtml, hf, List.map_cons, List.map_nil, List.sum_cons, List.sum_nil,
      longScript_length, Option.getD_some, longMarkup_length]
    omega
  · rw [ScanEngine.length_engineHtml, hf, List.map_cons, List.map_nil, List.sum_cons,
      List.sum_nil, longScript_length, Option.getD_some, longMarkup_length]
    omega

/-- The `html` field as the two collectors build it: the first 100,000 code units of the
serialized markup (all of it when it is shorter, nothing when it is missing), followed
by the text of every non-empty inline script in full, each after a line feed in
`content.js` and without a separator in the scan engine. The part taken from the markup
never exceeds 100,000 code units, and the field is within that bound when there is no
inline script. -/
theorem collectHtml_length (outerHTML : Option (List Nat)) (inlineScripts : List (List Nat)) :
    collectHtml outerHTML inlineScripts =
      (outerHTML.getD []).take 100000 ++
        inlineScripts.flatMap (fun s => if s ≠ [] then [10] ++ s else []) ∧
    ScanEngine.collectHtml outerHTML inlineScripts =
      (outerHTML.getD []).take 100000 ++
        inlineScripts.flatMap (fun s => if s ≠ [] then s else []) ∧
    ((outerHTML.getD []).take 100000).length ≤ 100000 ∧
    (collectHtml outerHTML inlineScripts).length =
      min 100000 (outerHTML.getD []).length +
        ((inlineScripts.filter fun s => decide (s ≠ [])).map fun s => 1 + s.length).sum ∧
    (ScanEngine.collectHtml outerHTML inlineScripts).length =
      min 100000 (outerHTML.getD []).length +
        ((inlineScripts.filter fun s => decide (s ≠ [])).map fun s => 0 + s.length).sum ∧
    (collectHtml outerHTML []).length ≤ 100000 ∧
    (ScanEngine.collectHtml outerHTML []).length ≤ 100000 := by
  have hb : ((outerHTML.getD []).take 100000).length ≤ 100000 := by
    rw [List.length_take]; exact Nat.min_le_left _ _
  refine ⟨collectHtml_eq _ _, ScanEngine.engineHtml_eq _ _, hb, length_collectHtml _ _,
    ScanEngine.length_engineHtml _ _, ?_, ?_⟩
  · rw [length_collectHtml]
    simp only [List.filter_nil, List.map_nil, List.sum_nil, Nat.add_zero]
    exact Nat.min_le_left _ _
  · rw [ScanEngine.length_engineHtml]
    simp only [List.filter_nil, List.map_nil, List.sum_nil, Nat.add_zero]
    exact Nat.min_le_left _ _

end Content

/-! ## Cache handler: the hash of a URL -/

namespace CacheHandler

theorem toInt32_range (x : Int) : -2147483648 ≤ toInt32 x ∧ toInt32 x < 2147483648 := by
  unfold toInt32
  omega

theorem toInt32_congr (x : Int) : ∃ k : Int, toInt32 x = x + k * 4294967296 := by
  refine ⟨-((x + 2147483648) / 4294967296), ?_⟩
  unfold toInt32
  omega

theorem hashStep_eq (hash : Int) (char : Nat) :
    hashStep hash char = toInt32 (31 * hash + (char : Int)) := by
  dsimp only [hashStep, toInt32]
  omega

theorem hashLoop_eq_specHash (url : String) : hashLoop url = specHash url := by
  unfold hashLoop specHash
  have : hashStep = fun (h : Int) (unit : Nat) => toInt32 (31 * h + (unit : Int)) := by
    funext h c
    exact hashStep_eq h c
  rw [this]

theorem foldl_toInt32_range (units : List Nat) :
    ∀ init : Int, -2147483648 ≤ init ∧ init < 2147483648 →
      -2147483648 ≤ units.foldl (fun (h : Int) (unit : Nat) => toInt32 (31 * h + (unit : Int))) init ∧
      units.foldl (fun (h : Int) (unit : Nat) => toInt32 (31 * h + (unit : Int))) init < 2147483648 := by
  induction units with
  | nil => intro init h; exact h
  | cons u rest ih =>
    intro init _
    rw [List.foldl_cons]
    exact ih _ (toInt32_range _)

theorem specHash_range (url : String) :
    -2147483648 ≤ specHash url ∧ specHash url < 2147483648 :=
  foldl_toInt32_range _ 0 (by omega)

theorem digit36_spec : ∀ d, d < 36 →
    digitValue36 (digit36 d) = d ∧ isDigit36 (digit36 d) = true ∧ digit36 d ≠ '-' := by
  decide

theorem toDigits36_spec : ∀ (fuel n : Nat) (ds : List Char), n < fuel →
    ∃ front : List Char, toDigits36 fuel n ds = front ++ ds ∧ front ≠ [] ∧
      fromDigits36 front = n ∧ ∀ c ∈ front, isDigit36 c = true ∧ c ≠ '-' := by
  intro fuel
  induction fuel with
  | zero => intro n ds h; omega
  | succ fuel ih =>
    intro n ds hn
    have hd := digit36_spec (n % 36) (Nat.mod_lt _ (by omega))
    unfold toDigits36
    by_cases h0 : n / 36 = 0
    · simp only [h0, if_true]
      refine ⟨[digit36 (n % 36)], rfl, by simp, ?_, ?_⟩
      · unfold fromDigits36
        simp only [List.foldl_cons, List.foldl_nil, hd.1]
        omega
      · intro c hc
        rw [List.mem_singleton] at hc
        rw [hc]
        exact hd.2
    · simp only [h0, if_false]
      have hlt : n / 36 < fuel := by omega
      obtain ⟨front, he, _, hv, hall⟩ := ih (n / 36) (digit36 (n % 36) :: ds) hlt
      refine ⟨front ++ [digit36 (n % 36)], ?_, by simp, ?_, ?_⟩
      · rw [he]; simp
      · unfold fromDigits36 at hv ⊢
        rw [List.foldl_append, hv]
        simp only [List.foldl_cons, List.foldl_nil, hd.1]
        omega
      · intro c hc
        rw [List.mem_append, List.mem_singleton] at hc
        rcases hc with hc | hc
        · exact hall c hc
        · rw [hc]; exact hd.2

theorem toString36_spec (n : Nat) :
    (toString36 n).data ≠ [] ∧ fromDigits36 (toString36 n).data = n ∧
      ∀ c ∈ (toString36 n).data, isDigit36 c = true ∧ c ≠ '-' := by
  obtain ⟨front, he, hne, hv, hall⟩ := toDigits36_spec (n + 1) n [] (by omega)
  unfold toString36
  rw [he, List.append_nil]
  exact ⟨hne, hv, hall⟩

/-- C26: `hashUrl` depends on the URL alone and is the rendering in base 36 of the
absolute value of `h`, where `h` is folded from 0 over the UTF-16 code units of the URL
by `h := (31 * h + code unit)` wrapped to a signed 32-bit integer (the wrapped value
lies in the signed 32-bit range and differs from its argument by a multiple of 2^32).
The rendered number lies in 0..2^31, the result is a non-empty sequence of the digits
`0`-`9` and `a`-`z` that denotes it, and it holds no sign. -/
theorem hashUrl_spec (url : String) :
    hashUrl url = toString36 (specHash url).natAbs ∧
    (∀ x : Int, (-2147483648 ≤ toInt32 x ∧ toInt32 x < 2147483648) ∧
      ∃ k : Int, toInt32 x = x + k * 4294967296) ∧
    (specHash url).natAbs ≤ 2147483648 ∧
    (hashUrl url).data ≠ [] ∧
    fromDigits36 (hashUrl url).data = (specHash url).natAbs ∧
    ∀ c ∈ (hashUrl url).data, isDigit36 c = true ∧ c ≠ '-' := by
  have he : hashUrl url = toString36 (specHash url).natAbs := by
    unfold hashUrl
    rw [hashLoop_eq_specHash]
  have hr := specHash_range url
  refine ⟨he, fun x => ⟨toInt32_range x, toInt32_congr x⟩, by omega, ?_, ?_, ?_⟩
  · rw [he]; exact (toString36_spec _).1
  · rw [he]; exact (toString36_spec _).2.1
  · rw [he]; exact (toString36_spec _).2.2

end CacheHandler

/-! ## The pattern cache is keyed by pattern and case flag -/

namespace ScanEngine

open Js

/-- C27: in a cache state reached through earlier calls of `matchText`, the entry found
under the key of a pattern and a case flag is the expression compiled from that pattern
with that flag, so a call in regular expression mode returns what it returns with an
empty cache and leaves a cache of the same kind; and the keys of two different pairs of
pattern and case flag differ, so two such calls never use the same entry. -/
theorem matchText_cache_keyed (H : Runtime) (cache : PatternCache) (hr : Reachable H cache)
    (pattern text : String) (caseSensitive wholeWord : Option Bool) :
    (∀ regex, cache.lookup (cacheKey pattern caseSensitive) = some regex →
      RegExp.compile H pattern (!truthy caseSensitive) = some regex) ∧
    (matchText H cache (some pattern) text (some true) caseSensitive wholeWord).1 =
      (matchText H [] (some pattern) text (some true) caseSensitive wholeWord).1 ∧
    Reachable H (matchText H cache (some pattern) text (some true) caseSensitive wholeWord).2 ∧
    (∀ (regex : RegExp), pattern.data ≠ [] → text.data ≠ [] →
      RegExp.compile H pattern (!truthy caseSensitive) = some regex →
      (matchText H cache (some pattern) text (some true) caseSensitive wholeWord).2.lookup
        (cacheKey pattern caseSensitive) = some regex) ∧
    (∀ (other : String) (otherFlag : Option Bool),
      (other, otherFlag) ≠ (pattern, caseSensitive) →
      cacheKey other otherFlag ≠ cacheKey pattern caseSensitive) := by
  have hc := hr.coherent
  refine ⟨fun regex h => hc pattern caseSensitive regex h,
    (matchText_coherent H cache (some pattern) text (some true) caseSensitive wholeWord hc).1,
    Reachable.call cache (some pattern) text (some true) caseSensitive wholeWord hr, ?_, ?_⟩
  · intro regex hp ht hcomp
    have h1 : strTruthy (some pattern) = true := by
      cases hd : pattern.data with
      | nil => exact absurd hd hp
      | cons c cs => simp [strTruthy, hd]
    have h2 : text.data.isEmpty = false := by
      cases hd : text.data with
      | nil => exact absurd hd ht
      | cons c cs => rfl
    have h3 : truthy (some true) = true := rfl
    unfold matchText
    simp only [h1, h2, h3, Bool.not_true, Bool.or_false, Bool.false_eq_true, if_false,
      if_true, Option.getD]
    cases hl : cache.lookup (cacheKey pattern caseSensitive) with
    | some r =>
      simp only []
      have := hc pattern caseSensitive r hl
      rw [hcomp] at this
      rw [hl, this]
    | none =>
      simp only [hcomp, List.lookup_cons, beq_self_eq_true]
  · intro other otherFlag hne heq
    have := cacheKey_inj other pattern otherFlag caseSensitive heq
    exact hne (by rw [this.1, this.2])

/-- C27, applied to the cache left by a call with the pattern `bot`: the call with the
same pattern and flag returns what it returns with an empty cache. -/
theorem matchText_cache_keyed_witness :
    Example.warmCache ≠ [] ∧
    (matchText asciiRuntime Example.warmCache (some "bot") "a bot" (some true) none none).1 =
      (matchText asciiRuntime [] (some "bot") "a bot" (some true) none none).1 :=
  ⟨by decide,
    (matchText_cache_keyed asciiRuntime Example.warmCache
      (Reachable.call [] (some "bot") "robot" (some true) none none Reachable.empty)
      "bot" "a bot" none none).2.1⟩

end ScanEngine

/-! ## Rule loader: loading one definition -/

namespace Js

theorem lookup_objReplace_same {α : Type} (obj : List (String × α)) (key : String) (value : α)
    (h : (obj.lookup key).isSome = true) : (objReplace obj key value).lookup key = some value := by
  induction obj with
  | nil => simp at h
  | cons e rest ih =>
    obtain ⟨k, v⟩ := e
    unfold objReplace
    by_cases hk : k = key
    · simp [hk, List.lookup_cons]
    · have hb : (key == k) = false := by
        rw [beq_eq_false_iff_ne]; exact fun e => hk e.symm
      rw [List.lookup_cons, hb] at h
      simp only [hk, if_false, List.lookup_cons, hb]
      exact ih h

theorem lookup_objReplace_other {α : Type} (obj : List (String × α)) (key other : String)
    (value : α) (hne : other ≠ key) :
    (objReplace obj key value).lookup other = obj.lookup other := by
  have hb : (other == key) = false := by
    rw [beq_eq_false_iff_ne]; exact hne
  induction obj with
  | nil => rfl
  | cons e rest ih =>
    obtain ⟨k, v⟩ := e
    unfold objReplace
    by_cases h : k = key
    · simp only [h, if_true, List.lookup_cons, hb]
    · simp only [h, if_false, List.lookup_cons, ih]

theorem objReplace_self {α : Type} (obj : List (String × α)) (key : String) (value : α)
    (h : obj.lookup key = some value) : objReplace obj key value = obj := by
  induction obj with
  | nil => rfl
  | cons e rest ih =>
    obtain ⟨k, v⟩ := e
    unfold objReplace
    by_cases hk : k = key
    · have hb : (key == k) = true := by rw [hk]; exact beq_self_eq_true _
      rw [List.lookup_cons, hb] at h
      have hv : v = value := Option.some.inj h
      simp only [hk, if_true, hv]
    · have hb : (key == k) = false := by
        rw [beq_eq_false_iff_ne]; exact fun e => hk e.symm
      rw [List.lookup_cons, hb] at h
      simp only [hk, if_false, ih h]

theorem lookup_objInsert_same {α : Type} (n : Nat) (obj : List (String × α)) (key : String)
    (value : α) (h : obj.lookup key = none) :
    (objInsert n key value obj).lookup key = some value := by
  induction obj with
  | nil => simp [objInsert, List.lookup_cons]
  | cons e rest ih =>
    obtain ⟨k, v⟩ := e
    have hk : (key == k) = false := by
      cases hb : key == k with
      | false => rfl
      | true => rw [List.lookup_cons, hb] at h; exact absurd h (by simp)
    rw [List.lookup_cons, hk] at h
    unfold objInsert
    cases arrayIndex k with
    | none => simp [List.lookup_cons]
    | some m =>
      simp only []
      by_cases hm : m < n
      · simp only [hm, if_true, List.lookup_cons, hk]
        exact ih h
      · simp [hm, List.lookup_cons]

theorem lookup_objInsert_other {α : Type} (n : Nat) (obj : List (String × α))
    (key other : String) (value : α) (hne : other ≠ key) :
    (objInsert n key value obj).lookup other = obj.lookup other := by
  have hb : (other == key) = false := by
    rw [beq_eq_false_iff_ne]; exact hne
  induction obj with
  | nil => simp [objInsert, List.lookup_cons, hb]
  | cons e rest ih =>
    obtain ⟨k, v⟩ := e
    unfold objInsert
    cases arrayIndex k with
    | none => simp only [List.lookup_cons, hb]
    | some m =>
      simp only []
      by_cases hm : m < n
      · simp only [hm, if_true, List.lookup_cons, ih]
      · simp only [hm, if_false, List.lookup_cons, hb]

theorem lookup_append_same {α : Type} (obj : List (String × α)) (key : String) (value : α)
    (h : obj.lookup key = none) : (obj ++ [(key, value)]).lookup key = some value := by
  induction obj with
  | nil => simp [List.lookup_cons]
  | cons e rest ih =>
    obtain ⟨k, v⟩ := e
    have hk : (key == k) = false := by
      cases hb : key == k with
      | false => rfl
      | true => rw [List.lookup_cons, hb] at h; exact absurd h (by simp)
    rw [List.lookup_cons, hk] at h
    rw [List.cons_append, List.lookup_cons, hk]
    exact ih h

theorem lookup_append_other {α : Type} (obj : List (String × α)) (key other : String)
    (value : α) (hne : other ≠ key) :
    (obj ++ [(key, value)]).lookup other = obj.lookup other := by
  have hb : (other == key) = false := by
    rw [beq_eq_false_iff_ne]; exact hne
  induction obj with
  | nil => simp [List.lookup_cons, hb]
  | cons e rest ih =>
    obtain ⟨k, v⟩ := e
    rw [List.cons_append, List.lookup_cons, List.lookup_cons, ih]

theorem lookup_objSet_same {α : Type} (obj : List (String × α)) (key : String) (value : α)
    (hp : key ≠ "__proto__") : (objSet obj key value).lookup key = some value := by
  unfold objSet
  rw [if_neg hp]
  by_cases hs : (obj.lookup key).isSome = true
  · rw [if_pos hs]
    exact lookup_objReplace_same obj key value hs
  · rw [if_neg hs]
    have hn : obj.lookup key = none := by
      cases h : obj.lookup key with
      | none => rfl
      | some v => rw [h] at hs; exact absurd rfl hs
    cases arrayIndex key with
    | none => exact lookup_append_same obj key value hn
    | some n => exact lookup_objInsert_same n obj key value hn

theorem lookup_objSet_other {α : Type} (obj : List (String × α)) (key other : String)
    (value : α) (hne : other ≠ key) :
    (objSet obj key value).lookup other = obj.lookup other := by
  unfold objSet
  by_cases hp : key = "__proto__"
  · rw [if_pos hp]
  · rw [if_neg hp]
    by_cases hs : (obj.lookup key).isSome = true
    · rw [if_pos hs]
      exact lookup_objReplace_other obj key other value hne
    · rw [if_neg hs]
      cases arrayIndex key with
      | none => exact lookup_append_other obj key other value hne
      | some n => exact lookup_objInsert_other n obj key other value hne

theorem strTruthy_iff (x : Option String) :
    strTruthy x = true ↔ ∃ s, x = some s ∧ s.data ≠ [] := by
  cases x with
  | none => simp [strTruthy]
  | some s =>
    cases hd : s.data with
    | nil => simp [strTruthy, hd]
    | cons c cs => simp [strTruthy, hd]

end Js

namespace RuleLoader

open Js

theorem transformWith_id (icon : String) (raw : RawDetector) (det : Detector)
    (h : transformWith icon (some raw) = some det) :
    ∃ sec, raw.detector = some sec ∧ det.id = sec.id ∧ det.confidence = some 80 := by
  cases hs : raw.detector with
  | none => simp [transformWith, hs] at h
  | some sec =>
    simp only [transformWith, hs, Option.some.injEq] at h
    exact ⟨sec, rfl, by rw [← h], by rw [← h]⟩

theorem loadDetector_invalid (detectors : Option Catalog) (category : String)
    (retrieved : Option (Option RawDetector)) (h : hasId retrieved = false) :
    loadDetector detectors category retrieved =
      (detectors, if retrieved = none then LoadEffect.warned else LoadEffect.quiet) := by
  unfold loadDetector
  cases retrieved with
  | none => rfl
  | some rawDetector =>
    cases rawDetector with
    | none => rfl
    | some raw =>
      cases hs : raw.detector with
      | none => simp [transformDetector, transformWith, hs]
      | some sec =>
        have hid : strTruthy sec.id = false := by simpa [hasId, hs] using h
        simp [transformDetector, transformWith, hs, hid]

/-- The call for a definition with a detector section and a non-empty id, on an
initialised catalog. -/
theorem loadDetector_of_id (catalog : Catalog) (category : String) (raw : RawDetector)
    (sec : RawSection) (id : String) (hs : raw.detector = some sec) (hi : sec.id = some id)
    (hne : id.data ≠ []) :
    ∃ det, transformDetector (some raw) = some det ∧ det.id = some id ∧
      loadDetector (some catalog) category (some (some raw)) =
        match catalog.lookup category with
        | some entries =>
          (some (objReplace catalog category (objSet entries id det)), LoadEffect.quiet)
        | none =>
          if inheritedKeys.contains category then
            (some catalog, LoadEffect.foreignWrite category id)
          else (some (objSet catalog category (objSet [] id det)), LoadEffect.quiet) := by
  have ht : strTruthy (some id) = true := (strTruthy_iff _).2 ⟨id, rfl, hne⟩
  cases htd : transformDetector (some raw) with
  | none => simp [transformDetector, transformWith, hs] at htd
  | some det =>
    obtain ⟨sec', hs', hid, _⟩ := transformWith_id _ raw det htd
    rw [hs] at hs'
    have hsec : sec' = sec := (Option.some.inj hs').symm
    rw [hsec, hi] at hid
    refine ⟨det, rfl, hid, ?_⟩
    unfold loadDetector
    simp only [htd, hid, ht, if_true, Option.getD]

theorem find_after_store (catalog : Catalog) (category id : String) (det : Detector)
    (hp : id ≠ "__proto__")
    (hc : (catalog.lookup category).isSome = true ∨ inheritedKeys.contains category = false) :
    ∃ catalog' : Catalog,
      (match catalog.lookup category with
        | some entries =>
          (some (objReplace catalog category (objSet entries id det)), LoadEffect.quiet)
        | none =>
          if inheritedKeys.contains category then
            (some catalog, LoadEffect.foreignWrite category id)
          else (some (objSet catalog category (objSet [] id det)), LoadEffect.quiet)) =
        (some catalog', LoadEffect.quiet) ∧
      catalog'.find category id = some det ∧
      ∀ category' key, (category', key) ≠ (category, id) →
        catalog'.find category' key = catalog.find category' key := by
  cases hl : catalog.lookup category with
  | some entries =>
    refine ⟨objReplace catalog category (objSet entries id det), rfl, ?_, ?_⟩
    · unfold Catalog.find
      rw [lookup_objReplace_same _ _ _ (by rw [hl]; rfl)]
      exact lookup_objSet_same _ _ _ hp
    · intro category' key hk
      unfold Catalog.find
      by_cases hcat : category' = category
      · subst hcat
        have hkey : key ≠ id := fun e => hk (by rw [e])
        rw [lookup_objReplace_same _ _ _ (by rw [hl]; rfl), hl]
        exact lookup_objSet_other _ _ _ _ hkey
      · rw [lookup_objReplace_other _ _ _ _ hcat]
  | none =>
    have hin : inheritedKeys.contains category = false := by
      rcases hc with hc | hc
      · rw [hl] at hc; exact absurd hc (by simp)
      · exact hc
    have hcp : category ≠ "__proto__" := by
      intro e
      rw [e] at hin
      exact absurd hin (by decide)
    refine ⟨objSet catalog category (objSet [] id det), by simp only [hin]; rfl, ?_, ?_⟩
    · unfold Catalog.find
      rw [lookup_objSet_same _ _ _ hcp]
      exact lookup_objSet_same _ _ _ hp
    · intro category' key hk
      unfold Catalog.find
      by_cases hcat : category' = category
      · subst hcat
        have hkey : key ≠ id := fun e => hk (by rw [e])
        rw [lookup_objSet_same _ _ _ hcp, hl]
        exact lookup_objSet_other _ _ _ _ hkey
      · rw [lookup_objSet_other _ _ _ _ hcat]

theorem find_after_skip (catalog : Catalog) (category id : String) (det : Detector)
    (h : id = "__proto__" ∨
      (catalog.lookup category = none ∧ inheritedKeys.contains category = true)) :
    ∃ (catalog' : Catalog) (effect : LoadEffect),
      (match catalog.lookup category with
        | some entries =>
          (some (objReplace catalog category (objSet entries id det)), LoadEffect.quiet)
        | none =>
          if inheritedKeys.contains category then
            (some catalog, LoadEffect.foreignWrite category id)
          else (some (objSet catalog category (objSet [] id det)), LoadEffect.quiet)) =
        (some catalog', effect) ∧
      ∀ category' key, catalog'.find category' key = catalog.find category' key := by
  cases hl : catalog.lookup category with
  | some entries =>
    rcases h with h | ⟨h, _⟩
    · refine ⟨objReplace catalog category (objSet entries id det), LoadEffect.quiet, rfl, ?_⟩
      have : objSet entries id det = entries := by
        unfold objSet
        rw [if_pos h]
      rw [this, objReplace_self catalog category entries hl]
      intro _ _
      rfl
    · rw [hl] at h
      exact absurd h (by simp)
  | none =>
    by_cases hin : inheritedKeys.contains category = true
    · exact ⟨catalog, LoadEffect.foreignWrite category id, by simp only [hin]; rfl,
        fun _ _ => rfl⟩
    · rcases h with h | ⟨_, h⟩
      · have hcp : category ≠ "__proto__" := by
          intro e
          rw [e] at hin
          exact hin (by decide)
        refine ⟨objSet catalog category (objSet [] id det), LoadEffect.quiet,
          by simp only [hin]; rfl, ?_⟩
        intro category' key
        unfold Catalog.find
        by_cases hcat : category' = category
        · subst hcat
          have : objSet ([] : List (String × Detector)) id det = [] := by
            unfold objSet
            rw [if_pos h]
          rw [lookup_objSet_same _ _ _ hcp, hl, this]
          rfl
        · rw [lookup_objSet_other _ _ _ _ hcat]
      · exact absurd h hin

/-- C24 (as stated, refuted): on the initialised catalog, the definition whose id is
`__proto__` has a detector section with a non-empty id, yet its load under `antibot`
leaves the catalog as it is: the assignment sets the prototype of the category object.
The definition of the example, loaded under the category `constructor`, leaves the
catalog as it is as well: the assignment goes to the constructor that the catalog
inherits under that name. -/
theorem loadDetector_special_keys :
    hasId (some (some Example.rawProto)) = true ∧
    loadDetector (some Example.emptyCatalog) "antibot" (some (some Example.rawProto)) =
      (some Example.emptyCatalog, LoadEffect.quiet) ∧
    Example.emptyCatalog.find "antibot" "__proto__" = none ∧
    hasId (some (some Example.rawCloudflare)) = true ∧
    loadDetector (some Example.emptyCatalog) "constructor" (some (some Example.rawCloudflare)) =
      (some Example.emptyCatalog, LoadEffect.foreignWrite "constructor" "cloudflare") ∧
    Example.emptyCatalog.find "constructor" "cloudflare" = none :=
  ⟨rfl, by decide, rfl, rfl, by decide, rfl⟩

/-- C24 (amended): on an initialised catalog, for a definition that has a detector
section with a non-empty id, `loadDetector` adds the transformed detector under the
category and the id, and keeps every other entry, when the id is not `__proto__` and
the category is a category of the catalog or is not the name of a property inherited
from `Object.prototype`; when the id is `__proto__`, or the category is such a name and
no category of the catalog, no entry is added and every entry is kept. When the
definition is absent, has no detector section or no id, or when the retrieval or the
parsing fails, the catalog is returned unchanged, with a warning for a failure only.
Before the catalog is initialised nothing is added. In no case does an exception leave
the call: the function is total. -/
theorem loadDetector_adds_iff_storable (catalog : Catalog) (category : String)
    (retrieved : Option (Option RawDetector)) :
    (∀ raw sec id, retrieved = some (some raw) → raw.detector = some sec →
      sec.id = some id → id.data ≠ [] → id ≠ "__proto__" →
      ((catalog.lookup category).isSome = true ∨ inheritedKeys.contains category = false) →
      ∃ (det : Detector) (catalog' : Catalog), transformDetector (some raw) = some det ∧ det.id = some id ∧
        loadDetector (some catalog) category retrieved = (some catalog', LoadEffect.quiet) ∧
        catalog'.find category id = some det ∧
        ∀ category' key, (category', key) ≠ (category, id) →
          catalog'.find category' key = catalog.find category' key) ∧
    (∀ raw sec id, retrieved = some (some raw) → raw.detector = some sec →
      sec.id = some id → id.data ≠ [] →
      (id = "__proto__" ∨
        (catalog.lookup category = none ∧ inheritedKeys.contains category = true)) →
      ∃ (catalog' : Catalog) (effect : LoadEffect),
        loadDetector (some catalog) category retrieved = (some catalog', effect) ∧
        ∀ category' key, catalog'.find category' key = catalog.find category' key) ∧
    (hasId retrieved = true ↔
      ∃ raw sec id, retrieved = some (some raw) ∧ raw.detector = some sec ∧
        sec.id = some id ∧ id.data ≠ []) ∧
    (hasId retrieved = false →
      loadDetector (some catalog) category retrieved =
        (some catalog, if retrieved = none then LoadEffect.warned else LoadEffect.quiet)) ∧
    (loadDetector none category retrieved).1 = none := by
  refine ⟨?_, ?_, ?_, loadDetector_invalid _ _ _, ?_⟩
  · intro raw sec id hr hs hi hne hp hc
    obtain ⟨det, ht, hid, hload⟩ := loadDetector_of_id catalog category raw sec id hs hi hne
    obtain ⟨catalog', he, hf, hframe⟩ := find_after_store catalog category id det hp hc
    exact ⟨det, catalog', ht, hid, by rw [hr, hload, he], hf, hframe⟩
  · intro raw sec id hr hs hi hne h
    obtain ⟨det, _, _, hload⟩ := loadDetector_of_id catalog category raw sec id hs hi hne
    obtain ⟨catalog', effect, he, hframe⟩ := find_after_skip catalog category id det h
    exact ⟨catalog', effect, by rw [hr, hload, he], hframe⟩
  · constructor
    · intro h
      cases retrieved with
      | none => simp [hasId] at h
      | some rawDetector =>
        cases rawDetector with
        | none => simp [hasId] at h
        | some raw =>
          cases hs : raw.detector with
          | none => simp [hasId, hs] at h
          | some sec =>
            have h2 : strTruthy sec.id = true := by simpa [hasId, hs] using h
            obtain ⟨id, hi, hne⟩ := (strTruthy_iff _).1 h2
            exact ⟨raw, sec, id, rfl, hs, hi, hne⟩
    · rintro ⟨raw, sec, id, hr, hs, hi, hne⟩
      rw [hr]
      simp only [hasId, hs, hi]
      exact (strTruthy_iff _).2 ⟨id, rfl, hne⟩
  · unfold loadDetector
    cases retrieved with
    | none => rfl
    | some rawDetector =>
      simp only []
      cases transformDetector rawDetector with
      | none => rfl
      | some det =>
        simp only []
        split <;> rfl

/-- C24 (amended), applied to the initialised catalog and the definition of the
example: the load under `antibot` adds the transformed detector under `cloudflare`. -/
theorem loadDetector_adds_iff_storable_witness :
    ∃ (det : Detector) (catalog' : Catalog), transformDetector (some Example.rawCloudflare) = some det ∧
      det.id = some "cloudflare" ∧
      loadDetector (some Example.emptyCatalog) "antibot" (some (some Example.rawCloudflare)) =
        (some catalog', LoadEffect.quiet) ∧
      catalog'.find "antibot" "cloudflare" = some det ∧
      ∀ category' key, (category', key) ≠ ("antibot", "cloudflare") →
        catalog'.find category' key = Example.emptyCatalog.find category' key :=
  (loadDetector_adds_iff_storable Example.emptyCatalog "antibot"
    (some (some Example.rawCloudflare))).1 Example.rawCloudflare
    { id := some "cloudflare", label := some "Cloudflare", type := some "antibot" }
    "cloudflare" rfl rfl rfl (by decide) (by decide) (Or.inl (by decide))

end RuleLoader

/-! ## Results of transformed detectors -/

namespace ScoreCalculator

theorem calculateConfidence_base80 (ms : List MatchRecord) (hne : ms ≠ []) :
    82 ≤ calculateConfidence (some ms) (some 80) := by
  have hlen : ms.length ≠ 0 := fun h => hne (List.length_eq_zero.1 h)
  have hge := foldl_confidenceStep_ge ms 80
  have hpos : (1 : Int) ≤ (ms.length : Int) := by omega
  simp only [calculateConfidence, hlen, if_false, Option.getD]
  apply le_min
  · have : (2 : Int) ≤ min ((ms.length : Int) * 2) 15 := by
      apply le_min <;> omega
    omega
  · decide

end ScoreCalculator

namespace ScanEngine

open Js

theorem transformed_base (raw : RawDetector) (det : Detector)
    (h : RuleLoader.transformDetector (some raw) = some det ∨
      Background.transformDetector (some raw) = some det) :
    det.confidence = some 80 := by
  rcases h with h | h
  · obtain ⟨_, _, _, hc⟩ := RuleLoader.transformWith_id _ raw det h
    exact hc
  · obtain ⟨_, _, _, hc⟩ := RuleLoader.transformWith_id _ raw det h
    exact hc

theorem pushedFor_base80 (H : Runtime) (pageData : PageData) (entry : String × Detector)
    (r : DetectionResult) (hb : entry.2.confidence = some 80)
    (hp : PushedFor H pageData entry r) :
    r.matchList ≠ [] ∧ 82 ≤ r.confidence ∧ r.confidence ≤ 100 ∧
      ScoreCalculator.getConfidenceLevel r.confidence = "high" := by
  obtain ⟨c, _, hne, _, hm, hconf⟩ := hp
  have h82 := ScoreCalculator.calculateConfidence_base80 _ hne
  have hle := ScoreCalculator.calculateConfidence_le
    (some (checkDetector H entry.2 pageData c).1) entry.2.confidence
  rw [hb] at hconf hle
  rw [← hconf] at h82 hle
  refine ⟨by rw [hm]; exact hne, h82, hle, ?_⟩
  exact (ScoreCalculator.getConfidenceLevel_high_iff _).2 (by omega)

/-- C30: a detector made by `transformDetector` (of the rule loader or of the
coordinator) from a raw definition has the base confidence 80, whatever the scores of
its patterns. Every result that `detectOnPage` reports for it has at least one match
and a confidence from 82 to 100, so its level is `high`; when the whole catalog is made
of transformed detectors this holds for every result. -/
theorem detectOnPage_transformed_high (H : Runtime) (pageData : PageData) (detectors : Catalog)
    (cache : PatternCache) (category : String) (raw : RawDetector) (det : Detector)
    (ht : RuleLoader.transformDetector (some raw) = some det ∨
      Background.transformDetector (some raw) = some det) :
    det.confidence = some 80 ∧
    (∀ r ∈ (detectOnPage H (some pageData) (some detectors) cache).1,
      PushedFor H pageData (category, det) r →
      r.matchList ≠ [] ∧ 82 ≤ r.confidence ∧ r.confidence ≤ 100 ∧
        ScoreCalculator.getConfidenceLevel r.confidence = "high") ∧
    ((∀ e ∈ detectors.enumerate, ∃ raw',
        RuleLoader.transformDetector (some raw') = some e.2 ∨
        Background.transformDetector (some raw') = some e.2) →
      ∀ r ∈ (detectOnPage H (some pageData) (some detectors) cache).1,
        r.matchList ≠ [] ∧ 82 ≤ r.confidence ∧ r.confidence ≤ 100 ∧
          ScoreCalculator.getConfidenceLevel r.confidence = "high") := by
  refine ⟨transformed_base raw det ht, ?_, ?_⟩
  · intro r _ hp
    exact pushedFor_base80 H pageData (category, det) r (transformed_base raw det ht) hp
  · intro hall r hr
    simp only [detectOnPage] at hr
    have hr2 := (perm_sortByConfidence _).mem_iff.1 hr
    rcases detectLoop_mem H pageData _ cache [] r hr2 with h | ⟨e, he, hp⟩
    · simp at h
    · obtain ⟨raw', ht'⟩ := hall e he
      exact pushedFor_base80 H pageData e r (transformed_base raw' e.2 ht') hp

/-- C30, applied to the loaded detector of the example and a page with its cookie: the
one result has the confidence 92 and every result is at least 82. -/
theorem detectOnPage_transformed_high_witness :
    ((detectOnPage asciiRuntime (some Example.cfPage) (some Example.loadedCatalog) []).1.map
      fun r => r.confidence) = [92] ∧
    ∀ r ∈ (detectOnPage asciiRuntime (some Example.cfPage) (some Example.loadedCatalog) []).1,
      r.matchList ≠ [] ∧ 82 ≤ r.confidence ∧ r.confidence ≤ 100 ∧
        ScoreCalculator.getConfidenceLevel r.confidence = "high" :=
  ⟨by decide,
    (detectOnPage_transformed_high asciiRuntime Example.cfPage Example.loadedCatalog []
      "antibot" Example.rawCloudflare Example.loadedCloudflare (Or.inl rfl)).2.2
      (by
        intro e he
        have : e = ("antibot", Example.loadedCloudflare) := by
          simpa [Example.loadedCatalog, Catalog.enumerate] using he
        rw [this]
        exact ⟨Example.rawCloudflare, Or.inl rfl⟩)⟩

end ScanEngine

/-! ## The detection pass of the coordinator agrees with the scan engine -/

namespace Background

open Js

theorem checkDetector_blocks (H : Runtime) (detector : Detector) (pageData : PageData) :
    checkDetector H detector pageData =
      jsHookBlock (detector.detection.getD {}) pageData
        (windowBlock (detector.detection.getD {}) pageData
          (domBlock (detector.detection.getD {}) pageData
            (contentBlock H (detector.detection.getD {}) pageData
              (urlBlock H (detector.detection.getD {}) pageData
                (cookieBlock H (detector.detection.getD {}) pageData []))))) := rfl

end Background

namespace ScanEngine

open Js

theorem matchText_eq_background (H : Runtime) (pattern : Option String) (text : String)
    (isRegex caseSensitive wholeWord : Option Bool) (hw : truthy wholeWord = false) :
    (matchText H [] pattern text isRegex caseSensitive wholeWord).1 =
      Background.matchText H pattern text isRegex caseSensitive := by
  unfold matchText Background.matchText
  by_cases hg : (!strTruthy pattern || text.data.isEmpty) = true
  · simp only [hg, if_true]
  · simp only [hg, if_false]
    by_cases hr : truthy isRegex = true
    · simp only [hr, if_true, List.lookup_nil]
      cases RegExp.compile H (pattern.getD "") (!truthy caseSensitive) <;> rfl
    · simp only [hr, if_false, hw, Bool.false_eq_true]
      by_cases hcs : truthy caseSensitive = true
      · simp only [hcs, if_true]
      · simp only [hcs, Bool.false_eq_true, if_false]

theorem checkCookieRule_eq_background (H : Runtime) (rule : CookieRule) (cookies : List Cookie)
    (hn : truthy rule.nameWholeWord = false) (hv : truthy rule.valueWholeWord = false) :
    (checkCookieRule H rule cookies []).1 = Background.checkCookieRule H rule cookies := by
  rw [checkCookieRule_eq_decision H rule cookies [] Reachable.empty, bg_checkCookieRule_eq]
  have hf : nameMatches H rule = fun cookie =>
      Background.matchText H rule.name cookie.name rule.nameRegex rule.nameCaseSensitive := by
    funext cookie
    exact matchText_eq_background H _ _ _ _ _ hn
  unfold cookieDecision
  rw [hf]
  cases List.find? (fun cookie =>
      Background.matchText H rule.name cookie.name rule.nameRegex rule.nameCaseSensitive)
      cookies with
  | none => rfl
  | some cookie =>
    simp only [valueMatches, matchText_eq_background H _ _ _ _ _ hv]

theorem textMatches_eq_background (H : Runtime) (rule : TextRule) (text : String)
    (hw : truthy rule.textWholeWord = false) :
    textMatches H rule (some text) =
      Background.matchText H rule.text text rule.textRegex rule.textCaseSensitive := by
  unfold textMatches checkTextRule
  by_cases hg : (!strTruthy (some text) || !strTruthy rule.text) = true
  · simp only [hg, if_true]
    unfold Background.matchText
    have : (!strTruthy rule.text || text.data.isEmpty) = true := by
      cases ht : strTruthy rule.text with
      | false => rfl
      | true =>
        rw [ht] at hg
        simp only [Bool.not_true, Bool.or_false, Bool.not_eq_true', strTruthy,
          Bool.not_eq_false'] at hg
        simp [hg]
    simp only [this, if_true]
  · simp only [hg, if_false, Option.getD]
    exact matchText_eq_background H _ _ _ _ _ hw

end ScanEngine

namespace Background

open Js ScanEngine

theorem cookieBlock_eq (H : Runtime) (d : Detection) (pageData : PageData)
    (acc : List MatchRecord) (hd : d.NoWholeWord) :
    cookieBlock H d pageData acc = acc ++ cookieMatches H d pageData := by
  unfold cookieBlock cookieMatches pushMatches
  cases hc : d.cookie with
  | none => simp
  | some rules =>
    cases hk : pageData.cookies with
    | none => simp
    | some cookies =>
      simp only []
      have hf : rules.filter (fun rule => checkCookieRule H rule cookies) =
          rules.filter (fun rule => (ScanEngine.checkCookieRule H rule cookies []).1) := by
        apply List.filter_congr
        intro rule hr
        have := hd.1 rules hc rule hr
        exact (checkCookieRule_eq_background H rule cookies this.1 this.2).symm
      rw [hf]

theorem urlBlock_eq (H : Runtime) (d : Detection) (pageData : PageData)
    (acc : List MatchRecord) (hd : d.NoWholeWord) :
    urlBlock H d pageData acc = acc ++ urlMatches H d pageData := by
  unfold urlBlock urlMatches pushMatches
  cases hc : d.url with
  | none => simp
  | some rules =>
    cases hk : pageData.scripts with
    | none => simp
    | some scripts =>
      simp only []
      have hf : rules.filter (fun rule => scripts.any fun script =>
            matchText H rule.text script rule.textRegex rule.textCaseSensitive) =
          rules.filter (fun rule => scripts.any fun script =>
            textMatches H rule (some script)) := by
        apply List.filter_congr
        intro rule hr
        have hw := hd.2.1 rules hc rule hr
        have : (fun script => textMatches H rule (some script)) = fun script =>
            matchText H rule.text script rule.textRegex rule.textCaseSensitive := by
          funext script
          exact textMatches_eq_background H rule script hw
        rw [this]
      rw [hf]

theorem contentBlock_eq (H : Runtime) (d : Detection) (pageData : PageData)
    (acc : List MatchRecord) (hd : d.NoWholeWord) :
    contentBlock H d pageData acc = acc ++ contentMatches H d pageData := by
  unfold contentBlock contentMatches pushMatches
  cases hc : d.content with
  | none => simp
  | some rules =>
    simp only []
    by_cases hh : strTruthy pageData.html = true
    · simp only [hh, if_true]
      obtain ⟨s, hs, _⟩ := (strTruthy_iff _).1 hh
      have hf : rules.filter (fun rule => matchText H rule.text (pageData.html.getD "")
            rule.textRegex rule.textCaseSensitive) =
          rules.filter (fun rule => textMatches H rule pageData.html) := by
        apply List.filter_congr
        intro rule hr
        have hw := hd.2.2 rules hc rule hr
        rw [hs]
        exact (textMatches_eq_background H rule s hw).symm
      rw [hf]
    · simp only [hh, if_false, List.append_nil, Bool.false_eq_true]

theorem contains_empty_false (l : List String) (s : String) (hl : "" ∉ l)
    (hs : s.data.isEmpty = true) : l.contains s = false := by
  have : s = "" := by
    apply String.ext
    cases hd : s.data with
    | nil => rfl
    | cons c cs => rw [hd] at hs; exact absurd hs (by simp)
  rw [this]
  cases h : l.contains "" with
  | false => rfl
  | true => exact absurd (by simpa using h) hl

theorem domBlock_eq (d : Detection) (pageData : PageData) (acc : List MatchRecord)
    (hp : pageData.HitsNonEmpty) :
    domBlock d pageData acc = acc ++ domMatches d pageData := by
  unfold domBlock domMatches pushMatches
  cases hc : d.dom with
  | none => simp
  | some rules =>
    cases hk : pageData.dom with
    | none => simp
    | some dd =>
      cases hsel : dd.selectors with
      | none =>
        have hf : rules.filter (fun rule => checkDomRule rule (some dd)) = [] := by
          apply List.filter_eq_nil_iff.2
          intro rule _
          unfold checkDomRule
          cases rule.selector <;> simp [hsel]
        simp only [Option.bind, hsel, hf, List.map_nil, List.append_nil]
      | some sels =>
        have hf : rules.filter (fun rule => includesOpt sels rule.selector) =
            rules.filter (fun rule => checkDomRule rule (some dd)) := by
          apply List.filter_congr
          intro rule _
          unfold checkDomRule includesOpt
          cases hr : rule.selector with
          | none => rfl
          | some sel =>
            simp only [hsel]
            by_cases he : sel.data.isEmpty = true
            · simp only [he, if_true]
              exact contains_empty_false sels sel (hp.1 dd sels hk hsel) he
            · simp only [he, Bool.false_eq_true, if_false]
        simp only [Option.bind, hsel, hf]

theorem windowBlock_eq (d : Detection) (pageData : PageData) (acc : List MatchRecord)
    (hp : pageData.HitsNonEmpty) :
    windowBlock d pageData acc = acc ++ windowMatches d pageData := by
  unfold windowBlock windowMatches pushMatches
  cases hc : d.window with
  | none => simp
  | some rules =>
    cases hk : pageData.windowProps with
    | none => simp
    | some props =>
      have hf : rules.filter (fun rule => includesOpt props rule.path) =
          rules.filter (fun rule => checkWindowRule rule (some props)) := by
        apply List.filter_congr
        intro rule _
        unfold checkWindowRule includesOpt
        cases hr : rule.path with
        | none => rfl
        | some p =>
          simp only []
          by_cases he : p.data.isEmpty = true
          · simp only [he, if_true]
            exact contains_empty_false props p (hp.2 props hk) he
          · simp only [he, Bool.false_eq_true, if_false]
      simp only [hf]

theorem jsHookBlock_eq (d : Detection) (pageData : PageData) (acc : List MatchRecord) :
    jsHookBlock d pageData acc = acc ++ jsHookMatches d pageData := by
  unfold jsHookBlock jsHookMatches pushMatches
  cases hc : d.js_hooks with
  | none => simp
  | some rules =>
    cases hk : pageData.jsHooks with
    | none => simp
    | some hooks =>
      have hf : rules.filter (fun rule =>
            decide (rule.enabled ≠ some false) && includesOpt hooks rule.target) =
          rules.filter (fun rule => checkJsHookRule rule hooks) := by
        apply List.filter_congr
        intro rule _
        unfold checkJsHookRule includesOpt
        cases rule.target <;> rfl
      simp only [hf]

theorem checkDetector_eq_engine (H : Runtime) (detector : Detector) (pageData : PageData)
    (hd : (detector.detection.getD {}).NoWholeWord) (hp : pageData.HitsNonEmpty) :
    checkDetector H detector pageData =
      (ScanEngine.checkDetector H detector pageData []).1 := by
  rw [checkDetector_blocks, ScanEngine.checkDetector_eq H detector pageData [] Reachable.empty,
    jsHookBlock_eq, windowBlock_eq _ _ _ hp, domBlock_eq _ _ _ hp, contentBlock_eq _ _ _ _ hd,
    urlBlock_eq _ _ _ _ hd, cookieBlock_eq _ _ _ _ hd, List.nil_append]

end Background

namespace ScanEngine

open Js

theorem numOr_ne_zero (x : Option Int) (d : Int) (hd : d ≠ 0) : numOr x d ≠ 0 := by
  unfold numOr
  cases x with
  | none => exact hd
  | some v =>
    simp only []
    split
    · exact hd
    · assumption

theorem confidence_ne_zero_of_mem_map {ρ : Type} (l : List ρ) (f : ρ → MatchRecord)
    (hf : ∀ r, (f r).confidence ≠ 0) : ∀ m ∈ l.map f, m.confidence ≠ 0 := by
  intro m hm
  obtain ⟨r, _, hr⟩ := List.mem_map.1 hm
  rw [← hr]
  exact hf r

theorem checkDetector_confidence_ne_zero (H : Runtime) (detector : Detector)
    (pageData : PageData) :
    ∀ m ∈ (checkDetector H detector pageData []).1, m.confidence ≠ 0 := by
  intro m hm
  rw [checkDetector_eq H detector pageData [] Reachable.empty] at hm
  have h50 : ∀ x, numOr x 50 ≠ 0 := fun x => numOr_ne_zero x 50 (by decide)
  simp only [List.mem_append] at hm
  rcases hm with ((((hm | hm) | hm) | hm) | hm) | hm
  · unfold cookieMatches at hm
    split at hm
    · exact confidence_ne_zero_of_mem_map _ _ (fun r => h50 _) m hm
    · simp at hm
  · unfold urlMatches at hm
    split at hm
    · exact confidence_ne_zero_of_mem_map _ _ (fun r => h50 _) m hm
    · simp at hm
  · unfold contentMatches at hm
    split at hm
    · split at hm
      · exact confidence_ne_zero_of_mem_map _ _ (fun r => h50 _) m hm
      · simp at hm
    · simp at hm
  · unfold domMatches at hm
    split at hm
    · exact confidence_ne_zero_of_mem_map _ _ (fun r => h50 _) m hm
    · simp at hm
  · unfold windowMatches at hm
    split at hm
    · exact confidence_ne_zero_of_mem_map _ _ (fun r => h50 _) m hm
    · simp at hm
  · unfold jsHookMatches at hm
    split at hm
    · exact confidence_ne_zero_of_mem_map _ _ (fun r => h50 _) m hm
    · simp at hm

end ScanEngine

namespace Background

open Js ScanEngine

theorem foldl_guard_eq (ms : List MatchRecord) :
    ∀ init : Int, (∀ m ∈ ms, m.confidence ≠ 0) →
      ms.foldl (fun mx m => if m.confidence > mx then m.confidence else mx) init =
        ms.foldl ScoreCalculator.confidenceStep init := by
  induction ms with
  | nil => intro init _; rfl
  | cons m rest ih =>
    intro init h
    have hm : m.confidence ≠ 0 := h m (List.mem_cons_self _ _)
    have hstep : (if m.confidence > init then m.confidence else init) =
        ScoreCalculator.confidenceStep init m := by
      unfold ScoreCalculator.confidenceStep
      by_cases hgt : m.confidence > init
      · rw [if_pos hgt, if_pos ⟨hm, hgt⟩]
      · rw [if_neg hgt, if_neg (fun h => hgt h.2)]
    rw [List.foldl_cons, List.foldl_cons, hstep]
    exact ih _ (fun x hx => h x (List.mem_cons_of_mem _ hx))

theorem calculateConfidence_eq_engine (ms : List MatchRecord) (base : Option Int)
    (hne : ms.length > 0) (h0 : ∀ m ∈ ms, m.confidence ≠ 0) :
    calculateConfidence ms base = ScoreCalculator.calculateConfidence (some ms) base := by
  have hlen : ms.length ≠ 0 := by omega
  simp only [calculateConfidence, ScoreCalculator.calculateConfidence, hlen, if_false,
    foldl_guard_eq ms _ h0]

theorem detectorResult_eq_resultFor (H : Runtime) (pageData : PageData) (category : String)
    (detector : Detector) (hd : (detector.detection.getD {}).NoWholeWord)
    (hp : pageData.HitsNonEmpty) :
    detectorResult H pageData category detector = resultFor H pageData (category, detector) := by
  unfold detectorResult resultFor
  by_cases he : detector.enabled = some false
  · simp only [he, if_true]
  · simp only [he, if_false]
    rw [checkDetector_eq_engine H detector pageData hd hp]
    by_cases hl : (ScanEngine.checkDetector H detector pageData []).1.length > 0
    · simp only [hl, if_true]
      rw [calculateConfidence_eq_engine _ _ hl
        (checkDetector_confidence_ne_zero H detector pageData)]
    · simp only [hl, if_false]

theorem flatMap_detectorResult (H : Runtime) (pageData : PageData) (detectors : Catalog) :
    (detectors.flatMap fun entry =>
      entry.2.filterMap fun d => detectorResult H pageData entry.1 d.2) =
      detectors.enumerate.filterMap fun e => detectorResult H pageData e.1 e.2 := by
  induction detectors with
  | nil => rfl
  | cons entry rest ih =>
    have he : Catalog.enumerate (entry :: rest) =
        (entry.2.map fun d => (entry.1, d.2)) ++ Catalog.enumerate rest := by
      simp [Catalog.enumerate, List.flatMap_cons]
    rw [he, List.filterMap_append, List.flatMap_cons, ih, List.filterMap_map]
    rfl

theorem runDetection_shown (H : Runtime) (detectors : Catalog) (showSetting : Option Bool)
    (pageData : PageData) (hs : showSetting ≠ some false) :
    runDetection H true detectors showSetting (some pageData) =
      sortByConfidence (detectors.enumerate.filterMap fun e =>
        detectorResult H pageData e.1 e.2) := by
  rw [← flatMap_detectorResult]
  have hd : decide (showSetting ≠ some false) = true := by simpa using hs
  simp only [runDetection, Bool.not_true, Bool.false_eq_true, if_false, hd, and_false,
    Bool.true_eq_false]

end Background

namespace RuleLoader

open Js

theorem transformWith_noWholeWord (icon : String) (raw : RawDetector) (det : Detector)
    (h : transformWith icon (some raw) = some det) :
    (det.detection.getD {}).NoWholeWord := by
  cases hs : raw.detector with
  | none => simp [transformWith, hs] at h
  | some sec =>
    simp only [transformWith, hs, Option.some.injEq] at h
    rw [← h]
    refine ⟨?_, ?_, ?_⟩
    · intro rules hr r hmem
      simp only [Option.getD, Option.some.injEq] at hr
      rw [← hr] at hmem
      obtain ⟨p, _, hp⟩ := List.mem_map.1 hmem
      rw [← hp]
      exact ⟨rfl, rfl⟩
    · intro rules hr r hmem
      simp only [Option.getD, Option.some.injEq] at hr
      rw [← hr] at hmem
      obtain ⟨p, _, hp⟩ := List.mem_map.1 hmem
      rw [← hp]
      rfl
    · intro rules hr r hmem
      simp only [Option.getD, Option.some.injEq] at hr
      rw [← hr] at hmem
      obtain ⟨p, _, hp⟩ := List.mem_map.1 hmem
      rw [← hp]
      rfl

theorem transformed_noWholeWord (det : Detector) (h : det.Transformed) :
    (det.detection.getD {}).NoWholeWord := by
  obtain ⟨raw, h | h⟩ := h
  · exact transformWith_noWholeWord _ raw det h
  · exact transformWith_noWholeWord _ raw det h

end RuleLoader

namespace Background

open Js ScanEngine

/-- C29: with the catalog loaded and fingerprinting shown, for every catalog whose
detectors were made by `transformDetector` and every snapshot whose lists of selector
hits and of window property hits hold no empty string, `runDetection` of the
coordinator returns the same list as `ScanEngine.detectOnPage`, in the same order and
with the same matches and confidences, in whatever state the pattern cache of the
engine is. -/
theorem runDetection_eq_detectOnPage (H : Runtime) (detectors : Catalog)
    (showSetting : Option Bool) (pageData : PageData) (cache : PatternCache)
    (hc : Reachable H cache) (hs : showSetting ≠ some false)
    (ht : ∀ e ∈ detectors.enumerate, e.2.Transformed) (hp : pageData.HitsNonEmpty) :
    runDetection H true detectors showSetting (some pageData) =
      (detectOnPage H (some pageData) (some detectors) cache).1 := by
  rw [runDetection_shown H detectors showSetting pageData hs,
    (detectOnPage_eq H pageData detectors cache hc).1]
  congr 1
  apply List.filterMap_congr
  intro e he
  exact detectorResult_eq_resultFor H pageData e.1 e.2
    (RuleLoader.transformed_noWholeWord e.2 (ht e he)) hp

/-- C29, applied to the catalog that holds the loaded detector of the example, the
example page and a cache that already holds a compiled pattern: both passes report the
one result. -/
theorem runDetection_eq_detectOnPage_witness :
    (detectOnPage asciiRuntime (some Example.page) (some Example.loadedCatalog)
      Example.warmCache).1.length = 1 ∧
    runDetection asciiRuntime true Example.loadedCatalog none (some Example.page) =
      (detectOnPage asciiRuntime (some Example.page) (some Example.loadedCatalog)
        Example.warmCache).1 :=
  ⟨by decide,
    runDetection_eq_detectOnPage asciiRuntime Example.loadedCatalog none Example.page
      Example.warmCache
      (Reachable.call [] (some "bot") "robot" (some true) none none Reachable.empty)
      (by decide)
      (by
        intro e he
        have : e = ("antibot", Example.loadedCloudflare) := by
          simpa [Example.loadedCatalog, Catalog.enumerate] using he
        rw [this]
        exact ⟨Example.rawCloudflare, Or.inl rfl⟩)
      ⟨by
        intro d sels hd hsel
        have h1 : d = { selectors := some [".g-recaptcha"] } := (Option.some.inj hd).symm
        rw [h1] at hsel
        have h2 : sels = [".g-recaptcha"] := (Option.some.inj hsel).symm
        rw [h2]
        decide,
       by
        intro props hprops
        have h0 : Example.page.windowProps = none := rfl
        rw [h0] at hprops
        exact absurd hprops (by simp)⟩⟩

end Background

/-! ## Cache handler: lookups of detection entries -/

namespace CacheHandler

theorem lookup_filter_ne {α : Type} (l : List (String × α)) (key other : String)
    (h : other ≠ key) :
    (l.filter fun e => decide (e.1 ≠ key)).lookup other = l.lookup other := by
  induction l with
  | nil => rfl
  | cons e rest ih =>
    obtain ⟨k, v⟩ := e
    by_cases hk : k = key
    · subst hk
      have hb : (other == k) = false := by simp [h]
      have hf : List.filter (fun e : String × α => decide (e.1 ≠ k)) ((k, v) :: rest) =
          List.filter (fun e : String × α => decide (e.1 ≠ k)) rest := by
        rw [List.filter_cons]
        simp
      rw [hf, ih, List.lookup_cons, hb]
    · have hf : List.filter (fun e : String × α => decide (e.1 ≠ key)) ((k, v) :: rest) =
          (k, v) :: List.filter (fun e : String × α => decide (e.1 ≠ key)) rest := by
        rw [List.filter_cons]
        simp [hk]
      rw [hf, List.lookup_cons, List.lookup_cons, ih]

theorem lookup_memorySet_same (cache : List (String × MemoryEntry)) (key : String)
    (entry : MemoryEntry) : (memorySet cache key entry).lookup key = some entry := by
  simp [memorySet, List.lookup_cons]

theorem lookup_memorySet_other (cache : List (String × MemoryEntry)) (key other : String)
    (entry : MemoryEntry) (h : other ≠ key) :
    (memorySet cache key entry).lookup other = cache.lookup other := by
  have hb : (other == key) = false := by simp [h]
  unfold memorySet
  rw [List.lookup_cons, hb]
  exact lookup_filter_ne cache key other h

theorem lookup_storageSet_same (storage : Storage) (key : String) (value : StoredValue) :
    (storageSet storage key value).lookup key = some value := by
  simp [storageSet, List.lookup_cons]

theorem lookup_storageSet_other (storage : Storage) (key other : String)
    (value : StoredValue) (h : other ≠ key) :
    (storageSet storage key value).lookup other = storage.lookup other := by
  have hb : (other == key) = false := by simp [h]
  unfold storageSet
  rw [List.lookup_cons, hb]
  exact lookup_filter_ne storage key other h

theorem get_value (now : Int) (st : State) (key : String) (dflt : Option StoredValue) :
    (get now st key dflt).1 =
      match st.cache.lookup key with
      | some m => if now - m.timestamp < CACHE_DURATION then m.value else storedOr st key dflt
      | none => storedOr st key dflt := by
  unfold get storedOr
  cases st.cache.lookup key with
  | none => rfl
  | some m =>
    simp only []
    split <;> rfl

theorem get_of_agrees (now : Int) (st : State) (key : String) (dflt : Option StoredValue)
    (h : Agrees now st key dflt) : (get now st key dflt).1 = storedOr st key dflt := by
  rw [get_value]
  cases hm : st.cache.lookup key with
  | none => rfl
  | some m =>
    simp only []
    split
    · next hf => exact h m hm hf
    · rfl

theorem get_frame (now : Int) (st : State) (key other : String) (dflt : Option StoredValue)
    (h : other ≠ key) :
    (get now st key dflt).2.cache.lookup other = st.cache.lookup other ∧
    (get now st key dflt).2.storage = st.storage := by
  unfold get
  cases st.cache.lookup key with
  | none => exact ⟨lookup_memorySet_other _ _ _ _ h, rfl⟩
  | some m =>
    simp only []
    split
    · exact ⟨rfl, rfl⟩
    · exact ⟨lookup_memorySet_other _ _ _ _ h, rfl⟩

theorem get_value_congr (now : Int) (st st' : State) (key : String)
    (dflt : Option StoredValue) (hc : st'.cache.lookup key = st.cache.lookup key)
    (hs : st'.storage.lookup key = st.storage.lookup key) :
    (get now st' key dflt).1 = (get now st key dflt).1 := by
  rw [get_value, get_value, hc]
  unfold storedOr
  rw [hs]

theorem detectionKey_ne_durationKey (url : String) : durationKey ≠ detectionKey url := by
  intro h
  have hd := congrArg String.data h
  unfold detectionKey at hd
  rw [String.data_append] at hd
  have h1 : durationKey.data = 's' :: "crappey_cache_duration".data := rfl
  have h2 : ("detection_" : String).data = 'd' :: "etection_".data := rfl
  rw [h1, h2, List.cons_append] at hd
  have := (List.cons.inj hd).1
  exact absurd this (by decide)

theorem detectionKey_ne (u v : String) (h : hashUrl u ≠ hashUrl v) :
    detectionKey u ≠ detectionKey v := by
  intro hk
  apply h
  have hd := congrArg String.data hk
  unfold detectionKey at hd
  rw [String.data_append, String.data_append] at hd
  exact String.ext (List.append_cancel_left hd)

/-- The entry that `getDetectionCache` returns, from the values that `get` serves for
the key of the URL and for the duration. -/
theorem getDetectionCache_value (now : Int) (st : State) (url : String) :
    (getDetectionCache now st url).1 =
      match (get now st (detectionKey url) none).1 with
      | some (StoredValue.detectionEntry u detections timestamp count) =>
        if timestamp ≠ 0 then
          match toNumber (get now st durationKey (some (StoredValue.number 12))).1 with
          | some duration =>
            if now - timestamp < duration * 3600000 then
              some (StoredValue.detectionEntry u detections timestamp count)
            else none
          | none => none
        else none
      | _ => none := by
  have hf := get_frame now st (detectionKey url) durationKey none
    (detectionKey_ne_durationKey url)
  have hcongr := get_value_congr now st (get now st (detectionKey url) none).2 durationKey
    (some (StoredValue.number 12)) hf.1 (by rw [hf.2])
  unfold getDetectionCache
  simp only []
  cases hv : (get now st (detectionKey url) none).1 with
  | none => rfl
  | some value =>
    cases value with
    | bool b => rfl
    | number n => rfl
    | detectionEntry u detections timestamp count =>
      simp only []
      by_cases ht : timestamp ≠ 0
      · rw [if_pos ht, if_pos ht]
        have hk : (get now (get now st (detectionKey url) none).2 "scrappey_cache_duration"
            (some (StoredValue.number 12))).1 =
            (get now st durationKey (some (StoredValue.number 12))).1 := hcongr
        rw [hk]
        cases toNumber (get now st durationKey (some (StoredValue.number 12))).1 with
        | none => rfl
        | some duration =>
          simp only []
          have he : duration * 60 * 60 * 1000 = duration * 3600000 := by omega
          rw [he]
          split <;> rfl
      · rw [if_neg ht, if_neg ht]

end CacheHandler

namespace CacheHandler

set_option maxRecDepth 100000 in
theorem hashUrl_pageAa : hashUrl Example.pageAa = "yi6d72" := by decide

set_option maxRecDepth 100000 in
theorem hashUrl_pageBB : hashUrl Example.pageBB = "yi6d72" := by decide

set_option maxRecDepth 100000 in
theorem handlerAfterLookup_eq :
    Example.handlerAfterLookup =
      ⟨[("scrappey_cache_duration", ⟨some (StoredValue.number 12), 2000⟩),
        ("detection_yi6d72",
          ⟨some (StoredValue.detectionEntry Example.pageAa [Example.cfResult] 1000 1), 1000⟩)],
       [("detection_yi6d72",
          StoredValue.detectionEntry Example.pageAa [Example.cfResult] 1000 1)]⟩ := by
  decide

theorem detectionKey_pageAa : detectionKey Example.pageAa = "detection_yi6d72" := by
  unfold detectionKey
  rw [hashUrl_pageAa]
  rfl

set_option maxRecDepth 100000 in
theorem stale_duration_lookup :
    (getDetectionCache 7201000
      (externalSet Example.handlerAfterLookup durationKey (StoredValue.number 1))
      Example.pageAa).1 =
      some (StoredValue.detectionEntry Example.pageAa [Example.cfResult] 1000 1) := by
  rw [getDetectionCache_value, detectionKey_pageAa, handlerAfterLookup_eq]
  decide

/-- C25 (as stated, refuted): an entry is stored for the shop page at time 1000 and
looked up at time 2000, which leaves the default duration 12 in the in-memory map; the
setting is then stored as 1 hour by a direct write to the host store, as the settings
panel does. At time 7,201,000 the entry is 2 hours old and the stored duration is 1
hour, yet `getDetectionCache` returns the entry: it reads the duration from the
in-memory map. -/
theorem getDetectionCache_stale_duration :
    (externalSet Example.handlerAfterLookup durationKey (StoredValue.number 1)).storage.lookup
      (detectionKey Example.pageAa) =
      some (StoredValue.detectionEntry Example.pageAa [Example.cfResult] 1000 1) ∧
    (externalSet Example.handlerAfterLookup durationKey (StoredValue.number 1)).storage.lookup
      durationKey = some (StoredValue.number 1) ∧
    ¬ ((7201000 : Int) - 1000 < 1 * 3600000) ∧
    (getDetectionCache 7201000
      (externalSet Example.handlerAfterLookup durationKey (StoredValue.number 1))
      Example.pageAa).1 =
      some (StoredValue.detectionEntry Example.pageAa [Example.cfResult] 1000 1) := by
  refine ⟨?_, ?_, by decide, stale_duration_lookup⟩
  · rw [detectionKey_pageAa, handlerAfterLookup_eq]
    decide
  · rw [handlerAfterLookup_eq]
    decide

/-- C25 (amended): let the host store hold a detection entry with a timestamp `t0`
other than 0 for the URL and the duration `d` (12 when the setting is not stored), and
let the in-memory map agree with the store on both keys: whatever it holds for them
that is younger than 12 hours is what the store holds. Then `getDetectionCache` at the
time `now` returns the stored entry when `now - t0 < d * 3,600,000` and null otherwise,
whether the in-memory map or the host store serves the entry. -/
theorem getDetectionCache_ttl (now : Int) (st : State) (url u : String)
    (detections : List DetectionResult) (t0 : Int) (count : Nat) (d : Int)
    (hentry : st.storage.lookup (detectionKey url) =
      some (StoredValue.detectionEntry u detections t0 count))
    (ht0 : t0 ≠ 0)
    (hd : st.storage.lookup durationKey = some (StoredValue.number d) ∨
      (st.storage.lookup durationKey = none ∧ d = 12))
    (hae : Agrees now st (detectionKey url) none)
    (had : Agrees now st durationKey (some (StoredValue.number 12))) :
    (getDetectionCache now st url).1 =
      if now - t0 < d * 3600000 then some (StoredValue.detectionEntry u detections t0 count)
      else none := by
  have h1 : (get now st (detectionKey url) none).1 =
      some (StoredValue.detectionEntry u detections t0 count) := by
    rw [get_of_agrees now st _ _ hae]
    unfold storedOr
    rw [hentry]
  have h2 : (get now st durationKey (some (StoredValue.number 12))).1 =
      some (StoredValue.number d) := by
    rw [get_of_agrees now st _ _ had]
    unfold storedOr
    rcases hd with hd | ⟨hd, h12⟩
    · rw [hd]
    · rw [hd, h12]
  rw [getDetectionCache_value, h1, h2]
  simp only [toNumber]
  rw [if_pos ht0]

/-- C25 (amended), applied to the state left by the lookup at time 2000, in which the
in-memory map holds the entry and the default duration: at time 3000 the entry is
returned. -/
theorem getDetectionCache_ttl_witness :
    Example.handlerAfterLookup.cache.lookup (detectionKey Example.pageAa) ≠ none ∧
    (getDetectionCache 3000 Example.handlerAfterLookup Example.pageAa).1 =
      if (3000 : Int) - 1000 < 12 * 3600000 then
        some (StoredValue.detectionEntry Example.pageAa [Example.cfResult] 1000 1)
      else none :=
  ⟨by rw [detectionKey_pageAa, handlerAfterLookup_eq]; decide,
    getDetectionCache_ttl 3000 Example.handlerAfterLookup Example.pageAa Example.pageAa
      [Example.cfResult] 1000 1 12
      (by rw [detectionKey_pageAa, handlerAfterLookup_eq]; decide)
      (by decide)
      (Or.inr ⟨by rw [handlerAfterLookup_eq]; decide, rfl⟩)
      (by
        intro m hm _
        rw [detectionKey_pageAa, handlerAfterLookup_eq] at hm
        have h : m = ⟨some (StoredValue.detectionEntry Example.pageAa [Example.cfResult]
            1000 1), 1000⟩ := by
          have h2 : (some (⟨some (StoredValue.detectionEntry Example.pageAa [Example.cfResult]
              1000 1), 1000⟩ : MemoryEntry)) = some m := hm
          exact (Option.some.inj h2).symm
        rw [h, detectionKey_pageAa, handlerAfterLookup_eq]
        decide)
      (by
        intro m hm _
        rw [handlerAfterLookup_eq] at hm
        have h : m = ⟨some (StoredValue.number 12), 2000⟩ := by
          have h2 : (some (⟨some (StoredValue.number 12), 2000⟩ : MemoryEntry)) = some m := hm
          exact (Option.some.inj h2).symm
        rw [h, handlerAfterLookup_eq]
        decide)⟩

end CacheHandler

namespace CacheHandler

set_option maxRecDepth 100000 in
theorem collision_lookup :
    (getDetectionCache 3000
      (setDetectionCache 2000 (setDetectionCache 1000 ⟨[], []⟩ Example.pageAa [Example.cfResult])
        Example.pageBB [])
      Example.pageAa).1 =
      some (StoredValue.detectionEntry Example.pageBB [] 2000 0) := by
  rw [getDetectionCache_value]
  unfold setDetectionCache
  rw [detectionKey_pageAa]
  have hb : detectionKey Example.pageBB = "detection_yi6d72" := by
    unfold detectionKey
    rw [hashUrl_pageBB]
    rfl
  rw [hb]
  decide

/-- C28 (as stated, refuted): the two shop pages `.../Aa` and `.../BB` are different URLs
with the same hash, so they share one storage key. After `setDetectionCache` for the
first with one detection and for the second with none, a lookup of the first within the
TTL returns the entry of the second. -/
theorem setDetectionCache_collision :
    Example.pageAa ≠ Example.pageBB ∧
    hashUrl Example.pageAa = hashUrl Example.pageBB ∧
    (3000 : Int) - 1000 < 12 * 3600000 ∧
    (getDetectionCache 3000
      (setDetectionCache 2000 (setDetectionCache 1000 ⟨[], []⟩ Example.pageAa [Example.cfResult])
        Example.pageBB [])
      Example.pageAa).1 =
      some (StoredValue.detectionEntry Example.pageBB [] 2000 0) :=
  ⟨by decide, by rw [hashUrl_pageAa, hashUrl_pageBB], by decide, collision_lookup⟩

theorem get_after_sets (now t₁ t₂ : Int) (st : State) (ku kv : String) (eu ev : StoredValue)
    (hne : ku ≠ kv) :
    (get now (set t₂ (set t₁ st ku eu) kv ev) ku none).1 = some eu := by
  rw [get_value]
  have hc : (set t₂ (set t₁ st ku eu) kv ev).cache.lookup ku = some ⟨some eu, t₁⟩ := by
    unfold set
    simp only []
    rw [lookup_memorySet_other _ _ _ _ hne, lookup_memorySet_same]
  have hs : (set t₂ (set t₁ st ku eu) kv ev).storage.lookup ku = some eu := by
    unfold set
    simp only []
    rw [lookup_storageSet_other _ _ _ _ hne, lookup_storageSet_same]
  rw [hc]
  simp only []
  split
  · rfl
  · unfold storedOr
    rw [hs]

theorem get_duration_after_sets (now t₁ t₂ : Int) (st : State) (u v : String)
    (eu ev : StoredValue) (dflt : Option StoredValue) :
    (get now (set t₂ (set t₁ st (detectionKey u) eu) (detectionKey v) ev) durationKey dflt).1 =
      (get now st durationKey dflt).1 := by
  apply get_value_congr
  · unfold set
    simp only []
    rw [lookup_memorySet_other _ _ _ _ (detectionKey_ne_durationKey v),
      lookup_memorySet_other _ _ _ _ (detectionKey_ne_durationKey u)]
  · unfold set
    simp only []
    rw [lookup_storageSet_other _ _ _ _ (detectionKey_ne_durationKey v),
      lookup_storageSet_other _ _ _ _ (detectionKey_ne_durationKey u)]

/-- C28 (amended): for URLs `u` and `v` with different hashes, after
`setDetectionCache(u, d)` at a time `t₁` other than 0 and `setDetectionCache(v, e)`, a
lookup of `u` at a time `now` within the duration that `get` serves (in hours) returns
the entry stored for `u`: its URL, its detections, its time and their number. URLs with
the same hash share one key, and the later write replaces the earlier entry. -/
theorem setDetectionCache_frame (st : State) (u v : String) (d e : List DetectionResult)
    (t₁ t₂ now dur : Int) (hk : hashUrl u ≠ hashUrl v) (ht : t₁ ≠ 0)
    (hdur : toNumber (get now st durationKey (some (StoredValue.number 12))).1 = some dur)
    (hfresh : now - t₁ < dur * 3600000) :
    (getDetectionCache now (setDetectionCache t₂ (setDetectionCache t₁ st u d) v e) u).1 =
      some (StoredValue.detectionEntry u d t₁ d.length) := by
  rw [getDetectionCache_value]
  unfold setDetectionCache
  rw [get_after_sets now t₁ t₂ st _ _ _ _ (detectionKey_ne u v hk),
    get_duration_after_sets, hdur]
  simp only []
  rw [if_pos ht, if_pos hfresh]

set_option maxRecDepth 100000 in
theorem hashUrl_pageAa_ne : hashUrl Example.pageAa ≠ hashUrl "https://other.example/" := by
  decide

/-- C28 (amended), applied to the shop page and a page of another site, both layers
empty before: the lookup at time 3000 returns the entry of the shop page. -/
theorem setDetectionCache_frame_witness :
    (3000 : Int) - 1000 < 12 * 3600000 ∧
    (getDetectionCache 3000
      (setDetectionCache 2000 (setDetectionCache 1000 ⟨[], []⟩ Example.pageAa [Example.cfResult])
        "https://other.example/" [])
      Example.pageAa).1 =
      some (StoredValue.detectionEntry Example.pageAa [Example.cfResult] 1000 1) :=
  ⟨by decide,
    setDetectionCache_frame ⟨[], []⟩ Example.pageAa "https://other.example/" [Example.cfResult]
      [] 1000 2000 3000 12 hashUrl_pageAa_ne (by decide) rfl (by decide)⟩

end CacheHandler
